import Mathlib

/-!
# go-scm: Azure webhook normalisation, the transport core and its drivers

A shallow embedding of

* `scm/driver/azure/webhook.go`: `webhookService.Parse` and the four converters
  `convertPushHook`, `convertCreatePullRequestHook`, `convertUpdatePullRequestHook`,
  `convertMergePullRequestHook`;
* `scm/client.go`: `Response.populatePageValues`, `newResponse`, `Client.Do`,
  `Client.requestDetails`, `Client.Rate` and `Client.SetRate`;
* `scm/driver/github/github.go`: `wrapper.do`;
* `scm/driver/github/apps.go`: `appsService.Get` and the converters `convertApp`,
  `convertInstallation`, `convertInstallationList` and `convertInstallationPermissions`;
* `scm/driver/gitea/apps.go`: the methods of `appsService`;
* `scm/transport/proxy/proxy.go`: `NewTransport` and `Transport.RoundTrip`.

Go values are modelled by Lean values: `string` by `String`, `int`/`int64` by `Int` (range
checks are explicit where the code depends on them), slices by `List`, a `(T, error)` result
by an explicit pair, and a run-time panic by a dedicated constructor of the result type.
The Go standard library is not part of the repository.  Its byte-level JSON scanner, its
RFC 3339 time parser and its URL parser are parameters of the development (`Lib`), and so
are the resolution and printing of URLs, `http.NewRequest` and the default HTTP client
(`Net`); code of the repository that is not among these files (the user conversion of the
GitHub driver) is a parameter as well.  The behaviour of `encoding/json` above the scanner
(how a scanned document is stored into a Go value) is written out, since the code under
study depends on it.  Calls are sequential: a `Lock` on a mutex that is held is a run that
never returns.
-/

set_option autoImplicit false
set_option maxRecDepth 100000
set_option exponentiation.threshold 2000
set_option linter.dupNamespace false

namespace GoScm

/-! ## Bytes, documents and the library interface -/

/-- One byte of a request body (a natural number below 256). -/
abbrev Byte := Nat

/-- The bytes of an ASCII text. -/
def bytesOf (s : String) : List Byte := s.toList.map Char.toNat

/-- A scanned JSON document.  A number literal without fraction and exponent is `int`; a
literal with a fraction or an exponent is `dec mant exp10`, standing for `mant * 10 ^ exp10`.
Object members are kept in document order, duplicates included. -/
inductive JSON where
  | null
  | bool (b : Bool)
  | int (n : Int)
  | dec (mant : Int) (exp10 : Int)
  | str (s : String)
  | arr (xs : List JSON)
  | obj (kvs : List (String × JSON))
  deriving Repr

/-- A `time.Time` value: nanoseconds elapsed since the zero `time.Time`. -/
structure Time where
  nanos : Int
  deriving DecidableEq, Repr

/-- The zero value `time.Time{}`. -/
def Time.zero : Time := ⟨0⟩

/-- The struct `url.URL`, without its `User`, `ForceQuery`, `OmitHost` and `RawFragment`
fields, which the code under study neither reads nor writes. -/
structure URL where
  Scheme : String := ""
  Opaque : String := ""
  Host : String := ""
  Path : String := ""
  RawPath : String := ""
  RawQuery : String := ""
  Fragment : String := ""
  deriving DecidableEq, Repr

/-- The standard-library functions the code calls and the repository does not contain.
`scan` is the scanner of `encoding/json`: `none` when the bytes are not one valid JSON value,
the document otherwise.  `parseTime` is `time.Parse(time.RFC3339, s)` (`none` on error).
`urlParse` is `url.Parse` (`none` on error) and `queryGet u k` is `u.Query().Get(k)`. -/
structure Lib where
  scan : List Byte → Option JSON
  parseTime : String → Option Time
  urlParse : String → Option URL
  queryGet : URL → String → String

/-- Whether the magnitude `q` (an integer lower bound obtained by truncation) reaches
`2^1024 - 2^970`, from which `strconv.ParseFloat(_, 64)` reports a range error. -/
def overflowsFloat64 (q : Nat) : Bool := decide (2 ^ 54 - 1 ≤ q >>> 970)

/-- Whether `strconv.ParseFloat(lit, 64)` succeeds on the literal `mant * 10 ^ exp10`. -/
def fitsFloat64 (mant exp10 : Int) : Bool :=
  if 0 ≤ exp10 then !overflowsFloat64 (mant.natAbs * 10 ^ exp10.toNat)
  else !overflowsFloat64 (mant.natAbs / 10 ^ (-exp10).toNat)

mutual
/-- Whether storing the document into an `interface{}` succeeds: `encoding/json` converts
every number literal with `strconv.ParseFloat` and records an `UnmarshalTypeError` for a
literal that overflows `float64`. -/
def JSON.storable : JSON → Bool
  | .int n => fitsFloat64 n 0
  | .dec m e => fitsFloat64 m e
  | .arr xs => storableList xs
  | .obj kvs => storableMembers kvs
  | _ => true
/-- All elements of an array are storable. -/
def storableList : List JSON → Bool
  | [] => true
  | x :: xs => x.storable && storableList xs
/-- All member values of an object are storable. -/
def storableMembers : List (String × JSON) → Bool
  | [] => true
  | (_, x) :: kvs => x.storable && storableMembers kvs
end

/-- The value of `m[key]` for the Go map built from the members `kvs`: the value of the last
member named `key` (a later duplicate overwrites an earlier one), `none` when there is none. -/
def mapIndex : List (String × JSON) → String → Option JSON
  | [], _ => none
  | (k, v) :: kvs, key =>
    match mapIndex kvs key with
    | some w => some w
    | none => if k = key then some v else none

/-- Case folding of one rune, as far as it can reach an ASCII letter: upper-case ASCII maps
to lower case, the Kelvin sign to `k` and the long s to `s`. -/
def foldRune (c : Char) : Char :=
  if c = Char.ofNat 0x212A then 'k'
  else if c = Char.ofNat 0x17F then 's'
  else c.toLower

/-- The test `encoding/json` uses to match an object key with a struct field named `name`
(an ASCII name): equal, or equal under case folding. -/
def equalFold (key name : String) : Bool :=
  key.toList.map foldRune == name.toList.map foldRune

/-! ## Storing a document into typed Go values

Each function takes the document and the current value of the target and returns the new
value, or `none` when `json.Unmarshal` would return a non-nil error.  JSON `null` leaves a
non-pointer target unchanged.  `encoding/json` goes on after a type mismatch and reports the
first one at the end; since `Parse` discards the target whenever an error is returned, only
the presence of an error is kept.  Two details are left out: a slice is a `List` without
spare capacity (this matters only when the same slice-typed key occurs three times in one
object), and a timestamp is parsed from the text of its string, not from its raw literal
(this matters only for timestamps written with escape sequences).  The claims about decoded
payloads are stated over the decoded value and do not depend on either. -/

/-- Target of type `string`. -/
def decString (v : JSON) (dst : String) : Option String :=
  match v with
  | .null => some dst
  | .str s => some s
  | _ => none

/-- Target of type `int` or `int64` (both 64 bits wide): an integer literal in range. -/
def decInt (v : JSON) (dst : Int) : Option Int :=
  match v with
  | .null => some dst
  | .int n => if -(2 : Int) ^ 63 ≤ n ∧ n < (2 : Int) ^ 63 then some n else none
  | _ => none

/-- Target of type `bool`. -/
def decBool (v : JSON) (dst : Bool) : Option Bool :=
  match v with
  | .null => some dst
  | .bool b => some b
  | _ => none

/-- Target of type `time.Time` (`Time.UnmarshalJSON`): a JSON string in RFC 3339 format. -/
def decTime (lib : Lib) (v : JSON) (dst : Time) : Option Time :=
  match v with
  | .null => some dst
  | .str s => lib.parseTime s
  | _ => none

/-- Target of type `interface{}`: any document whose numbers fit `float64`; `null` stores
nil. -/
def decIface (v : JSON) (_dst : JSON) : Option JSON :=
  if v.storable then some v else none

/-- Target of a struct type whose fields are stored by `set`: the members of an object are
stored in document order, keys that match no field are skipped. -/
def decStruct {α : Type} (set : α → String → JSON → Option α) (v : JSON) (dst : α) : Option α :=
  match v with
  | .null => some dst
  | .obj kvs => kvs.foldlM (fun d kv => set d kv.1 kv.2) dst
  | _ => none

/-- Elements of an array stored into a slice: element `i` is stored into the old element `i`
when the slice had one and into a zero value otherwise. -/
def decElems {α : Type} (dec : JSON → α → Option α) (zero : α) : List JSON → List α → Option (List α)
  | [], _ => some []
  | j :: js, old =>
    match dec j (old.headD zero) with
    | none => none
    | some x =>
      match decElems dec zero js old.tail with
      | none => none
      | some xs => some (x :: xs)

/-- Target of a slice type: an array; `null` stores the nil slice. -/
def decSlice {α : Type} (dec : JSON → α → Option α) (zero : α) (v : JSON) (dst : List α) :
    Option (List α) :=
  match v with
  | .null => some []
  | .arr js => decElems dec zero js dst
  | _ => none

/-! ## The Azure wire types (`scm/driver/azure/webhook.go`)

The Go file declares the four hook types with anonymous nested structs.  Nested structs
with the same fields and the same JSON names are written once here.  Every field has its Go
zero value as default, so `{}` is the value `new(T)` points to. -/

namespace azure

/-- The struct `{html, markdown, text}` of `message` and `detailedMessage`. -/
structure hookMessage where
  HTML : String := ""
  Markdown : String := ""
  Text : String := ""
  deriving Repr

/-- The struct `{date, email, name}` of a pushed commit's `author` and `committer`. -/
structure commitSignature where
  Date : Time := Time.zero
  Email : String := ""
  Name : String := ""
  deriving Repr

/-- An element of `pushHook.Resource.Commits`. -/
structure pushCommit where
  Author : commitSignature := {}
  Comment : String := ""
  CommitID : String := ""
  Committer : commitSignature := {}
  URL : String := ""
  deriving Repr

/-- The struct `pushHook.Resource.PushedBy`. -/
structure pushedBy where
  DisplayName : String := ""
  ID : String := ""
  UniqueName : String := ""
  deriving Repr

/-- An element of `pushHook.Resource.RefUpdates`. -/
structure refUpdate where
  Name : String := ""
  NewObjectID : String := ""
  OldObjectID : String := ""
  deriving Repr

/-- The struct `Repository.Project`. -/
structure project where
  ID : String := ""
  Name : String := ""
  State : String := ""
  URL : String := ""
  deriving Repr

/-- The struct `Resource.Repository` of all four hook types. -/
structure repository where
  DefaultBranch : String := ""
  ID : String := ""
  Name : String := ""
  Project : project := {}
  RemoteURL : String := ""
  URL : String := ""
  deriving Repr

/-- The struct `{id}` of the members of `resourceContainers`. -/
structure containerRef where
  ID : String := ""
  deriving Repr

/-- The struct `ResourceContainers` of all four hook types. -/
structure resourceContainers where
  Account : containerRef := {}
  Collection : containerRef := {}
  Project : containerRef := {}
  deriving Repr

/-- The struct `Resource.CreatedBy` of the three pull-request hook types. -/
structure createdBy where
  DisplayName : String := ""
  ID : String := ""
  ImageURL : String := ""
  UniqueName : String := ""
  URL : String := ""
  deriving Repr

/-- The struct `{commitId, url}` (`lastMergeCommit` and its siblings, and the elements of
`updatePullRequestHook.Resource.Commits`). -/
structure commitRef where
  CommitID : String := ""
  URL : String := ""
  deriving Repr

/-- An element of `Resource.Reviewers`.  `ReviewerURL` has type `interface{}`; the stored
dynamic value is represented by the document it was read from (`null` for nil). -/
structure reviewer where
  DisplayName : String := ""
  ID : String := ""
  ImageURL : String := ""
  IsContainer : Bool := false
  ReviewerURL : JSON := JSON.null
  UniqueName : String := ""
  URL : String := ""
  Vote : Int := 0
  deriving Repr

/-- The struct `pushHook.Resource`. -/
structure pushResource where
  Commits : List pushCommit := []
  Date : String := ""
  PushID : Int := 0
  PushedBy : pushedBy := {}
  RefUpdates : List refUpdate := []
  Repository : repository := {}
  URL : String := ""
  deriving Repr

/-- The Go type `pushHook`. -/
structure pushHook where
  CreatedDate : String := ""
  DetailedMessage : hookMessage := {}
  EventType : String := ""
  ID : String := ""
  Message : hookMessage := {}
  PublisherID : String := ""
  Resource : pushResource := {}
  ResourceContainers : resourceContainers := {}
  ResourceVersion : String := ""
  Scope : String := ""
  deriving Repr

/-- The struct `createPullRequestHook.Resource`. -/
structure createPullRequestResource where
  Repository : repository := {}
  PullRequestID : Int := 0
  Status : String := ""
  CreatedBy : createdBy := {}
  CreationDate : Time := Time.zero
  Title : String := ""
  Description : String := ""
  SourceRefName : String := ""
  TargetRefName : String := ""
  MergeStatus : String := ""
  MergeID : String := ""
  LastMergeSourceCommit : commitRef := {}
  LastMergeTargetCommit : commitRef := {}
  LastMergeCommit : commitRef := {}
  Reviewers : List reviewer := []
  URL : String := ""
  deriving Repr

/-- The Go type `createPullRequestHook` (its `CreatedDate` is a `time.Time`). -/
structure createPullRequestHook where
  ID : String := ""
  EventType : String := ""
  PublisherID : String := ""
  Scope : String := ""
  Message : hookMessage := {}
  DetailedMessage : hookMessage := {}
  Resource : createPullRequestResource := {}
  ResourceVersion : String := ""
  ResourceContainers : resourceContainers := {}
  CreatedDate : Time := Time.zero
  deriving Repr

/-- The struct `updatePullRequestHook.Resource`. -/
structure updatePullRequestResource where
  ClosedDate : String := ""
  Commits : List commitRef := []
  CreatedBy : createdBy := {}
  CreationDate : Time := Time.zero
  Description : String := ""
  LastMergeCommit : commitRef := {}
  LastMergeSourceCommit : commitRef := {}
  LastMergeTargetCommit : commitRef := {}
  MergeID : String := ""
  MergeStatus : String := ""
  PullRequestID : Int := 0
  Repository : repository := {}
  Reviewers : List reviewer := []
  SourceRefName : String := ""
  Status : String := ""
  TargetRefName : String := ""
  Title : String := ""
  URL : String := ""
  deriving Repr

/-- The Go type `updatePullRequestHook`. -/
structure updatePullRequestHook where
  CreatedDate : String := ""
  DetailedMessage : hookMessage := {}
  EventType : String := ""
  ID : String := ""
  Message : hookMessage := {}
  PublisherID : String := ""
  Resource : updatePullRequestResource := {}
  ResourceContainers : resourceContainers := {}
  ResourceVersion : String := ""
  Scope : String := ""
  deriving Repr

/-- The struct `mergePullRequestHook.Resource`. -/
structure mergePullRequestResource where
  ClosedDate : String := ""
  CreatedBy : createdBy := {}
  CreationDate : Time := Time.zero
  Description : String := ""
  LastMergeCommit : commitRef := {}
  LastMergeSourceCommit : commitRef := {}
  LastMergeTargetCommit : commitRef := {}
  MergeID : String := ""
  MergeStatus : String := ""
  PullRequestID : Int := 0
  Repository : repository := {}
  Reviewers : List reviewer := []
  SourceRefName : String := ""
  Status : String := ""
  TargetRefName : String := ""
  Title : String := ""
  URL : String := ""
  deriving Repr

/-- The Go type `mergePullRequestHook`. -/
structure mergePullRequestHook where
  CreatedDate : String := ""
  DetailedMessage : hookMessage := {}
  EventType : String := ""
  ID : String := ""
  Message : hookMessage := {}
  PublisherID : String := ""
  Resource : mergePullRequestResource := {}
  ResourceContainers : resourceContainers := {}
  ResourceVersion : String := ""
  Scope : String := ""
  deriving Repr

/-! ## Storing a document into the wire types -/

/-- Stores the member `k : v` of an object into the matching field of a `hookMessage`. -/
def hookMessage.set (d : hookMessage) (k : String) (v : JSON) : Option hookMessage :=
  if equalFold k "html" then
    (decString v d.HTML).map fun x => { d with HTML := x }
  else if equalFold k "markdown" then
    (decString v d.Markdown).map fun x => { d with Markdown := x }
  else if equalFold k "text" then
    (decString v d.Text).map fun x => { d with Text := x }
  else some d

/-- Stores the member `k : v` of an object into the matching field of a `commitSignature`. -/
def commitSignature.set (lib : Lib) (d : commitSignature) (k : String) (v : JSON) : Option commitSignature :=
  if equalFold k "date" then
    (decTime lib v d.Date).map fun x => { d with Date := x }
  else if equalFold k "email" then
    (decString v d.Email).map fun x => { d with Email := x }
  else if equalFold k "name" then
    (decString v d.Name).map fun x => { d with Name := x }
  else some d

/-- Stores the member `k : v` of an object into the matching field of a `pushCommit`. -/
def pushCommit.set (lib : Lib) (d : pushCommit) (k : String) (v : JSON) : Option pushCommit :=
  if equalFold k "author" then
    (decStruct (commitSignature.set lib) v d.Author).map fun x => { d with Author := x }
  else if equalFold k "comment" then
    (decString v d.Comment).map fun x => { d with Comment := x }
  else if equalFold k "commitId" then
    (decString v d.CommitID).map fun x => { d with CommitID := x }
  else if equalFold k "committer" then
    (decStruct (commitSignature.set lib) v d.Committer).map fun x => { d with Committer := x }
  else if equalFold k "url" then
    (decString v d.URL).map fun x => { d with URL := x }
  else some d

/-- Stores the member `k : v` of an object into the matching field of a `pushedBy`. -/
def pushedBy.set (d : pushedBy) (k : String) (v : JSON) : Option pushedBy :=
  if equalFold k "displayName" then
    (decString v d.DisplayName).map fun x => { d with DisplayName := x }
  else if equalFold k "id" then
    (decString v d.ID).map fun x => { d with ID := x }
  else if equalFold k "uniqueName" then
    (decString v d.UniqueName).map fun x => { d with UniqueName := x }
  else some d

/-- Stores the member `k : v` of an object into the matching field of a `refUpdate`. -/
def refUpdate.set (d : refUpdate) (k : String) (v : JSON) : Option refUpdate :=
  if equalFold k "name" then
    (decString v d.Name).map fun x => { d with Name := x }
  else if equalFold k "newObjectId" then
    (decString v d.NewObjectID).map fun x => { d with NewObjectID := x }
  else if equalFold k "oldObjectId" then
    (decString v d.OldObjectID).map fun x => { d with OldObjectID := x }
  else some d

/-- Stores the member `k : v` of an object into the matching field of a `project`. -/
def project.set (d : project) (k : String) (v : JSON) : Option project :=
  if equalFold k "id" then
    (decString v d.ID).map fun x => { d with ID := x }
  else if equalFold k "name" then
    (decString v d.Name).map fun x => { d with Name := x }
  else if equalFold k "state" then
    (decString v d.State).map fun x => { d with State := x }
  else if equalFold k "url" then
    (decString v d.URL).map fun x => { d with URL := x }
  else some d

/-- Stores the member `k : v` of an object into the matching field of a `repository`. -/
def repository.set (d : repository) (k : String) (v : JSON) : Option repository :=
  if equalFold k "defaultBranch" then
    (decString v d.DefaultBranch).map fun x => { d with DefaultBranch := x }
  else if equalFold k "id" then
    (decString v d.ID).map fun x => { d with ID := x }
  else if equalFold k "name" then
    (decString v d.Name).map fun x => { d with Name := x }
  else if equalFold k "project" then
    (decStruct project.set v d.Project).map fun x => { d with Project := x }
  else if equalFold k "remoteUrl" then
    (decString v d.RemoteURL).map fun x => { d with RemoteURL := x }
  else if equalFold k "url" then
    (decString v d.URL).map fun x => { d with URL := x }
  else some d

/-- Stores the member `k : v` of an object into the matching field of a `containerRef`. -/
def containerRef.set (d : containerRef) (k : String) (v : JSON) : Option containerRef :=
  if equalFold k "id" then
    (decString v d.ID).map fun x => { d with ID := x }
  else some d

/-- Stores the member `k : v` of an object into the matching field of a `resourceContainers`. -/
def resourceContainers.set (d : resourceContainers) (k : String) (v : JSON) : Option resourceContainers :=
  if equalFold k "account" then
    (decStruct containerRef.set v d.Account).map fun x => { d with Account := x }
  else if equalFold k "collection" then
    (decStruct containerRef.set v d.Collection).map fun x => { d with Collection := x }
  else if equalFold k "project" then
    (decStruct containerRef.set v d.Project).map fun x => { d with Project := x }
  else some d

/-- Stores the member `k : v` of an object into the matching field of a `createdBy`. -/
def createdBy.set (d : createdBy) (k : String) (v : JSON) : Option createdBy :=
  if equalFold k "displayName" then
    (decString v d.DisplayName).map fun x => { d with DisplayName := x }
  else if equalFold k "id" then
    (decString v d.ID).map fun x => { d with ID := x }
  else if equalFold k "imageUrl" then
    (decString v d.ImageURL).map fun x => { d with ImageURL := x }
  else if equalFold k "uniqueName" then
    (decString v d.UniqueName).map fun x => { d with UniqueName := x }
  else if equalFold k "url" then
    (decString v d.URL).map fun x => { d with URL := x }
  else some d

/-- Stores the member `k : v` of an object into the matching field of a `commitRef`. -/
def commitRef.set (d : commitRef) (k : String) (v : JSON) : Option commitRef :=
  if equalFold k "commitId" then
    (decString v d.CommitID).map fun x => { d with CommitID := x }
  else if equalFold k "url" then
    (decString v d.URL).map fun x => { d with URL := x }
  else some d

/-- Stores the member `k : v` of an object into the matching field of a `reviewer`. -/
def reviewer.set (d : reviewer) (k : String) (v : JSON) : Option reviewer :=
  if equalFold k "displayName" then
    (decString v d.DisplayName).map fun x => { d with DisplayName := x }
  else if equalFold k "id" then
    (decString v d.ID).map fun x => { d with ID := x }
  else if equalFold k "imageUrl" then
    (decString v d.ImageURL).map fun x => { d with ImageURL := x }
  else if equalFold k "isContainer" then
    (decBool v d.IsContainer).map fun x => { d with IsContainer := x }
  else if equalFold k "reviewerUrl" then
    (decIface v d.ReviewerURL).map fun x => { d with ReviewerURL := x }
  else if equalFold k "uniqueName" then
    (decString v d.UniqueName).map fun x => { d with UniqueName := x }
  else if equalFold k "url" then
    (decString v d.URL).map fun x => { d with URL := x }
  else if equalFold k "vote" then
    (decInt v d.Vote).map fun x => { d with Vote := x }
  else some d

/-- Stores the member `k : v` of an object into the matching field of a `pushResource`. -/
def pushResource.set (lib : Lib) (d : pushResource) (k : String) (v : JSON) : Option pushResource :=
  if equalFold k "commits" then
    (decSlice (decStruct (pushCommit.set lib)) {} v d.Commits).map fun x => { d with Commits := x }
  else if equalFold k "date" then
    (decString v d.Date).map fun x => { d with Date := x }
  else if equalFold k "pushId" then
    (decInt v d.PushID).map fun x => { d with PushID := x }
  else if equalFold k "pushedBy" then
    (decStruct pushedBy.set v d.PushedBy).map fun x => { d with PushedBy := x }
  else if equalFold k "refUpdates" then
    (decSlice (decStruct refUpdate.set) {} v d.RefUpdates).map fun x => { d with RefUpdates := x }
  else if equalFold k "repository" then
    (decStruct repository.set v d.Repository).map fun x => { d with Repository := x }
  else if equalFold k "url" then
    (decString v d.URL).map fun x => { d with URL := x }
  else some d

/-- Stores the member `k : v` of an object into the matching field of a `pushHook`. -/
def pushHook.set (lib : Lib) (d : pushHook) (k : String) (v : JSON) : Option pushHook :=
  if equalFold k "createdDate" then
    (decString v d.CreatedDate).map fun x => { d with CreatedDate := x }
  else if equalFold k "detailedMessage" then
    (decStruct hookMessage.set v d.DetailedMessage).map fun x => { d with DetailedMessage := x }
  else if equalFold k "eventType" then
    (decString v d.EventType).map fun x => { d with EventType := x }
  else if equalFold k "id" then
    (decString v d.ID).map fun x => { d with ID := x }
  else if equalFold k "message" then
    (decStruct hookMessage.set v d.Message).map fun x => { d with Message := x }
  else if equalFold k "publisherId" then
    (decString v d.PublisherID).map fun x => { d with PublisherID := x }
  else if equalFold k "resource" then
    (decStruct (pushResource.set lib) v d.Resource).map fun x => { d with Resource := x }
  else if equalFold k "resourceContainers" then
    (decStruct resourceContainers.set v d.ResourceContainers).map fun x => { d with ResourceContainers := x }
  else if equalFold k "resourceVersion" then
    (decString v d.ResourceVersion).map fun x => { d with ResourceVersion := x }
  else if equalFold k "scope" then
    (decString v d.Scope).map fun x => { d with Scope := x }
  else some d

/-- Stores the member `k : v` of an object into the matching field of a `createPullRequestResource`. -/
def createPullRequestResource.set (lib : Lib) (d : createPullRequestResource) (k : String) (v : JSON) : Option createPullRequestResource :=
  if equalFold k "repository" then
    (decStruct repository.set v d.Repository).map fun x => { d with Repository := x }
  else if equalFold k "pullRequestId" then
    (decInt v d.PullRequestID).map fun x => { d with PullRequestID := x }
  else if equalFold k "status" then
    (decString v d.Status).map fun x => { d with Status := x }
  else if equalFold k "createdBy" then
    (decStruct createdBy.set v d.CreatedBy).map fun x => { d with CreatedBy := x }
  else if equalFold k "creationDate" then
    (decTime lib v d.CreationDate).map fun x => { d with CreationDate := x }
  else if equalFold k "title" then
    (decString v d.Title).map fun x => { d with Title := x }
  else if equalFold k "description" then
    (decString v d.Description).map fun x => { d with Description := x }
  else if equalFold k "sourceRefName" then
    (decString v d.SourceRefName).map fun x => { d with SourceRefName := x }
  else if equalFold k "targetRefName" then
    (decString v d.TargetRefName).map fun x => { d with TargetRefName := x }
  else if equalFold k "mergeStatus" then
    (decString v d.MergeStatus).map fun x => { d with MergeStatus := x }
  else if equalFold k "mergeId" then
    (decString v d.MergeID).map fun x => { d with MergeID := x }
  else if equalFold k "lastMergeSourceCommit" then
    (decStruct commitRef.set v d.LastMergeSourceCommit).map fun x => { d with LastMergeSourceCommit := x }
  else if equalFold k "lastMergeTargetCommit" then
    (decStruct commitRef.set v d.LastMergeTargetCommit).map fun x => { d with LastMergeTargetCommit := x }
  else if equalFold k "lastMergeCommit" then
    (decStruct commitRef.set v d.LastMergeCommit).map fun x => { d with LastMergeCommit := x }
  else if equalFold k "reviewers" then
    (decSlice (decStruct reviewer.set) {} v d.Reviewers).map fun x => { d with Reviewers := x }
  else if equalFold k "url" then
    (decString v d.URL).map fun x => { d with URL := x }
  else some d

/-- Stores the member `k : v` of an object into the matching field of a `createPullRequestHook`. -/
def createPullRequestHook.set (lib : Lib) (d : createPullRequestHook) (k : String) (v : JSON) : Option createPullRequestHook :=
  if equalFold k "id" then
    (decString v d.ID).map fun x => { d with ID := x }
  else if equalFold k "eventType" then
    (decString v d.EventType).map fun x => { d with EventType := x }
  else if equalFold k "publisherId" then
    (decString v d.PublisherID).map fun x => { d with PublisherID := x }
  else if equalFold k "scope" then
    (decString v d.Scope).map fun x => { d with Scope := x }
  else if equalFold k "message" then
    (decStruct hookMessage.set v d.Message).map fun x => { d with Message := x }
  else if equalFold k "detailedMessage" then
    (decStruct hookMessage.set v d.DetailedMessage).map fun x => { d with DetailedMessage := x }
  else if equalFold k "resource" then
    (decStruct (createPullRequestResource.set lib) v d.Resource).map fun x => { d with Resource := x }
  else if equalFold k "resourceVersion" then
    (decString v d.ResourceVersion).map fun x => { d with ResourceVersion := x }
  else if equalFold k "resourceContainers" then
    (decStruct resourceContainers.set v d.ResourceContainers).map fun x => { d with ResourceContainers := x }
  else if equalFold k "createdDate" then
    (decTime lib v d.CreatedDate).map fun x => { d with CreatedDate := x }
  else some d

/-- Stores the member `k : v` of an object into the matching field of a `updatePullRequestResource`. -/
def updatePullRequestResource.set (lib : Lib) (d : updatePullRequestResource) (k : String) (v : JSON) : Option updatePullRequestResource :=
  if equalFold k "closedDate" then
    (decString v d.ClosedDate).map fun x => { d with ClosedDate := x }
  else if equalFold k "commits" then
    (decSlice (decStruct commitRef.set) {} v d.Commits).map fun x => { d with Commits := x }
  else if equalFold k "createdBy" then
    (decStruct createdBy.set v d.CreatedBy).map fun x => { d with CreatedBy := x }
  else if equalFold k "creationDate" then
    (decTime lib v d.CreationDate).map fun x => { d with CreationDate := x }
  else if equalFold k "description" then
    (decString v d.Description).map fun x => { d with Description := x }
  else if equalFold k "lastMergeCommit" then
    (decStruct commitRef.set v d.LastMergeCommit).map fun x => { d with LastMergeCommit := x }
  else if equalFold k "lastMergeSourceCommit" then
    (decStruct commitRef.set v d.LastMergeSourceCommit).map fun x => { d with LastMergeSourceCommit := x }
  else if equalFold k "lastMergeTargetCommit" then
    (decStruct commitRef.set v d.LastMergeTargetCommit).map fun x => { d with LastMergeTargetCommit := x }
  else if equalFold k "mergeId" then
    (decString v d.MergeID).map fun x => { d with MergeID := x }
  else if equalFold k "mergeStatus" then
    (decString v d.MergeStatus).map fun x => { d with MergeStatus := x }
  else if equalFold k "pullRequestId" then
    (decInt v d.PullRequestID).map fun x => { d with PullRequestID := x }
  else if equalFold k "repository" then
    (decStruct repository.set v d.Repository).map fun x => { d with Repository := x }
  else if equalFold k "reviewers" then
    (decSlice (decStruct reviewer.set) {} v d.Reviewers).map fun x => { d with Reviewers := x }
  else if equalFold k "sourceRefName" then
    (decString v d.SourceRefName).map fun x => { d with SourceRefName := x }
  else if equalFold k "status" then
    (decString v d.Status).map fun x => { d with Status := x }
  else if equalFold k "targetRefName" then
    (decString v d.TargetRefName).map fun x => { d with TargetRefName := x }
  else if equalFold k "title" then
    (decString v d.Title).map fun x => { d with Title := x }
  else if equalFold k "url" then
    (decString v d.URL).map fun x => { d with URL := x }
  else some d

/-- Stores the member `k : v` of an object into the matching field of a `updatePullRequestHook`. -/
def updatePullRequestHook.set (lib : Lib) (d : updatePullRequestHook) (k : String) (v : JSON) : Option updatePullRequestHook :=
  if equalFold k "createdDate" then
    (decString v d.CreatedDate).map fun x => { d with CreatedDate := x }
  else if equalFold k "detailedMessage" then
    (decStruct hookMessage.set v d.DetailedMessage).map fun x => { d with DetailedMessage := x }
  else if equalFold k "eventType" then
    (decString v d.EventType).map fun x => { d with EventType := x }
  else if equalFold k "id" then
    (decString v d.ID).map fun x => { d with ID := x }
  else if equalFold k "message" then
    (decStruct hookMessage.set v d.Message).map fun x => { d with Message := x }
  else if equalFold k "publisherId" then
    (decString v d.PublisherID).map fun x => { d with PublisherID := x }
  else if equalFold k "resource" then
    (decStruct (updatePullRequestResource.set lib) v d.Resource).map fun x => { d with Resource := x }
  else if equalFold k "resourceContainers" then
    (decStruct resourceContainers.set v d.ResourceContainers).map fun x => { d with ResourceContainers := x }
  else if equalFold k "resourceVersion" then
    (decString v d.ResourceVersion).map fun x => { d with ResourceVersion := x }
  else if equalFold k "scope" then
    (decString v d.Scope).map fun x => { d with Scope := x }
  else some d

/-- Stores the member `k : v` of an object into the matching field of a `mergePullRequestResource`. -/
def mergePullRequestResource.set (lib : Lib) (d : mergePullRequestResource) (k : String) (v : JSON) : Option mergePullRequestResource :=
  if equalFold k "closedDate" then
    (decString v d.ClosedDate).map fun x => { d with ClosedDate := x }
  else if equalFold k "createdBy" then
    (decStruct createdBy.set v d.CreatedBy).map fun x => { d with CreatedBy := x }
  else if equalFold k "creationDate" then
    (decTime lib v d.CreationDate).map fun x => { d with CreationDate := x }
  else if equalFold k "description" then
    (decString v d.Description).map fun x => { d with Description := x }
  else if equalFold k "lastMergeCommit" then
    (decStruct commitRef.set v d.LastMergeCommit).map fun x => { d with LastMergeCommit := x }
  else if equalFold k "lastMergeSourceCommit" then
    (decStruct commitRef.set v d.LastMergeSourceCommit).map fun x => { d with LastMergeSourceCommit := x }
  else if equalFold k "lastMergeTargetCommit" then
    (decStruct commitRef.set v d.LastMergeTargetCommit).map fun x => { d with LastMergeTargetCommit := x }
  else if equalFold k "mergeId" then
    (decString v d.MergeID).map fun x => { d with MergeID := x }
  else if equalFold k "mergeStatus" then
    (decString v d.MergeStatus).map fun x => { d with MergeStatus := x }
  else if equalFold k "pullRequestId" then
    (decInt v d.PullRequestID).map fun x => { d with PullRequestID := x }
  else if equalFold k "repository" then
    (decStruct repository.set v d.Repository).map fun x => { d with Repository := x }
  else if equalFold k "reviewers" then
    (decSlice (decStruct reviewer.set) {} v d.Reviewers).map fun x => { d with Reviewers := x }
  else if equalFold k "sourceRefName" then
    (decString v d.SourceRefName).map fun x => { d with SourceRefName := x }
  else if equalFold k "status" then
    (decString v d.Status).map fun x => { d with Status := x }
  else if equalFold k "targetRefName" then
    (decString v d.TargetRefName).map fun x => { d with TargetRefName := x }
  else if equalFold k "title" then
    (decString v d.Title).map fun x => { d with Title := x }
  else if equalFold k "url" then
    (decString v d.URL).map fun x => { d with URL := x }
  else some d

/-- Stores the member `k : v` of an object into the matching field of a `mergePullRequestHook`. -/
def mergePullRequestHook.set (lib : Lib) (d : mergePullRequestHook) (k : String) (v : JSON) : Option mergePullRequestHook :=
  if equalFold k "createdDate" then
    (decString v d.CreatedDate).map fun x => { d with CreatedDate := x }
  else if equalFold k "detailedMessage" then
    (decStruct hookMessage.set v d.DetailedMessage).map fun x => { d with DetailedMessage := x }
  else if equalFold k "eventType" then
    (decString v d.EventType).map fun x => { d with EventType := x }
  else if equalFold k "id" then
    (decString v d.ID).map fun x => { d with ID := x }
  else if equalFold k "message" then
    (decStruct hookMessage.set v d.Message).map fun x => { d with Message := x }
  else if equalFold k "publisherId" then
    (decString v d.PublisherID).map fun x => { d with PublisherID := x }
  else if equalFold k "resource" then
    (decStruct (mergePullRequestResource.set lib) v d.Resource).map fun x => { d with Resource := x }
  else if equalFold k "resourceContainers" then
    (decStruct resourceContainers.set v d.ResourceContainers).map fun x => { d with ResourceContainers := x }
  else if equalFold k "resourceVersion" then
    (decString v d.ResourceVersion).map fun x => { d with ResourceVersion := x }
  else if equalFold k "scope" then
    (decString v d.Scope).map fun x => { d with Scope := x }
  else some d

/-- The call `json.Unmarshal(data, src)` with `src := new(pushHook)`: `none` when it returns
a non-nil error. -/
def unmarshalPushHook (lib : Lib) (data : List Byte) : Option pushHook :=
  match lib.scan data with
  | none => none
  | some v => decStruct (pushHook.set lib) v {}

/-- The call `json.Unmarshal(data, src)` with `src := new(createPullRequestHook)`. -/
def unmarshalCreatePullRequestHook (lib : Lib) (data : List Byte) : Option createPullRequestHook :=
  match lib.scan data with
  | none => none
  | some v => decStruct (createPullRequestHook.set lib) v {}

/-- The call `json.Unmarshal(data, src)` with `src := new(updatePullRequestHook)`. -/
def unmarshalUpdatePullRequestHook (lib : Lib) (data : List Byte) : Option updatePullRequestHook :=
  match lib.scan data with
  | none => none
  | some v => decStruct (updatePullRequestHook.set lib) v {}

/-- The call `json.Unmarshal(data, src)` with `src := new(mergePullRequestHook)`. -/
def unmarshalMergePullRequestHook (lib : Lib) (data : List Byte) : Option mergePullRequestHook :=
  match lib.scan data with
  | none => none
  | some v => decStruct (mergePullRequestHook.set lib) v {}

/-- The call `json.Unmarshal(data, &unstructuredJSON)` on a nil `map[string]interface{}`:
`none` when it returns a non-nil error (invalid JSON, a value that is neither an object nor
`null`, or a number that overflows `float64`), the members of the map otherwise (`null`
leaves the map nil, which reads like the empty map). -/
def unmarshalMap (lib : Lib) (data : List Byte) : Option (List (String × JSON)) :=
  match lib.scan data with
  | some .null => some []
  | some (.obj kvs) => if storableMembers kvs then some kvs else none
  | _ => none

end azure

namespace scm

/-! ## The canonical types (`package scm`) -/

/-- The struct `scm.Perm` (`scm/repo.go`). -/
structure Perm where
  Pull : Bool := false
  Push : Bool := false
  Admin : Bool := false
  deriving DecidableEq, Repr

/-- The struct `scm.Repository` (`scm/repo.go`).  `Visibility` is an integer enumeration
declared outside the files at hand; `Perm` is a pointer (`none` for nil). -/
structure Repository where
  ID : String := ""
  Namespace : String := ""
  Name : String := ""
  Perm : Option Perm := none
  Branch : String := ""
  Archived : Bool := false
  Private : Bool := false
  Visibility : Int := 0
  Clone : String := ""
  CloneSSH : String := ""
  Link : String := ""
  Created : Time := Time.zero
  Updated : Time := Time.zero
  deriving DecidableEq, Repr

/-- Modelled from the spec: the type `scm.Action` is declared outside the files at hand.
The spec lists the actions open, close, update, merge and sync; `ActionUnknown` stands for
the zero value of the type. -/
inductive Action where
  | ActionUnknown
  | ActionOpen
  | ActionClose
  | ActionUpdate
  | ActionMerge
  | ActionSync
  deriving DecidableEq, Repr

/-- Modelled from the spec: the type `scm.User` (the actor of an event) is declared outside
the files at hand; these are the fields the Azure driver writes. -/
structure User where
  Login : String := ""
  Name : String := ""
  Email : String := ""
  Avatar : String := ""
  deriving DecidableEq, Repr

/-- Modelled from the spec: the type `scm.Signature` (author or committer of a commit) is
declared outside the files at hand; these are the fields the Azure driver writes. -/
structure Signature where
  Name : String := ""
  Email : String := ""
  Date : Time := Time.zero
  Login : String := ""
  deriving DecidableEq, Repr

/-- Modelled from the spec: the type `scm.Commit` is declared outside the files at hand;
these are the fields the Azure driver writes. -/
structure Commit where
  Sha : String := ""
  Message : String := ""
  Author : Signature := {}
  Committer : Signature := {}
  Link : String := ""
  deriving DecidableEq, Repr

/-- Modelled from the spec: the type `scm.PullRequest` is declared outside the files at
hand; these are the fields the Azure driver writes. -/
structure PullRequest where
  Number : Int := 0
  Title : String := ""
  Body : String := ""
  Sha : String := ""
  Ref : String := ""
  Source : String := ""
  Target : String := ""
  Link : String := ""
  Author : User := {}
  Created : Time := Time.zero
  deriving DecidableEq, Repr

/-- Modelled from the spec: the canonical Push event `scm.PushHook` is declared outside the
files at hand.  It carries a repository reference, an actor (`Sender`) and the push payload
(ref name, before and after SHAs, commit list). -/
structure PushHook where
  Ref : String := ""
  Repo : Repository := {}
  Before : String := ""
  After : String := ""
  Sender : User := {}
  Commits : List Commit := []
  deriving DecidableEq, Repr

/-- Modelled from the spec: the canonical PullRequest event `scm.PullRequestHook` is declared
outside the files at hand.  It carries an action, a repository reference, the pull request
and an actor (`Sender`). -/
structure PullRequestHook where
  Action : Action := Action.ActionUnknown
  Repo : Repository := {}
  PullRequest : PullRequest := {}
  Sender : User := {}
  deriving DecidableEq, Repr

/-- The interface `scm.Webhook`, restricted to the two event types the Azure driver
returns. -/
inductive Webhook where
  | push (h : PushHook)
  | pullRequest (h : PullRequestHook)
  deriving DecidableEq, Repr

/-- The Go error values of the development.  `ErrUnknownEvent` is the package-level value
`scm.ErrUnknownEvent`; `read` is an error reported by the body reader; `parsingJSON` is the
value built by `fmt.Errorf("Error parsing JSON from webhook: %s", jsonErr)`; `unmarshal` is
an error returned by `encoding/json` and passed on unchanged.  `ErrNotFound`,
`ErrNotSupported` and `ErrNotAuthorized` are the three values `scm/client.go` creates with
`errors.New`; `github` is a `*github.Error` with the given `Message`; `other` is any other
error value, of the standard library or of an HTTP transport, named by its text. -/
inductive Error where
  | ErrUnknownEvent
  | read (msg : String)
  | parsingJSON
  | unmarshal
  | ErrNotFound
  | ErrNotSupported
  | ErrNotAuthorized
  | github (Message : String)
  | other (msg : String)
  deriving DecidableEq, Repr

/-- Modelled from the spec: the type `scm.SecretFunc` is declared outside the files at hand.
It maps the parsed event to the shared secret used for signature verification, or fails. -/
abbrev SecretFunc := Webhook → Except Error String

end scm

/-! ## Requests and results -/

/-- A request body as an `io.Reader`: the bytes it yields and the error it reports once they
are exhausted (`none` for `io.EOF`). -/
structure Body where
  data : List Byte
  err : Option String := none
  deriving DecidableEq, Repr

/-- An `http.Header`: header names with their values. -/
abbrev Header := List (String × List String)

/-- The parts of an `http.Request` a webhook parser can read. -/
structure Request where
  Header : Header := []
  Body : Body

/-- The ways the code under study can end without returning: a failed type assertion, an
index out of range, the use of a nil pointer, and `Lock` on a mutex that is held while no
other goroutine runs (the run time stops the program: all goroutines are asleep). -/
inductive Panic where
  | typeAssertion
  | indexOutOfRange
  | nilDereference
  | deadlock
  deriving DecidableEq, Repr

/-- The result of running a Go function: it returns a value or it panics. -/
inductive Run (α : Type) where
  | crash (p : Panic)
  | done (a : α)
  deriving DecidableEq, Repr

/-- The call `ioutil.ReadAll(io.LimitReader(body, n))`: at most `n` bytes are requested from the
body, so an error behind the first `n` bytes is never seen. -/
def readAllLimit (b : Body) (n : Nat) : Except scm.Error (List Byte) :=
  if n ≤ b.data.length then .ok (b.data.take n)
  else
    match b.err with
    | none => .ok b.data
    | some e => .error (.read e)

namespace azure

/-- The type assertion `x.(string)` on a map element (`none` for a missing key, whose value
is the nil interface): `none` stands for the panic of a failed assertion. -/
def assertString : Option JSON → Option String
  | some (.str s) => some s
  | _ => none

/-- The function `convertPushHook`.  The expression `src.Resource.RefUpdates[0]` panics on
an empty slice. -/
def convertPushHook (src : pushHook) : Run scm.PushHook :=
  let commits : List scm.Commit := src.Resource.Commits.map fun c =>
    { Sha := c.CommitID
      Message := c.Comment
      Link := c.URL
      Author :=
        { Login := c.Author.Name
          Email := c.Author.Email
          Name := c.Author.Name
          Date := c.Author.Date }
      Committer :=
        { Login := c.Committer.Name
          Email := c.Committer.Email
          Name := c.Committer.Name
          Date := c.Committer.Date } }
  match src.Resource.RefUpdates with
  | [] => .crash .indexOutOfRange
  | r :: _ =>
    .done
      { Ref := r.Name
        Before := r.OldObjectID
        After := r.NewObjectID
        Repo :=
          { ID := src.Resource.Repository.ID
            Name := src.Resource.Repository.Name
            Clone := src.Resource.Repository.URL }
        Commits := commits }

/-- The function `convertCreatePullRequestHook`. -/
def convertCreatePullRequestHook (src : createPullRequestHook) : scm.PullRequestHook :=
  { PullRequest :=
      { Number := src.Resource.PullRequestID
        Title := src.Resource.Title
        Body := src.Resource.Description
        Sha := src.Resource.MergeID
        Ref := src.Resource.SourceRefName
        Source := src.Resource.SourceRefName
        Target := src.Resource.TargetRefName
        Link := src.Resource.URL
        Author :=
          { Login := src.Resource.CreatedBy.ID
            Name := src.Resource.CreatedBy.DisplayName
            Email := src.Resource.CreatedBy.UniqueName
            Avatar := src.Resource.CreatedBy.ImageURL }
        Created := src.Resource.CreationDate }
    Repo :=
      { ID := src.Resource.Repository.ID
        Name := src.Resource.Repository.ID
        Namespace := src.Resource.Repository.Name
        Link := src.Resource.Repository.URL }
    Sender :=
      { Login := src.Resource.CreatedBy.ID
        Name := src.Resource.CreatedBy.DisplayName
        Email := src.Resource.CreatedBy.UniqueName
        Avatar := src.Resource.CreatedBy.ImageURL } }

/-- The function `convertUpdatePullRequestHook`. -/
def convertUpdatePullRequestHook (src : updatePullRequestHook) : scm.PullRequestHook :=
  { PullRequest :=
      { Number := src.Resource.PullRequestID
        Title := src.Resource.Title
        Body := src.Resource.Description
        Sha := src.Resource.MergeID
        Ref := src.Resource.SourceRefName
        Source := src.Resource.SourceRefName
        Target := src.Resource.TargetRefName
        Link := src.Resource.URL
        Author :=
          { Login := src.Resource.CreatedBy.ID
            Name := src.Resource.CreatedBy.DisplayName
            Email := src.Resource.CreatedBy.UniqueName
            Avatar := src.Resource.CreatedBy.ImageURL }
        Created := src.Resource.CreationDate }
    Repo :=
      { ID := src.Resource.Repository.ID
        Name := src.Resource.Repository.ID
        Namespace := src.Resource.Repository.Name
        Link := src.Resource.Repository.URL }
    Sender :=
      { Login := src.Resource.CreatedBy.ID
        Name := src.Resource.CreatedBy.DisplayName
        Email := src.Resource.CreatedBy.UniqueName
        Avatar := src.Resource.CreatedBy.ImageURL } }

/-- The function `convertMergePullRequestHook`. -/
def convertMergePullRequestHook (src : mergePullRequestHook) : scm.PullRequestHook :=
  { PullRequest :=
      { Number := src.Resource.PullRequestID
        Title := src.Resource.Title
        Body := src.Resource.Description
        Sha := src.Resource.MergeID
        Ref := src.Resource.SourceRefName
        Source := src.Resource.SourceRefName
        Target := src.Resource.TargetRefName
        Link := src.Resource.URL
        Author :=
          { Login := src.Resource.CreatedBy.ID
            Name := src.Resource.CreatedBy.DisplayName
            Email := src.Resource.CreatedBy.UniqueName
            Avatar := src.Resource.CreatedBy.ImageURL }
        Created := src.Resource.CreationDate }
    Repo :=
      { ID := src.Resource.Repository.ID
        Name := src.Resource.Repository.ID
        Namespace := src.Resource.Repository.Name
        Link := src.Resource.Repository.URL }
    Sender :=
      { Login := src.Resource.CreatedBy.ID
        Name := src.Resource.CreatedBy.DisplayName
        Email := src.Resource.CreatedBy.UniqueName
        Avatar := src.Resource.CreatedBy.ImageURL } }

/-- What `Parse` returns: the pair `(scm.Webhook, error)`, `none` standing for nil. -/
abbrev Result := Option scm.Webhook × Option scm.Error

/-- The method `webhookService.Parse`.  The secret function `fn` and the request headers
are not read. -/
def Parse (lib : Lib) (req : Request) (_fn : Option scm.SecretFunc) : Run Result :=
  match readAllLimit req.Body 10000000 with
  | .error err => .done (none, some err)
  | .ok data =>
    match unmarshalMap lib data with
    | none => .done (none, some .parsingJSON)
    | some unstructuredJSON =>
      match assertString (mapIndex unstructuredJSON "eventType") with
      | none => .crash .typeAssertion
      | some eventType =>
        if eventType = "git.push" then
          match unmarshalPushHook lib data with
          | none => .done (none, some .unmarshal)
          | some src =>
            match convertPushHook src with
            | .crash p => .crash p
            | .done dst => .done (some (.push dst), none)
        else if eventType = "git.pullrequest.created" then
          match unmarshalCreatePullRequestHook lib data with
          | none => .done (none, some .unmarshal)
          | some src =>
            let dst := convertCreatePullRequestHook src
            .done (some (.pullRequest { dst with Action := .ActionOpen }), none)
        else if eventType = "git.pullrequest.updated" then
          match unmarshalUpdatePullRequestHook lib data with
          | none => .done (none, some .unmarshal)
          | some src =>
            let dst := convertUpdatePullRequestHook src
            .done (some (.pullRequest { dst with Action := .ActionUpdate }), none)
        else if eventType = "git.pullrequest.merged" then
          match unmarshalMergePullRequestHook lib data with
          | none => .done (none, some .unmarshal)
          | some src =>
            let dst := convertMergePullRequestHook src
            .done (some (.pullRequest { dst with Action := .ActionMerge }), none)
        else .done (none, some .ErrUnknownEvent)

end azure

/-! ## Strings (`package strings`, `package strconv`) -/

/-- The pieces of `cs` between the occurrences of `sep`; never the empty list. -/
def splitOn (sep : Char) : List Char → List (List Char)
  | [] => [[]]
  | c :: cs =>
    if c = sep then [] :: splitOn sep cs
    else
      match splitOn sep cs with
      | [] => [[c]]
      | p :: ps => (c :: p) :: ps

/-- The call `strings.Split(s, sep)` for a separator of one ASCII character. -/
def Split (s : String) (sep : Char) : List String :=
  (splitOn sep s.toList).map String.mk

/-- White space in the sense of `unicode.IsSpace`. -/
def isSpace (c : Char) : Bool :=
  let n := c.toNat
  (9 ≤ n && n ≤ 13) || n = 0x20 || n = 0x85 || n = 0xA0 || n = 0x1680 ||
    (0x2000 ≤ n && n ≤ 0x200A) || n = 0x2028 || n = 0x2029 || n = 0x202F || n = 0x205F ||
    n = 0x3000

/-- Leading and trailing white space removed from a list of characters. -/
def trimSpace (cs : List Char) : List Char :=
  ((cs.dropWhile isSpace).reverse.dropWhile isSpace).reverse

/-- The call `strings.TrimSpace(s)`. -/
def TrimSpace (s : String) : String := String.mk (trimSpace s.toList)

/-- The call `strings.HasPrefix(s, p)`. -/
def HasPrefix (s p : String) : Bool := p.toList.isPrefixOf s.toList

/-- The call `strings.HasSuffix(s, p)`. -/
def HasSuffix (s p : String) : Bool := p.toList.reverse.isPrefixOf s.toList.reverse

/-- The value of a non-empty sequence of ASCII digits, most significant first. -/
def digitsValue (cs : List Char) : Option Nat :=
  if cs ≠ [] ∧ cs.all Char.isDigit = true then
    some (cs.foldl (fun n c => 10 * n + (c.toNat - 48)) 0)
  else none

/-- The largest `int` (64 bits). -/
def maxInt : Int := 9223372036854775807

/-- The smallest `int` (64 bits). -/
def minInt : Int := -9223372036854775808

/-- The largest `uint64`. -/
def maxUint64 : Nat := 18446744073709551615

/-- What `strconv.ParseUint` returns: a value with a nil error, a syntax error (with the
value 0) or a range error (with the value `maxUint64`). -/
inductive UintResult where
  | value (n : Nat)
  | syntaxError
  | rangeError
  deriving DecidableEq, Repr

/-- The loop of `strconv.ParseUint(s, 10, 64)` over the bytes of the text, `n` being the
value read so far.  A byte that is no decimal digit ends the loop with a syntax error; a
digit that takes the value beyond `maxUint64` ends it with a range error, whatever
follows. -/
def parseUintLoop : Nat → List Char → UintResult
  | n, [] => .value n
  | n, c :: cs =>
    if !c.isDigit then .syntaxError
    else if maxUint64 / 10 + 1 ≤ n then .rangeError
    else if maxUint64 < 10 * n + (c.toNat - 48) then .rangeError
    else parseUintLoop (10 * n + (c.toNat - 48)) cs

/-- The call `strconv.ParseUint(s, 10, 64)`: the empty text is a syntax error. -/
def ParseUint (cs : List Char) : UintResult :=
  if cs = [] then .syntaxError else parseUintLoop 0 cs

/-- The call `strconv.Atoi(s)` on a platform with 64-bit `int`: the value and whether the
error is nil.  It is the value of `strconv.ParseInt(s, 10, 0)`, which the loop `Atoi` runs
itself on texts shorter than 19 bytes returns as well: a sign is picked off, the rest goes
to `ParseUint`; a syntax error gives `0`, and a range error of `ParseUint` or a value
outside the range of `int` gives the nearest `int`, each with an error. -/
def Atoi (s : String) : Int × Bool :=
  let cs := s.toList
  let neg := cs.head? = some '-'
  let ds := if cs.head? = some '-' ∨ cs.head? = some '+' then cs.tail else cs
  match ParseUint ds with
  | .syntaxError => (0, false)
  | .rangeError => if neg then (minInt, false) else (maxInt, false)
  | .value un =>
    if ¬ neg ∧ (2 : Nat) ^ 63 ≤ un then (maxInt, false)
    else if neg ∧ (2 : Nat) ^ 63 < un then (minInt, false)
    else (if neg then -(un : Int) else (un : Int), true)

/-! ## Pagination (`scm/client.go`) -/

/-- A byte that may occur in a header name (`validHeaderFieldByte`): an ASCII letter or
digit, or one of the token punctuation characters, among them the apostrophe (39) and the
grave accent (96). -/
def validHeaderFieldByte (c : Char) : Bool :=
  c.isAlphanum || "!#$%&*+-.^_|~".toList.contains c || c = Char.ofNat 39 || c = Char.ofNat 96

/-- The loop of `canonicalMIMEHeaderKey`: the first letter and every letter after a `-` in
upper case, every other letter in lower case. -/
def canonicalLetters : Bool → List Char → List Char
  | _, [] => []
  | upper, c :: cs =>
    (if upper then c.toUpper else c.toLower) :: canonicalLetters (c = '-') cs

/-- The function `textproto.CanonicalMIMEHeaderKey`: a name with a byte that is not valid in
a header name is returned unchanged. -/
def CanonicalMIMEHeaderKey (s : String) : String :=
  if s.toList.all validHeaderFieldByte then String.mk (canonicalLetters true s.toList) else s

/-- The call `h.Get(key)`: the first value stored under the canonical form of the key, the
empty string when there is none. -/
def Header.Get (h : Header) (key : String) : String :=
  match h.lookup (CanonicalMIMEHeaderKey key) with
  | some (v :: _) => v
  | _ => ""

namespace scm

/-- The struct `scm.Page`. -/
structure Page where
  Next : Int := 0
  NextURL : String := ""
  Last : Int := 0
  First : Int := 0
  Prev : Int := 0
  deriving DecidableEq, Repr

/-- The struct `scm.Rate`. -/
structure Rate where
  Limit : Int := 0
  Remaining : Int := 0
  Reset : Int := 0
  deriving DecidableEq, Repr

/-- The struct `scm.Response`. -/
structure Response where
  ID : String := ""
  Status : Int := 0
  Header : Header := []
  Body : Body := { data := [] }
  Page : Page := {}
  Rate : Rate := {}
  deriving DecidableEq, Repr

/-- The body of the inner loop of `populatePageValues`: the `switch` on one attribute of a
link, for the page text `page`.  The result of `strconv.Atoi` is assigned whether or not it
comes with an error. -/
def setRel (page : String) (p : Page) (segment : String) : Page :=
  let s := TrimSpace segment
  if s = "rel=\"next\"" then { p with Next := (Atoi page).1 }
  else if s = "rel=\"prev\"" then { p with Prev := (Atoi page).1 }
  else if s = "rel=\"first\"" then { p with First := (Atoi page).1 }
  else if s = "rel=\"last\"" then { p with Last := (Atoi page).1 }
  else p

/-- The body of the outer loop of `populatePageValues`, for one element `link` of the split
header value. -/
def linkStep (lib : Lib) (p : Page) (link : String) : Page :=
  match Split (TrimSpace link) ';' with
  | [] => p
  | [_] => p
  | seg0 :: rest =>
    if !HasPrefix seg0 "<" || !HasSuffix seg0 ">" then p
    else
      match lib.urlParse (String.mk (seg0.toList.drop 1).dropLast) with
      | none => p
      | some url =>
        let page := lib.queryGet url "page"
        if page = "" then p
        else rest.foldl (setRel page) p

/-- The method `Response.populatePageValues`. -/
def Response.populatePageValues (lib : Lib) (r : Response) : Response :=
  { r with Page := (Split (r.Header.Get "Link") ',').foldl (linkStep lib) r.Page }

end scm

/-! ## A reference library for the worked examples

The theorems below hold for every `Lib`.  Their instances at concrete requests use `Ref.lib`,
an executable library for a subset of the inputs of the Go standard library: ASCII JSON
documents without `\u` escapes, UTC timestamps of the form `YYYY-MM-DDTHH:MM:SSZ`, and
`http`/`https` URLs and relative references written with unreserved characters. -/

namespace Ref

/-- JSON white space. -/
def isWs (b : Byte) : Bool := b = 32 || b = 9 || b = 10 || b = 13

/-- An ASCII digit. -/
def isDigitByte (b : Byte) : Bool := 48 ≤ b && b ≤ 57

/-- The value of a sequence of ASCII digits. -/
def natOf (ds : List Byte) : Nat := ds.foldl (fun n d => 10 * n + (d - 48)) 0

/-- The character a one-letter escape sequence stands for. -/
def unescape (b : Byte) : Option Char :=
  if b = 34 then some '"'
  else if b = 92 then some '\\'
  else if b = 47 then some '/'
  else if b = 98 then some (Char.ofNat 8)
  else if b = 102 then some (Char.ofNat 12)
  else if b = 110 then some '\n'
  else if b = 114 then some '\r'
  else if b = 116 then some '\t'
  else none

/-- The rest of a string literal after its opening quote: the text and the bytes that
follow the closing quote. -/
def scanString : List Byte → List Char → Option (String × List Byte)
  | [], _ => none
  | b :: rest, acc =>
    if b = 34 then some (String.mk acc.reverse, rest)
    else if b = 92 then
      match rest with
      | [] => none
      | c :: rest2 =>
        match unescape c with
        | none => none
        | some ch => scanString rest2 (ch :: acc)
    else if 32 ≤ b ∧ b < 128 then scanString rest (Char.ofNat b :: acc)
    else none

/-- Removes the bytes `pre` from the front of `bs`, when `bs` starts with them. -/
def dropExact : List Byte → List Byte → Option (List Byte)
  | [], bs => some bs
  | _ :: _, [] => none
  | p :: ps, b :: bs => if p = b then dropExact ps bs else none

/-- An optional fraction `.digits`: its digits and the bytes that follow. -/
def scanFraction (bs : List Byte) : Option (Option (List Byte) × List Byte) :=
  match bs with
  | [] => some (none, [])
  | b :: rest =>
    if b = 46 then
      let ds := rest.takeWhile isDigitByte
      if ds = [] then none else some (some ds, rest.dropWhile isDigitByte)
    else some (none, bs)

/-- An optional exponent `e[+-]digits`: its value and the bytes that follow. -/
def scanExponent (bs : List Byte) : Option (Option Int × List Byte) :=
  match bs with
  | [] => some (none, [])
  | b :: rest =>
    if b = 101 ∨ b = 69 then
      let neg := rest.head? = some 45
      let rest2 := if rest.head? = some 45 ∨ rest.head? = some 43 then rest.tail else rest
      let ds := rest2.takeWhile isDigitByte
      if ds = [] then none
      else some (some (if neg then -(natOf ds : Int) else (natOf ds : Int)), rest2.dropWhile isDigitByte)
    else some (none, bs)

/-- A number literal at the front of `bs`. -/
def scanNumber (bs : List Byte) : Option (JSON × List Byte) :=
  let neg := bs.head? = some 45
  let bs1 := if bs.head? = some 45 then bs.tail else bs
  let ip := bs1.takeWhile isDigitByte
  if ip = [] ∨ (1 < ip.length ∧ ip.head? = some 48) then none
  else
    match scanFraction (bs1.dropWhile isDigitByte) with
    | none => none
    | some (fr, bs2) =>
      match scanExponent bs2 with
      | none => none
      | some (ex, bs3) =>
        let sign : Int := if neg then -1 else 1
        match fr, ex with
        | none, none => some (.int (sign * natOf ip), bs3)
        | _, _ =>
          let fd := fr.getD []
          some (.dec (sign * natOf (ip ++ fd)) (ex.getD 0 - fd.length), bs3)

mutual
/-- A JSON value at the front of `bs`, white space skipped, and the bytes that follow. -/
def scanValue : Nat → List Byte → Option (JSON × List Byte)
  | 0, _ => none
  | fuel + 1, bs =>
    match bs.dropWhile isWs with
    | [] => none
    | b :: rest =>
      if b = 34 then
        match scanString rest [] with
        | none => none
        | some (s, r) => some (.str s, r)
      else if b = 123 then
        match rest.dropWhile isWs with
        | [] => none
        | c :: r =>
          if c = 125 then some (.obj [], r)
          else
            match scanMembers fuel rest with
            | none => none
            | some (kvs, r2) => some (.obj kvs, r2)
      else if b = 91 then
        match rest.dropWhile isWs with
        | [] => none
        | c :: r =>
          if c = 93 then some (.arr [], r)
          else
            match scanElems fuel rest with
            | none => none
            | some (xs, r2) => some (.arr xs, r2)
      else if b = 116 then (dropExact (bytesOf "rue") rest).map fun r => (.bool true, r)
      else if b = 102 then (dropExact (bytesOf "alse") rest).map fun r => (.bool false, r)
      else if b = 110 then (dropExact (bytesOf "ull") rest).map fun r => (.null, r)
      else scanNumber (b :: rest)
/-- The elements of an array after `[`, up to and including the closing `]`. -/
def scanElems : Nat → List Byte → Option (List JSON × List Byte)
  | 0, _ => none
  | fuel + 1, bs =>
    match scanValue fuel bs with
    | none => none
    | some (v, r) =>
      match r.dropWhile isWs with
      | [] => none
      | c :: r2 =>
        if c = 44 then
          match scanElems fuel r2 with
          | none => none
          | some (xs, r3) => some (v :: xs, r3)
        else if c = 93 then some ([v], r2)
        else none
/-- The members of an object after `{`, up to and including the closing `}`. -/
def scanMembers : Nat → List Byte → Option (List (String × JSON) × List Byte)
  | 0, _ => none
  | fuel + 1, bs =>
    match bs.dropWhile isWs with
    | [] => none
    | q :: r0 =>
      if q = 34 then
        match scanString r0 [] with
        | none => none
        | some (k, r1) =>
          match r1.dropWhile isWs with
          | [] => none
          | colon :: r2 =>
            if colon = 58 then
              match scanValue fuel r2 with
              | none => none
              | some (v, r3) =>
                match r3.dropWhile isWs with
                | [] => none
                | c :: r4 =>
                  if c = 44 then
                    match scanMembers fuel r4 with
                    | none => none
                    | some (kvs, r5) => some ((k, v) :: kvs, r5)
                  else if c = 125 then some ([(k, v)], r4)
                  else none
            else none
      else none
end

/-- The scanner: the bytes are one JSON value surrounded by white space. -/
def scan (bs : List Byte) : Option JSON :=
  match scanValue (2 * bs.length + 2) bs with
  | none => none
  | some (v, r) => if r.dropWhile isWs = [] then some v else none

/-- Days from 0001-01-01 to the given date of the proleptic Gregorian calendar. -/
def daysFromCivil (y m d : Int) : Int :=
  let y1 := if m ≤ 2 then y - 1 else y
  let era := y1 / 400
  let yoe := y1 - era * 400
  let mp := if 2 < m then m - 3 else m + 9
  let doy := (153 * mp + 2) / 5 + d - 1
  let doe := yoe * 365 + yoe / 4 - yoe / 100 + doy
  era * 146097 + doe - 306

/-- The number of days of a month. -/
def daysIn (y m : Nat) : Nat :=
  if m = 2 then (if y % 4 = 0 ∧ (y % 100 ≠ 0 ∨ y % 400 = 0) then 29 else 28)
  else if m = 4 ∨ m = 6 ∨ m = 9 ∨ m = 11 then 30
  else 31

/-- A timestamp `YYYY-MM-DDTHH:MM:SSZ`. -/
def parseTime (s : String) : Option Time :=
  let bs := bytesOf s
  let num (i n : Nat) : Nat := natOf ((bs.drop i).take n)
  let digitsAt (i n : Nat) : Bool := ((bs.drop i).take n).all isDigitByte
  let y := num 0 4; let mo := num 5 2; let d := num 8 2
  let h := num 11 2; let mi := num 14 2; let sec := num 17 2
  if bs.length = 20 ∧ digitsAt 0 4 ∧ digitsAt 5 2 ∧ digitsAt 8 2 ∧ digitsAt 11 2 ∧
      digitsAt 14 2 ∧ digitsAt 17 2 ∧
      bs.get? 4 = some 45 ∧ bs.get? 7 = some 45 ∧ bs.get? 10 = some 84 ∧
      bs.get? 13 = some 58 ∧ bs.get? 16 = some 58 ∧ bs.get? 19 = some 90 ∧
      1 ≤ mo ∧ mo ≤ 12 ∧ 1 ≤ d ∧ d ≤ daysIn y mo ∧ h < 24 ∧ mi < 60 ∧ sec < 60 then
    some ⟨((daysFromCivil y mo d * 24 + h) * 60 + mi) * 60 * 1000000000 + sec * 1000000000⟩
  else none

/-- Characters a URL component of the subset may contain. -/
def isUnreserved (c : Char) : Bool :=
  c.isAlphanum || c = '-' || c = '.' || c = '_' || c = '~'

/-- The query of a URL of the subset: nothing, or `?` followed by unreserved characters,
`=` and `&`. -/
def parseQuery (r : List Char) : Option String :=
  match r with
  | [] => some ""
  | c :: q =>
    if c = '?' ∧ q.all (fun x => isUnreserved x || x = '=' || x = '&') then some (String.mk q)
    else none

/-- A URL of the subset.  An absolute URL: `http://` or `https://`, a non-empty host name of
unreserved characters with an optional port (`:` and digits), an optional path of unreserved
characters and `/`, and an optional query.  A relative reference: a path of unreserved
characters and `/` that does not start with `//`, and an optional query. -/
def urlParse (s : String) : Option URL :=
  let cs := s.toList
  let absolute : Option (String × List Char) :=
    if "https://".toList.isPrefixOf cs then some ("https", cs.drop 8)
    else if "http://".toList.isPrefixOf cs then some ("http", cs.drop 7)
    else none
  match absolute with
  | some (scheme, r) =>
    let name := r.takeWhile isUnreserved
    let r0 := r.dropWhile isUnreserved
    let port := if r0.head? = some ':' then ':' :: r0.tail.takeWhile Char.isDigit else []
    let host := name ++ port
    let r1 := r0.drop port.length
    let path := r1.takeWhile fun c => isUnreserved c || c = '/'
    let r2 := r1.dropWhile fun c => isUnreserved c || c = '/'
    if name = [] ∨ (path ≠ [] ∧ path.head? ≠ some '/') then none
    else
      (parseQuery r2).map fun q =>
        { Scheme := scheme, Host := String.mk host, Path := String.mk path, RawQuery := q }
  | none =>
    let path := cs.takeWhile fun c => isUnreserved c || c = '/'
    let r2 := cs.dropWhile fun c => isUnreserved c || c = '/'
    if "//".toList.isPrefixOf path then none
    else (parseQuery r2).map fun q => { Path := String.mk path, RawQuery := q }

/-- The first value of `key` among the `&`-separated pairs of a raw query written without
escapes (`%`, `+`) and without `;`; the empty string for any other query. -/
def queryGet (u : URL) (key : String) : String :=
  let q := u.RawQuery.toList
  if q.all (fun x => isUnreserved x || x = '=' || x = '&') then
    let pairs := ((splitOn '&' q).filter (· ≠ [])).map fun p =>
      (p.takeWhile (· ≠ '='), (p.dropWhile (· ≠ '=')).drop 1)
    match pairs.find? fun kv => kv.1 = key.toList with
    | some kv => String.mk kv.2
    | none => ""
  else ""

/-- The reference library. -/
def lib : Lib :=
  { scan := scan, parseTime := parseTime, urlParse := urlParse, queryGet := queryGet }

end Ref

/-! ## Notions used in the statements -/

namespace azure

/-- The event types `Parse` has a branch for. -/
def knownEvents : List String :=
  ["git.push", "git.pullrequest.created", "git.pullrequest.updated", "git.pullrequest.merged"]

/-- Whether the typed pass of the branch for the event type `t` returns an error. -/
def typedDecodeFails (lib : Lib) (data : List Byte) (t : String) : Bool :=
  if t = "git.push" then (unmarshalPushHook lib data).isNone
  else if t = "git.pullrequest.created" then (unmarshalCreatePullRequestHook lib data).isNone
  else if t = "git.pullrequest.updated" then (unmarshalUpdatePullRequestHook lib data).isNone
  else if t = "git.pullrequest.merged" then (unmarshalMergePullRequestHook lib data).isNone
  else false

/-- The canonical commit `convertPushHook` builds from a pushed commit. -/
def commitOf (c : pushCommit) : scm.Commit :=
  { Sha := c.CommitID
    Message := c.Comment
    Link := c.URL
    Author :=
      { Name := c.Author.Name, Login := c.Author.Name, Email := c.Author.Email,
        Date := c.Author.Date }
    Committer :=
      { Name := c.Committer.Name, Login := c.Committer.Name, Email := c.Committer.Email,
        Date := c.Committer.Date } }

end azure

/-- The integer a text denotes in decimal: an optional sign followed by one or more ASCII
digits; `none` for any other text. -/
def decimalValue (s : String) : Option Int :=
  match s.toList with
  | '-' :: ds => (digitsValue ds).map fun (n : Nat) => -Int.ofNat n
  | '+' :: ds => (digitsValue ds).map fun (n : Nat) => Int.ofNat n
  | ds => (digitsValue ds).map fun (n : Nat) => Int.ofNat n

namespace scm

/-- The four link relations `populatePageValues` recognises. -/
inductive Rel where
  | next
  | prev
  | first
  | last
  deriving DecidableEq, Repr

/-- The attribute text of a relation, as the `switch` of `populatePageValues` spells it. -/
def Rel.attr : Rel → String
  | .next => "rel=\"next\""
  | .prev => "rel=\"prev\""
  | .first => "rel=\"first\""
  | .last => "rel=\"last\""

/-- The field of a `Page` that belongs to a relation. -/
def Page.get (p : Page) : Rel → Int
  | .next => p.Next
  | .prev => p.Prev
  | .first => p.First
  | .last => p.Last

/-- A `Page` with the field of one relation replaced. -/
def Page.set (p : Page) (R : Rel) (n : Int) : Page :=
  match R with
  | .next => { p with Next := n }
  | .prev => { p with Prev := n }
  | .first => { p with First := n }
  | .last => { p with Last := n }

/-- One link of a `Link` header: the URL between `<` and `>`, the relation, and the page
number its `page` query parameter stands for. -/
structure Link where
  url : String
  rel : Rel
  page : Int
  deriving DecidableEq, Repr

/-- The segment `<U>; rel="R"` of a link. -/
def renderLink (l : Link) : String := "<" ++ l.url ++ ">; " ++ l.rel.attr

/-- The texts `xs` joined by `sep`. -/
def joinWith (sep : String) : List String → String
  | [] => ""
  | [x] => x
  | x :: y :: xs => x ++ sep ++ joinWith sep (y :: xs)

/-- The header value made of the segments of `links`, separated by `sep`. -/
def linkHeader (sep : String) (links : List Link) : String :=
  joinWith sep (links.map renderLink)

/-- The page number a list of links gives for a relation: that of the first link with the
relation, `0` when there is none. -/
def pageOf (links : List Link) (R : Rel) : Int :=
  ((links.find? fun l => l.rel = R).map Link.page).getD 0

/-- A link the parser can read with the library `lib`: its URL contains no `,` and no `;`,
parses as a URL, and its `page` query parameter is the decimal text of the page number,
which is in the range of `int`. -/
def Link.wellFormed (lib : Lib) (l : Link) : Prop :=
  ',' ∉ l.url.toList ∧ ';' ∉ l.url.toList ∧
    ∃ u, lib.urlParse l.url = some u ∧ decimalValue (lib.queryGet u "page") = some l.page ∧
      minInt ≤ l.page ∧ l.page ≤ maxInt

end scm

/-! ## Worked inputs -/

namespace Examples

/-- A request with the given ASCII body and no headers. -/
def post (body : String) : Request := { Body := { data := bytesOf body } }

/-- The body `{"eventType":"some.unsupported.event"}`, whose discriminator is not one of the
four known event types. -/
def unsupportedBody : String := "\x7b\"eventType\":\"some.unsupported.event\"\x7d"

/-- The body `{"eventType":"some.unsupported.event","n":1e999}`: an unknown discriminator
and a number that overflows `float64`. -/
def overflowBody : String := "\x7b\"eventType\":\"some.unsupported.event\",\"n\":1e999\x7d"

/-- The body `{"eventType":"git.push"}`: a push payload without `resource`. -/
def barePushBody : String := "\x7b\"eventType\":\"git.push\"\x7d"

/-- The body `{"eventType":"git.pullrequest.created","resource":{"pullRequestId":"7"}}`,
whose `pullRequestId` is a JSON string. -/
def badPullRequestBody : String :=
  "\x7b\"eventType\":\"git.pullrequest.created\",\"resource\":\x7b\"pullRequestId\":\"7\"\x7d\x7d"

/-- The push payload of the spec's scenario: ref `refs/heads/main`, before `aaa111`, after
`bbb222`, one commit; `repository`, `pushedBy` and `pushId` are populated.  In the text
below `\x7b` and `\x7d` are the braces of the JSON document. -/
def pushBody : String :=
  "\x7b\"eventType\":\"git.push\",\"resource\":\x7b\"commits\":[\x7b\"commitId\":\"bbb222\"," ++
  "\"author\":\x7b\"name\":\"Jamal\",\"email\":\"jamal@example.com\",\"date\":\"2020-02-29T12:00:01Z\"\x7d," ++
  "\"committer\":\x7b\"name\":\"Jamal\",\"email\":\"jamal@example.com\",\"date\":\"2020-02-29T12:00:01Z\"\x7d," ++
  "\"comment\":\"fix\",\"url\":\"https://dev.example.com/c/bbb222\"\x7d]," ++
  "\"refUpdates\":[\x7b\"name\":\"refs/heads/main\",\"oldObjectId\":\"aaa111\",\"newObjectId\":\"bbb222\"\x7d]," ++
  "\"repository\":\x7b\"id\":\"repo-1\",\"name\":\"demo\",\"url\":\"https://dev.example.com/r/demo\"\x7d," ++
  "\"pushedBy\":\x7b\"displayName\":\"Jamal\",\"id\":\"user-1\",\"uniqueName\":\"jamal@example.com\"\x7d," ++
  "\"pushId\":14\x7d\x7d"

/-- The timestamp `2020-02-29T12:00:01Z`. -/
def stamp : Time := ⟨63718574401000000000⟩

/-- The commit of `pushBody` in canonical form. -/
def pushCommit : scm.Commit :=
  { Sha := "bbb222"
    Message := "fix"
    Link := "https://dev.example.com/c/bbb222"
    Author := { Name := "Jamal", Email := "jamal@example.com", Date := stamp, Login := "Jamal" }
    Committer := { Name := "Jamal", Email := "jamal@example.com", Date := stamp, Login := "Jamal" } }

/-- The canonical event `Parse` returns for `pushBody`. -/
def pushEvent : scm.PushHook :=
  { Ref := "refs/heads/main"
    Before := "aaa111"
    After := "bbb222"
    Repo := { ID := "repo-1", Name := "demo", Clone := "https://dev.example.com/r/demo" }
    Commits := [pushCommit] }

/-- A request that carries `pushBody` and a signature header whose value is no digest. -/
def signedPush : Request :=
  { Header := [("X-Hub-Signature", ["sha256=invalid"])], Body := { data := bytesOf pushBody } }

/-- A secret resolver that returns the shared secret `s3cret` for every event. -/
def resolver : scm.SecretFunc := fun _ => .ok "s3cret"

/-- A pull-request payload whose resource says `status: completed` and
`mergeStatus: succeeded`, sent under the event type `eventType`; `repository` and
`createdBy` are populated. -/
def pullRequestBody (eventType : String) : String :=
  "\x7b\"eventType\":\"" ++ eventType ++ "\",\"resource\":\x7b\"pullRequestId\":7,\"status\":\"completed\"," ++
  "\"mergeStatus\":\"succeeded\",\"title\":\"Add docs\",\"description\":\"more docs\"," ++
  "\"sourceRefName\":\"refs/heads/docs\",\"targetRefName\":\"refs/heads/main\",\"mergeId\":\"m-1\"," ++
  "\"url\":\"https://dev.example.com/pr/7\",\"creationDate\":\"2020-02-29T12:00:01Z\"," ++
  "\"createdBy\":\x7b\"id\":\"user-1\",\"displayName\":\"Jamal\",\"uniqueName\":\"jamal@example.com\"," ++
  "\"imageUrl\":\"https://dev.example.com/u/1.png\"\x7d," ++
  "\"repository\":\x7b\"id\":\"repo-1\",\"name\":\"demo\",\"url\":\"https://dev.example.com/r/demo\"\x7d\x7d\x7d"

/-- The canonical event for `pullRequestBody`, up to its action. -/
def pullRequestEvent (a : scm.Action) : scm.PullRequestHook :=
  { Action := a
    PullRequest :=
      { Number := 7
        Title := "Add docs"
        Body := "more docs"
        Sha := "m-1"
        Ref := "refs/heads/docs"
        Source := "refs/heads/docs"
        Target := "refs/heads/main"
        Link := "https://dev.example.com/pr/7"
        Author :=
          { Login := "user-1", Name := "Jamal", Email := "jamal@example.com",
            Avatar := "https://dev.example.com/u/1.png" }
        Created := stamp }
    Repo :=
      { ID := "repo-1", Name := "repo-1", Namespace := "demo",
        Link := "https://dev.example.com/r/demo" }
    Sender :=
      { Login := "user-1", Name := "Jamal", Email := "jamal@example.com",
        Avatar := "https://dev.example.com/u/1.png" } }

/-- The map the first pass of `Parse` builds from an ASCII body (empty when it fails). -/
def membersOf (body : String) : List (String × JSON) :=
  (azure.unmarshalMap Ref.lib (bytesOf body)).getD []

/-- The `pushHook` the typed pass builds from an ASCII body (zero when it fails). -/
def pushHookOf (body : String) : azure.pushHook :=
  (azure.unmarshalPushHook Ref.lib (bytesOf body)).getD {}

/-- The header of the spec's scenario: `next` is page 2 and `last` is page 5. -/
def linkValue : String :=
  "<https://api.example.com/x?page=2>; rel=\"next\", <https://api.example.com/x?page=5>; rel=\"last\""

/-- The links of `linkValue`. -/
def links : List scm.Link :=
  [{ url := "https://api.example.com/x?page=2", rel := .next, page := 2 },
   { url := "https://api.example.com/x?page=5", rel := .last, page := 5 }]

/-- A header whose `next` page is the decimal integer `2^63`, one more than the largest
`int`. -/
def hugeLinkValue : String :=
  "<https://api.example.com/x?page=9223372036854775808>; rel=\"next\""

end Examples

namespace scm

/-- The four attribute texts the `switch` of `populatePageValues` has a case for. -/
def relAttrs : List String :=
  ["rel=\"next\"", "rel=\"prev\"", "rel=\"first\"", "rel=\"last\""]

/-- The `;`-separated parts of a segment of a `Link` header, as the code splits it: the
segment is trimmed first. -/
def segmentParts (m : String) : List String := Split (TrimSpace m) ';'

/-- The first part of a segment without its first and last character: the text handed to
`url.Parse`. -/
def segmentTarget (m : String) : String :=
  String.mk (((segmentParts m).headD "").toList.drop 1).dropLast

/-- A structurally malformed segment: fewer than two parts, or a first part that is not
wrapped in `<` and `>`, or a URL that fails to parse, or a URL without a non-empty `page`
parameter, or no attribute that trims to one of the four relation attributes. -/
def malformed (lib : Lib) (m : String) : Prop :=
  (segmentParts m).length < 2 ∨
  HasPrefix ((segmentParts m).headD "") "<" = false ∨
  HasSuffix ((segmentParts m).headD "") ">" = false ∨
  lib.urlParse (segmentTarget m) = none ∨
  (∃ u, lib.urlParse (segmentTarget m) = some u ∧ lib.queryGet u "page" = "") ∨
  (∀ a ∈ (segmentParts m).tail, TrimSpace a ∉ relAttrs)

/-- The `Page` that `populatePageValues` computes from the header value `H`, starting from
the page `p`. -/
def pageFrom (lib : Lib) (p : Page) (H : String) : Page :=
  (Response.populatePageValues lib { Header := [("Link", [H])], Page := p }).Page

end scm

namespace scm

/-- The segment text `<U>; rel="R"`. -/
def segmentText (U : String) (R : Rel) : String := "<" ++ U ++ ">; " ++ R.attr

end scm

namespace Examples

/-- A header whose only segment gives `next` the page 2. -/
def nextValue : String := "<https://api.example.com/x?page=2>; rel=\"next\""

/-- A `next` segment whose `page` parameter is not a number. -/
def badPageSegment : String := " <https://api.example.com/x?page=abc>; rel=\"next\""

end Examples

/-- The decimal text of an integer: its digits, with a leading `-` when it is negative. -/
def decimalText (n : Int) : String :=
  if n < 0 then "-" ++ Nat.repr n.natAbs else Nat.repr n.natAbs

namespace scm

/-- The URL `https://host/path?page=N` of the canonical serialisation. -/
def pageURL (n : Int) : String := "https://host/path?page=" ++ decimalText n

/-- The links of the canonical serialisation of a `Page`: one per non-zero field, in the
order next, prev, first, last. -/
def canonicalLinks (p : Page) : List Link :=
  ([Rel.next, Rel.prev, Rel.first, Rel.last].filter fun R => p.get R ≠ 0).map fun R =>
    { url := pageURL (p.get R), rel := R, page := p.get R }

/-- The canonical serialisation of a `Page` as a `Link` header value: one segment
`<https://host/path?page=N>; rel="R"` per non-zero field, joined by `", "`. -/
def serialise (p : Page) : String := linkHeader ", " (canonicalLinks p)

/-- The library reads the URLs of the canonical serialisation of `p`: each parses, and its
`page` parameter is the decimal text it was built from. -/
def servesPages (lib : Lib) (p : Page) : Prop :=
  ∀ R, p.get R ≠ 0 →
    ∃ u, lib.urlParse (pageURL (p.get R)) = some u ∧
      lib.queryGet u "page" = decimalText (p.get R)

/-- The fields of a `Page` are in the range of `int` and `NextURL` is empty. -/
def Page.plain (p : Page) : Prop :=
  (∀ R, minInt ≤ p.get R ∧ p.get R ≤ maxInt) ∧ p.NextURL = ""

end scm

/-! ## Values of `scm/apps.go` and `scm/client.go` -/

namespace scm

/-- The struct `scm.InstallationPermissions` (`scm/apps.go`). -/
structure InstallationPermissions where
  Actions : String := ""
  Administration : String := ""
  Blocking : String := ""
  Checks : String := ""
  Contents : String := ""
  ContentReferences : String := ""
  Deployments : String := ""
  Emails : String := ""
  Environments : String := ""
  Followers : String := ""
  Issues : String := ""
  Metadata : String := ""
  Members : String := ""
  OrganizationAdministration : String := ""
  OrganizationCustomRoles : String := ""
  OrganizationHooks : String := ""
  OrganizationPackages : String := ""
  OrganizationPlan : String := ""
  OrganizationPreReceiveHooks : String := ""
  OrganizationProjects : String := ""
  OrganizationSecrets : String := ""
  OrganizationSelfHostedRunners : String := ""
  OrganizationUserBlocking : String := ""
  Packages : String := ""
  Pages : String := ""
  PullRequests : String := ""
  RepositoryHooks : String := ""
  RepositoryProjects : String := ""
  RepositoryPreReceiveHooks : String := ""
  Secrets : String := ""
  SecretScanningAlerts : String := ""
  SecurityEvents : String := ""
  SingleFile : String := ""
  Statuses : String := ""
  TeamDiscussions : String := ""
  VulnerabilityAlerts : String := ""
  Workflows : String := ""
  deriving DecidableEq, Repr

/-- The struct `scm.App` (`scm/apps.go`); a nil pointer is `none`. -/
structure App where
  ID : Int := 0
  Slug : String := ""
  NodeID : String := ""
  Owner : Option User := none
  Name : String := ""
  Description : String := ""
  ExternalURL : String := ""
  HTMLURL : String := ""
  CreatedAt : Time := Time.zero
  UpdatedAt : Time := Time.zero
  Permissions : Option InstallationPermissions := none
  Events : List String := []
  deriving DecidableEq, Repr

/-- The struct `scm.Installation` (`scm/apps.go`). -/
structure Installation where
  ID : Int := 0
  NodeID : String := ""
  AppID : Int := 0
  AppSlug : String := ""
  TargetID : Int := 0
  Account : Option User := none
  AccessTokensURL : String := ""
  RepositoriesURL : String := ""
  HTMLURL : String := ""
  TargetType : String := ""
  SingleFileName : String := ""
  RepositorySelection : String := ""
  Events : List String := []
  SingleFilePaths : List String := []
  Permissions : Option InstallationPermissions := none
  CreatedAt : Time := Time.zero
  UpdatedAt : Time := Time.zero
  HasMultipleSingleFiles : Bool := false
  SuspendedBy : Option User := none
  SuspendedAt : Option Time := none
  deriving DecidableEq, Repr

/-- The struct `scm.InstallationToken` (`scm/apps.go`). -/
structure InstallationToken where
  Token : String := ""
  ExpiresAt : Time := Time.zero
  Permissions : Option InstallationPermissions := none
  Repositories : List (Option Repository) := []
  deriving DecidableEq, Repr

/-- The struct `scm.InstallationTokenOptions` (`scm/apps.go`). -/
structure InstallationTokenOptions where
  RepositoryIDs : List Int := []
  Repositories : List String := []
  Permissions : Option InstallationPermissions := none
  deriving DecidableEq, Repr

/-- The struct `scm.ListOptions` (`scm/client.go`). -/
structure ListOptions where
  URL : String := ""
  Page : Int := 0
  Size : Int := 0
  deriving DecidableEq, Repr

/-- Modelled from the spec: the type `scm.Token` is declared outside the files at hand.  It
is the token of a per-call override, which the transport core passes on without
interpreting it. -/
structure Token where
  Token : String := ""
  Refresh : String := ""
  Expires : Time := Time.zero
  deriving DecidableEq, Repr

/-- The struct `scm.RequestDetails`; a nil `Token` is `none`. -/
structure RequestDetails where
  URL : String := ""
  Token : Option Token := none
  deriving DecidableEq, Repr

/-- A `context.Context`, as far as the client reads and writes it: the `*RequestDetails`
stored under `RequestContextKey{}` (`none` when the key is absent or holds nil or a value of
another type) and the token stored under `TokenKey{}`. -/
structure Context where
  requestDetails : Option RequestDetails := none
  token : Option Token := none
  deriving DecidableEq, Repr

/-- The struct `scm.Request`; a nil `Header` or `Body` is `none`. -/
structure Request where
  Method : String := ""
  Path : String := ""
  Header : Option Header := none
  Body : Option Body := none
  deriving DecidableEq, Repr

end scm

/-! ## HTTP (`package net/http`, `package net/url`) -/

/-- An outgoing `http.Request`: what `http.NewRequest` builds and `Client.Do` completes. -/
structure HTTPRequest where
  Method : String := ""
  URL : URL := {}
  Header : Header := []
  Body : Option Body := none
  Host : String := ""
  ctx : scm.Context := {}
  deriving DecidableEq, Repr

/-- An `http.Response`, as far as the client reads it. -/
structure HTTPResponse where
  StatusCode : Int := 0
  Header : Header := []
  Body : Body := { data := [] }
  deriving DecidableEq, Repr

/-- An `*http.Client`, given by its method `Do`. -/
abbrev HTTPClient := HTTPRequest → Except scm.Error HTTPResponse

/-- The standard library as the client uses it, on top of `Lib`.  `urlError s` is the error
`url.Parse` returns for a text it rejects; `resolve base ref` is `base.ResolveReference(ref)`;
`urlString u` is `u.String()`; `newRequest method url body` is `http.NewRequest`;
`defaultClient` is `http.DefaultClient`; `decodeFirst body` is the first JSON value
`json.NewDecoder(body)` reads (`none` when reading or scanning fails). -/
structure Net extends Lib where
  urlError : String → scm.Error
  resolve : URL → URL → URL
  urlString : URL → String
  newRequest : String → String → Option Body → Except scm.Error HTTPRequest
  defaultClient : HTTPClient
  decodeFirst : Body → Option JSON

/-- The method `(*URL).Parse`: the reference is parsed and resolved against the receiver. -/
def URL.Parse (net : Net) (u : URL) (ref : String) : Except scm.Error URL :=
  match net.urlParse ref with
  | none => .error (net.urlError ref)
  | some refURL => .ok (net.resolve u refURL)

/-- Whether `sub` occurs in `cs`. -/
def containsChars (sub : List Char) : List Char → Bool
  | [] => sub.isEmpty
  | c :: cs => sub.isPrefixOf (c :: cs) || containsChars sub cs

/-- The call `strings.Contains(s, sub)`. -/
def Contains (s sub : String) : Bool := containsChars sub.toList s.toList

/-- The call `strconv.ParseInt(s, 10, 64)`: the computation of `Atoi` with the bit size 64,
which is that of `int`. -/
def ParseInt64 (s : String) : Int × Bool := Atoi s

/-! ## The client (`scm/client.go`) -/

namespace scm

/-- The struct `scm.Client`, without its `Driver`, `Linker` and service fields, which the
code under study does not read.  `mu` tells whether the mutex is held; a nil `Client` or
`DumpResponse` is `none`; `BaseURL` is the URL the pointer refers to (every constructor of a
driver sets it).  A `DumpResponse`
function receives a pointer to the response: it returns the response as it leaves it,
together with its result. -/
structure Client where
  mu : Bool := false
  Client : Option HTTPClient := none
  BaseURL : URL := {}
  DumpResponse : Option (HTTPResponse → Bool → HTTPResponse × Except Error (List Byte)) := none
  rate : Rate := {}

/-- The method `Client.Rate`: `Lock`, read the snapshot, and `Unlock` on return. -/
def Client.Rate (c : scm.Client) : Run (scm.Client × scm.Rate) :=
  if c.mu then .crash .deadlock
  else
    let c1 := { c with mu := true }
    let rate := c1.rate
    .done ({ c1 with mu := false }, rate)

/-- The method `Client.SetRate`: `Lock`, write the snapshot, `Unlock`. -/
def Client.SetRate (c : scm.Client) (rate : scm.Rate) : Run scm.Client :=
  if c.mu then .crash .deadlock
  else
    let c1 := { c with mu := true }
    let c2 := { c1 with rate := rate }
    .done { c2 with mu := false }

/-- The method `Client.requestDetails`: the comma-ok assertion never fails and the error is
always nil. -/
def Client.requestDetails (_c : scm.Client) (ctx : Context) : Option RequestDetails × Option Error :=
  (ctx.requestDetails, none)

/-- The function `newResponse`. -/
def newResponse (lib : Lib) (r : HTTPResponse) : Response :=
  Response.populatePageValues lib { Status := r.StatusCode, Header := r.Header, Body := r.Body }

/-- Lines 188-190 of `Client.Do`: a `/` is appended to the path of the override's URL when
it does not end with one. -/
def withTrailingSlash (base : URL) : URL :=
  if !HasSuffix base.Path "/" then { base with Path := base.Path ++ "/" } else base

/-- The first part of `Client.Do` (up to the call of `http.NewRequest`): the URL of the
request and the context that is passed on with it. -/
def Client.target (net : Net) (c : scm.Client) (ctx : Context) (req : Request) :
    Except Error (URL × Context) :=
  match URL.Parse net c.BaseURL req.Path with
  | .error err => .error err
  | .ok uri =>
    match c.requestDetails ctx with
    | (_, some err) => .error err
    | (none, none) => .ok (uri, ctx)
    | (some reqDetails, none) =>
      let ctx : Context :=
        match reqDetails.Token with
        | some token => { ctx with token := some token }
        | none => ctx
      if reqDetails.URL ≠ "" then
        match net.urlParse reqDetails.URL with
        | none => .error (net.urlError reqDetails.URL)
        | some base =>
          match URL.Parse net (withTrailingSlash base) req.Path with
          | .error err => .error err
          | .ok uri => .ok (uri, ctx)
      else .ok (uri, ctx)

/-- Lines 204-213 of `Client.Do`, applied to the request `hreq` that `http.NewRequest` has
built: the `%2F` adjustment of the URL, the context and the headers of the caller. -/
def Client.prepare (ctx : Context) (req : Request) (hreq : HTTPRequest) : HTTPRequest :=
  let hreq : HTTPRequest :=
    if Contains req.Path "%2F" then
      { hreq with URL := { hreq.URL with Opaque := (Split hreq.URL.RawPath '?').headD "" } }
    else hreq
  let hreq : HTTPRequest := { hreq with ctx := ctx }
  match req.Header with
  | some h => { hreq with Header := h }
  | none => hreq

/-- The request `Client.Do` hands to the HTTP client (lines 168-213). -/
def Client.outgoing (net : Net) (c : scm.Client) (ctx : Context) (req : Request) :
    Except Error HTTPRequest :=
  match c.target net ctx req with
  | .error err => .error err
  | .ok (uri, ctx) =>
    match net.newRequest req.Method (net.urlString uri) req.Body with
    | .error err => .error err
    | .ok hreq => .ok (Client.prepare ctx req hreq)

/-- The HTTP client `Client.Do` uses: the default client if none is provided. -/
def Client.transport (net : Net) (c : scm.Client) : HTTPClient :=
  match c.Client with
  | some client => client
  | none => net.defaultClient

/-- What a call of `Client.Do` leaves behind: the client, the pair `(*Response, error)` and
the bytes written to the standard output. -/
structure DoResult where
  client : scm.Client
  res : Option Response := none
  err : Option Error := none
  stdout : List Byte := []

/-- The method `Client.Do`.  No statement of it assigns to a field of the client, so the
client it leaves behind is the one it was called on. -/
def Client.Do (net : Net) (c : scm.Client) (ctx : Context) (req : Request) : DoResult :=
  match c.outgoing net ctx req with
  | .error err => { client := c, err := some err }
  | .ok hreq =>
    match c.transport net hreq with
    | .error err => { client := c, err := some err }
    | .ok res =>
      match c.DumpResponse with
      | some dump =>
        match dump res true with
        | (res, .ok raw) => { client := c, res := some (newResponse net.toLib res), stdout := raw }
        | (res, .error _) => { client := c, res := some (newResponse net.toLib res) }
      | none => { client := c, res := some (newResponse net.toLib res) }

end scm

/-! ## The GitHub wrapper (`scm/driver/github/github.go`) -/

namespace github

/-- The `Message` that `json.NewDecoder(body).Decode(err)` leaves in a `github.Error`: the
members of an object are stored in document order, a string value of a key matching
`message` is stored, any other value leaves the field as it is. -/
def errorMessage (doc : Option JSON) : String :=
  match doc with
  | some (.obj kvs) =>
    kvs.foldl (fun msg kv =>
      if equalFold kv.1 "message" then
        match kv.2 with
        | .str s => s
        | _ => msg
      else msg) ""
  | _ => ""

/-- The request `wrapper.do` builds.  `input` is `none` when `in` is nil and otherwise the
bytes `json.NewEncoder(buf).Encode(in)` writes. -/
def request (method path : String) (input : Option (List Byte)) : scm.Request :=
  match input with
  | none => { Method := method, Path := path }
  | some buf =>
    { Method := method
      Path := path
      Header := some [("Content-Type", ["application/json"])]
      Body := some { data := buf } }

/-- The rate-limit details `wrapper.do` reads from the headers of a response. -/
def rateOf (h : Header) : scm.Rate :=
  { Limit := (Atoi (h.Get "X-RateLimit-Limit")).1
    Remaining := (Atoi (h.Get "X-RateLimit-Remaining")).1
    Reset := (ParseInt64 (h.Get "X-RateLimit-Reset")).1 }

/-- What a call of `wrapper.do` leaves behind: the client, the pair `(*scm.Response, error)`,
the value `out` points to, and the bytes written to the standard output. -/
structure Result (α : Type) where
  client : scm.Client
  res : Option scm.Response := none
  err : Option scm.Error := none
  out : Option α := none
  stdout : List Byte := []

/-- The method `wrapper.do`.  `out` is `none` for a nil `out` and otherwise the value it
points to; `decode body v` is `json.NewDecoder(body).Decode(out)`: the value it leaves in
`out` and the error it returns.  The body of the returned response has been read and
closed; the model keeps its content. -/
def wrapper.do {α : Type} (net : Net) (c : scm.Client) (ctx : scm.Context)
    (method path : String) (input : Option (List Byte)) (out : Option α)
    (decode : Body → α → α × Option scm.Error) : Run (Result α) :=
  let r := c.Do net ctx (request method path input)
  match r.err with
  | some err => .done { client := r.client, err := some err, out := out, stdout := r.stdout }
  | none =>
    match r.res with
    | none => .crash .nilDereference
    | some res =>
      let res : scm.Response := { res with ID := res.Header.Get "X-GitHub-Request-Id" }
      let res : scm.Response := { res with Rate := rateOf res.Header }
      match r.client.SetRate res.Rate with
      | .crash p => .crash p
      | .done client =>
        if res.Status > 300 then
          .done
            { client := client
              res := some res
              err := some (.github (errorMessage (net.decodeFirst res.Body)))
              out := out
              stdout := r.stdout }
        else
          match out with
          | none => .done { client := client, res := some res, stdout := r.stdout }
          | some v =>
            .done
              { client := client
                res := some res
                err := (decode res.Body v).2
                out := some (decode res.Body v).1
                stdout := r.stdout }

end github

/-! ## The Gitea apps service (`scm/driver/gitea/apps.go`) -/

namespace gitea

/-- The struct `appsService`; its `client` is not read by any of its methods. -/
structure appsService where
  client : scm.Client

/-- A result `(*T, *scm.Response, error)`. -/
abbrev Triple (α : Type) := Option α × Option scm.Response × Option scm.Error

/-- A result `([]*scm.Installation, *scm.Response, error)`: a nil slice is `none`. -/
abbrev ListTriple :=
  Option (List (Option scm.Installation)) × Option scm.Response × Option scm.Error

/-- A result `(*scm.Response, error)`. -/
abbrev Pair := Option scm.Response × Option scm.Error

/-- The method `appsService.Get`. -/
def appsService.Get (_s : appsService) (_ctx : scm.Context) (_appSlug : String) :
    Triple scm.App :=
  (none, none, some .ErrNotSupported)

/-- The method `appsService.ListInstallations`. -/
def appsService.ListInstallations (_s : appsService) (_ctx : scm.Context)
    (_opts : scm.ListOptions) : ListTriple :=
  (none, none, some .ErrNotSupported)

/-- The method `appsService.GetInstallation`. -/
def appsService.GetInstallation (_s : appsService) (_ctx : scm.Context) (_id : Int) :
    Triple scm.Installation :=
  (none, none, some .ErrNotSupported)

/-- The method `appsService.ListUserInstallations`. -/
def appsService.ListUserInstallations (_s : appsService) (_ctx : scm.Context)
    (_opts : scm.ListOptions) : ListTriple :=
  (none, none, some .ErrNotSupported)

/-- The method `appsService.SuspendInstallation`. -/
def appsService.SuspendInstallation (_s : appsService) (_ctx : scm.Context) (_id : Int) : Pair :=
  (none, some .ErrNotSupported)

/-- The method `appsService.UnsuspendInstallation`. -/
def appsService.UnsuspendInstallation (_s : appsService) (_ctx : scm.Context) (_id : Int) :
    Pair :=
  (none, some .ErrNotSupported)

/-- The method `appsService.DeleteInstallation`. -/
def appsService.DeleteInstallation (_s : appsService) (_ctx : scm.Context) (_id : Int) : Pair :=
  (none, some .ErrNotSupported)

/-- The method `appsService.CreateInstallationToken`; a nil `opts` is `none`. -/
def appsService.CreateInstallationToken (_s : appsService) (_ctx : scm.Context) (_id : Int)
    (_opts : Option scm.InstallationTokenOptions) : Triple scm.InstallationToken :=
  (none, none, some .ErrNotSupported)

/-- The method `appsService.FindOrganizationInstallation`. -/
def appsService.FindOrganizationInstallation (_s : appsService) (_ctx : scm.Context)
    (_org : String) : Triple scm.Installation :=
  (none, none, some .ErrNotSupported)

/-- The method `appsService.FindRepositoryInstallation`. -/
def appsService.FindRepositoryInstallation (_s : appsService) (_ctx : scm.Context)
    (_owner _repo : String) : Triple scm.Installation :=
  (none, none, some .ErrNotSupported)

/-- The method `appsService.FindRepositoryInstallationByID`. -/
def appsService.FindRepositoryInstallationByID (_s : appsService) (_ctx : scm.Context)
    (_id : Int) : Triple scm.Installation :=
  (none, none, some .ErrNotSupported)

/-- The method `appsService.FindUserInstallation`. -/
def appsService.FindUserInstallation (_s : appsService) (_ctx : scm.Context) (_user : String) :
    Triple scm.Installation :=
  (none, none, some .ErrNotSupported)

end gitea

/-! ## The reference library, continued -/

namespace Ref

/-- The path `resolvePath(base, ref)` for paths without `.` and `..` segments: the reference
replaces what follows the last `/` of the base, and the result starts with `/`. -/
def resolvePath (base ref : String) : String :=
  let full : List Char :=
    if ref = "" then base.toList
    else if HasPrefix ref "/" then ref.toList
    else (base.toList.reverse.dropWhile (· ≠ '/')).reverse ++ ref.toList
  if full = [] then ""
  else if full.head? = some '/' then String.mk full
  else String.mk ('/' :: full)

/-- The method `ResolveReference` for URLs of the subset.  A reference with a scheme or a
host stands for itself; any other takes the scheme and the host of the base and the
resolved path, keeps its own query, and takes the query and the fragment of the base only
when it is empty. -/
def resolve (base ref : URL) : URL :=
  if ref.Scheme ≠ "" ∨ ref.Host ≠ "" then
    { ref with Scheme := if ref.Scheme = "" then base.Scheme else ref.Scheme }
  else
    let inherit : Bool := ref.Path = "" ∧ ref.RawQuery = ""
    { Scheme := base.Scheme
      Host := base.Host
      Path := resolvePath base.Path ref.Path
      RawQuery := if inherit then base.RawQuery else ref.RawQuery
      Fragment := if inherit ∧ ref.Fragment = "" then base.Fragment else ref.Fragment }

/-- The method `String` for URLs of the subset (no user information, nothing to escape). -/
def urlString (u : URL) : String :=
  let scheme := if u.Scheme ≠ "" then u.Scheme ++ ":" else ""
  let body :=
    if u.Opaque ≠ "" then u.Opaque
    else
      let authority :=
        if (u.Scheme ≠ "" ∨ u.Host ≠ "") ∧ (u.Host ≠ "" ∨ u.Path ≠ "") then "//" ++ u.Host
        else ""
      let path :=
        if u.Path ≠ "" ∧ ¬ HasPrefix u.Path "/" ∧ u.Host ≠ "" then "/" ++ u.Path else u.Path
      authority ++ path
  let query := if u.RawQuery ≠ "" then "?" ++ u.RawQuery else ""
  let fragment := if u.Fragment ≠ "" then "#" ++ u.Fragment else ""
  scheme ++ body ++ query ++ fragment

/-- The error `url.Parse` returns for the text `s`. -/
def urlError (s : String) : scm.Error := .other ("parse " ++ s)

/-- The function `http.NewRequest` for methods written in capital letters and URLs of the
subset: an empty method stands for `GET`, and the host of the request is the host of the
URL. -/
def newRequest (method url : String) (body : Option Body) : Except scm.Error HTTPRequest :=
  let method := if method = "" then "GET" else method
  if method.toList.all Char.isUpper then
    match urlParse url with
    | none => .error (urlError url)
    | some u => .ok { Method := method, URL := u, Body := body, Host := u.Host }
  else .error (.other "net/http: invalid method")

/-- A default client without a network: every request fails. -/
def defaultClient : HTTPClient := fun _ => .error (.other "dial tcp: network is unreachable")

/-- The first JSON value of a body that holds one value and reads without error. -/
def decodeFirst (b : Body) : Option JSON :=
  match b.err with
  | none => scan b.data
  | some _ => none

/-- The reference library of the client. -/
def net : Net :=
  { toLib := lib
    urlError := urlError
    resolve := resolve
    urlString := urlString
    newRequest := newRequest
    defaultClient := defaultClient
    decodeFirst := decodeFirst }

end Ref

/-! ## Notions used in the statements about the client -/

namespace scm

/-- The calls `c.SetRate(r)` for the rates of a list, one after the other. -/
def Client.setRates (c : scm.Client) : List scm.Rate → Run scm.Client
  | [] => .done c
  | r :: rs =>
    match c.SetRate r with
    | .crash p => .crash p
    | .done c1 => Client.setRates c1 rs

/-- The snapshot a call `c.Rate()` returns; `none` when the call does not return. -/
def Client.snapshot (c : scm.Client) : Option scm.Rate :=
  match c.Rate with
  | .crash _ => none
  | .done (_, rate) => some rate

/-- The response `newResponse` receives in `Client.Do` when the HTTP client has returned
`res`: `res` as the `DumpResponse` function of the client, if any, leaves it. -/
def Client.dumped (c : scm.Client) (res : HTTPResponse) : HTTPResponse :=
  match c.DumpResponse with
  | some dump => (dump res true).1
  | none => res

end scm

namespace Examples

/-- The URL `https://api.github.com/`. -/
def apiBase : URL := { Scheme := "https", Host := "api.github.com", Path := "/" }

/-- A response with status 404, rate-limit headers and a JSON error body. -/
def notFound : HTTPResponse :=
  { StatusCode := 404
    Header :=
      [ ("X-Ratelimit-Limit", ["5000"]),
        ("X-Ratelimit-Remaining", ["4999"]),
        ("X-Ratelimit-Reset", ["1700000000"]) ]
    Body := { data := bytesOf "\x7b\"message\":\"Not Found\"\x7d" } }

/-- A response with status 200 whose `X-RateLimit-Limit` is `9223372036854775808`, the
integer after the largest `int64`; the other two rate-limit headers are in range. -/
def hugeLimit : HTTPResponse :=
  { StatusCode := 200
    Header :=
      [ ("X-Ratelimit-Limit", ["9223372036854775808"]),
        ("X-Ratelimit-Remaining", ["4999"]),
        ("X-Ratelimit-Reset", ["1700000000"]) ]
    Body := { data := bytesOf "\x7b\x7d" } }

/-- A response with status 200 whose rate-limit headers are not decimal integers: the digits
of `X-RateLimit-Limit` and of `X-RateLimit-Reset` go beyond `uint64` before the letter, and
`X-RateLimit-Remaining` starts with a letter. -/
def garbledLimit : HTTPResponse :=
  { StatusCode := 200
    Header :=
      [ ("X-Ratelimit-Limit", ["99999999999999999999x"]),
        ("X-Ratelimit-Remaining", ["abc"]),
        ("X-Ratelimit-Reset", ["-99999999999999999999x"]) ]
    Body := { data := bytesOf "\x7b\x7d" } }

/-- A client for `https://api.github.com/` whose HTTP client answers every request with
`res`. -/
def answering (res : HTTPResponse) : scm.Client :=
  { Client := some fun _ => .ok res, BaseURL := apiBase }

/-- A client for `https://api.github.com/` whose HTTP client fails on every request. -/
def refused : scm.Client :=
  { Client := some fun _ => .error (.other "connection refused"), BaseURL := apiBase }

/-- A context that carries an override with the URL `url` and no token. -/
def override (url : String) : scm.Context := { requestDetails := some { URL := url } }

end Examples

/-- The nearest `int64` to an integer. -/
def clampInt (n : Int) : Int :=
  if maxInt < n then maxInt else if n < minInt then minInt else n

/-- The text without its sign: one leading `+` or `-` is removed. -/
def unsignedText (s : String) : List Char :=
  if s.toList.head? = some '-' ∨ s.toList.head? = some '+' then s.toList.tail else s.toList

/-- The number the digits of `ds` stand for, most significant first. -/
def digitsNat (ds : List Char) : Nat := ds.foldl (fun n c => 10 * n + (c.toNat - 48)) 0

/-- The digits a text starts with, after its sign. -/
def leadingDigits (s : String) : List Char := (unsignedText s).takeWhile Char.isDigit

/-- The integer `strconv.Atoi` leaves in its result, stated without the loop: the nearest
bound of `int` when the decimal integer the text denotes lies outside `int`, that integer
when it lies inside; and for a text that is no optionally signed decimal number, the largest
(after a `-`, the smallest) `int` when the digits it starts with after the sign go beyond
`uint64`, and `0` otherwise. -/
def intOfText (s : String) : Int :=
  match decimalValue s with
  | some n => clampInt n
  | none =>
    if maxUint64 < digitsNat (leadingDigits s) then
      if s.toList.head? = some '-' then minInt else maxInt
    else 0

/-- The number a rate-limit header stands for: the integer of its first value, `0` when the
header is missing. -/
def headerInt (h : Header) (key : String) : Int := intOfText (h.Get key)

/-! ## The GitHub apps service (`scm/driver/github/apps.go`) -/

namespace github

/-- Modelled from the spec: the wire type `user` of the GitHub driver is declared outside the
files at hand; these are the fields the canonical `scm.User` has. -/
structure user where
  Login : String := ""
  Name : String := ""
  Email : String := ""
  Avatar : String := ""
  deriving DecidableEq, Repr

/-- The function `convertUser` of the GitHub driver is declared outside the files at hand: it
is a parameter of the converters below.  It receives a `*user` (`none` for nil) and either
panics or returns a `*scm.User`. -/
abbrev UserConverter := Option user → Run (Option scm.User)

/-- The Go type `installationPermissions`. -/
structure installationPermissions where
  Actions : String := ""
  Administration : String := ""
  Blocking : String := ""
  Checks : String := ""
  Contents : String := ""
  ContentReferences : String := ""
  Deployments : String := ""
  Emails : String := ""
  Environments : String := ""
  Followers : String := ""
  Issues : String := ""
  Metadata : String := ""
  Members : String := ""
  OrganizationAdministration : String := ""
  OrganizationCustomRoles : String := ""
  OrganizationHooks : String := ""
  OrganizationPackages : String := ""
  OrganizationPlan : String := ""
  OrganizationPreReceiveHooks : String := ""
  OrganizationProjects : String := ""
  OrganizationSecrets : String := ""
  OrganizationSelfHostedRunners : String := ""
  OrganizationUserBlocking : String := ""
  Packages : String := ""
  Pages : String := ""
  PullRequests : String := ""
  RepositoryHooks : String := ""
  RepositoryProjects : String := ""
  RepositoryPreReceiveHooks : String := ""
  Secrets : String := ""
  SecretScanningAlerts : String := ""
  SecurityEvents : String := ""
  SingleFile : String := ""
  Statuses : String := ""
  TeamDiscussions : String := ""
  VulnerabilityAlerts : String := ""
  Workflows : String := ""
  deriving DecidableEq, Repr

/-- The Go type `app`; a nil pointer is `none`. -/
structure app where
  ID : Int := 0
  Slug : String := ""
  NodeID : String := ""
  Owner : Option user := none
  Name : String := ""
  Description : String := ""
  ExternalURL : String := ""
  HTMLURL : String := ""
  CreatedAt : Time := Time.zero
  UpdatedAt : Time := Time.zero
  Permissions : Option installationPermissions := none
  Events : List String := []
  deriving DecidableEq, Repr

/-- The function `convertInstallationPermissions`. -/
def convertInstallationPermissions (src : Option installationPermissions) :
    Option scm.InstallationPermissions :=
  match src with
  | none => none
  | some p =>
    some
    { Actions := p.Actions
      Administration := p.Administration
      Blocking := p.Blocking
      Checks := p.Checks
      Contents := p.Contents
      ContentReferences := p.ContentReferences
      Deployments := p.Deployments
      Emails := p.Emails
      Environments := p.Environments
      Followers := p.Followers
      Issues := p.Issues
      Metadata := p.Metadata
      Members := p.Members
      OrganizationAdministration := p.OrganizationAdministration
      OrganizationCustomRoles := p.OrganizationCustomRoles
      OrganizationHooks := p.OrganizationHooks
      OrganizationPackages := p.OrganizationPackages
      OrganizationPlan := p.OrganizationPlan
      OrganizationPreReceiveHooks := p.OrganizationPreReceiveHooks
      OrganizationProjects := p.OrganizationProjects
      OrganizationSecrets := p.OrganizationSecrets
      OrganizationSelfHostedRunners := p.OrganizationSelfHostedRunners
      OrganizationUserBlocking := p.OrganizationUserBlocking
      Packages := p.Packages
      Pages := p.Pages
      PullRequests := p.PullRequests
      RepositoryHooks := p.RepositoryHooks
      RepositoryProjects := p.RepositoryProjects
      RepositoryPreReceiveHooks := p.RepositoryPreReceiveHooks
      Secrets := p.Secrets
      SecretScanningAlerts := p.SecretScanningAlerts
      SecurityEvents := p.SecurityEvents
      SingleFile := p.SingleFile
      Statuses := p.Statuses
      TeamDiscussions := p.TeamDiscussions
      VulnerabilityAlerts := p.VulnerabilityAlerts
      Workflows := p.Workflows }

/-- The function `convertApp`.  The fields of the literal are evaluated in order, so a panic
of `convertUser` is a panic of `convertApp`. -/
def convertApp (convertUser : UserConverter) (src : Option app) : Run (Option scm.App) :=
  match src with
  | none => .done none
  | some a =>
    match convertUser a.Owner with
    | .crash p => .crash p
    | .done owner =>
      .done (some
        { ID := a.ID
          Slug := a.Slug
          NodeID := a.NodeID
          Owner := owner
          Name := a.Name
          Description := a.Description
          ExternalURL := a.ExternalURL
          HTMLURL := a.HTMLURL
          CreatedAt := a.CreatedAt
          UpdatedAt := a.UpdatedAt
          Permissions := convertInstallationPermissions a.Permissions
          Events := a.Events })

/-- The struct `appsService`: its `client` is the wrapper around the `scm.Client`. -/
structure appsService where
  client : scm.Client

/-- What a method of the service leaves behind: the client, the converted data, and the pair
`(*scm.Response, error)` of `wrapper.do`. -/
structure Reply (α : Type) where
  client : scm.Client
  data : α
  res : Option scm.Response := none
  err : Option scm.Error := none

/-- The path `appsService.Get` requests: `fmt.Sprintf("apps/%s", appSlug)` for a non-empty
slug and `app` otherwise. -/
def appPath (appSlug : String) : String :=
  if appSlug ≠ "" then "apps/" ++ appSlug else "app"

/-- The method `appsService.Get`.  `decode` is `json.NewDecoder(body).Decode(out)` for a
target of type `*app`. -/
def appsService.Get (net : Net) (convertUser : UserConverter)
    (decode : Body → app → app × Option scm.Error) (s : appsService) (ctx : scm.Context)
    (appSlug : String) : Run (Reply (Option scm.App)) :=
  let path := appPath appSlug
  let out : app := {}
  match wrapper.do net s.client ctx "GET" path none (some out) decode with
  | .crash p => .crash p
  | .done r =>
    match convertApp convertUser r.out with
    | .crash p => .crash p
    | .done a => .done { client := r.client, data := a, res := r.res, err := r.err }

end github

/-! ## The proxy transport (`scm/transport/proxy/proxy.go`) -/

namespace proxy

/-- An `*http.Transport`, as far as the package reads and writes it.  `TLSClientConfig` and
`DialContext` are a pointer and a function the package only copies: they are given by a
name, `none` for nil.  The durations are in nanoseconds. -/
structure HTTPTransport where
  Proxy : Option (HTTPRequest → Option URL × Option scm.Error) := none
  TLSClientConfig : Option Nat := none
  DialContext : Option Nat := none
  MaxIdleConns : Int := 0
  MaxIdleConnsPerHost : Int := 0
  IdleConnTimeout : Int := 0
  TLSHandshakeTimeout : Int := 0
  ExpectContinueTimeout : Int := 0

/-- A value of the interface `http.RoundTripper`, by its dynamic type: the nil interface, an
`*http.Transport`, a `*Transport` of this package (with its fields `Base` and `ProxyURL`),
or a value of any other type, given by its method `RoundTrip`. -/
inductive RoundTripper where
  | nil
  | http (t : HTTPTransport)
  | proxy (Base : RoundTripper) (ProxyURL : Option URL)
  | other (roundTrip : HTTPRequest → Except scm.Error HTTPResponse)

/-- The struct `Transport`. -/
structure Transport where
  Base : RoundTripper := .nil
  ProxyURL : Option URL := none

/-- The part of `net/http` the package calls: the method `RoundTrip` of an
`*http.Transport`, and `http.DefaultTransport`. -/
structure HTTP where
  roundTrip : HTTPTransport → HTTPRequest → Except scm.Error HTTPResponse
  defaultTransport : HTTPTransport

/-- The type assertion `x.(*http.Transport)` in its comma-ok form: `none` when it fails. -/
def RoundTripper.asHTTPTransport : RoundTripper → Option HTTPTransport
  | .http t => some t
  | _ => none

/-- Lines 27-44 of `Transport.RoundTrip`: the `http.Transport` built for a request when the
proxy URL `proxyURL` is configured.  Its `Proxy` function returns the proxy URL for every
request; the settings of a base of type `*http.Transport` are copied. -/
def Transport.proxyTransport (t : Transport) (proxyURL : URL) : HTTPTransport :=
  let proxyTransport : HTTPTransport := { Proxy := some fun _ => (some proxyURL, none) }
  match t.Base.asHTTPTransport with
  | some baseTransport =>
    { proxyTransport with
      TLSClientConfig := baseTransport.TLSClientConfig
      DialContext := baseTransport.DialContext
      MaxIdleConns := baseTransport.MaxIdleConns
      MaxIdleConnsPerHost := baseTransport.MaxIdleConnsPerHost
      IdleConnTimeout := baseTransport.IdleConnTimeout
      TLSHandshakeTimeout := baseTransport.TLSHandshakeTimeout
      ExpectContinueTimeout := baseTransport.ExpectContinueTimeout }
  | none => proxyTransport

/-- The call `x.RoundTrip(r)` on an interface value, with the method `Transport.RoundTrip` of
this package for a `*Transport`: without a proxy URL the request goes to `t.base()`, that is
to `Base`, or to `http.DefaultTransport` when `Base` is nil; with a proxy URL it goes to the
`http.Transport` built for it.  A call on the nil interface panics. -/
def RoundTripper.RoundTrip (h : HTTP) :
    RoundTripper → HTTPRequest → Run (Except scm.Error HTTPResponse)
  | .nil, _ => .crash .nilDereference
  | .http t, r => .done (h.roundTrip t r)
  | .other f, r => .done (f r)
  | .proxy .nil none, r => .done (h.roundTrip h.defaultTransport r)
  | .proxy (.http t) none, r => .done (h.roundTrip t r)
  | .proxy (.other f) none, r => .done (f r)
  | .proxy (.proxy b u) none, r => RoundTripper.RoundTrip h (.proxy b u) r
  | .proxy base (some u), r =>
    .done (h.roundTrip (Transport.proxyTransport { Base := base, ProxyURL := some u } u) r)

/-- The method `Transport.RoundTrip`. -/
def Transport.RoundTrip (h : HTTP) (t : Transport) (r : HTTPRequest) :
    Run (Except scm.Error HTTPResponse) :=
  RoundTripper.RoundTrip h (.proxy t.Base t.ProxyURL) r

/-- The function `NewTransport`: the pair `(http.RoundTripper, error)`. -/
def NewTransport (net : Net) (base : RoundTripper) (proxyURL : String) :
    RoundTripper × Option scm.Error :=
  if proxyURL = "" then (base, none)
  else
    match net.urlParse proxyURL with
    | none => (.nil, some (net.urlError proxyURL))
    | some parsedURL => (.proxy base (some parsedURL), none)

end proxy

/-! ## Notions used in the statements about repeated relations -/

namespace scm

/-- The attributes `; rel="R"` of a list of relations, one after the other. -/
def attrsText : List Rel → String
  | [] => ""
  | R :: Rs => "; " ++ R.attr ++ attrsText Rs

/-- The segment text `<U>; rel="R1"; rel="R2"; ...` that names the relations `Rs`. -/
def multiSegment (U : String) (Rs : List Rel) : String := "<" ++ U ++ ">" ++ attrsText Rs

/-- The header value `X` followed by the segments of the links of `T`, each after a `,` and
the white space given with it. -/
def appendLinks (X : String) (T : List (String × Link)) : String :=
  T.foldl (fun h wl => h ++ "," ++ (wl.1 ++ renderLink wl.2)) X

end scm

namespace Examples

/-- The member `key: val` stored into an `app`, for the string and integer members `id`,
`slug`, `node_id`, `name`, `description`, `external_url` and `html_url`; any other member is
skipped. -/
def setAppMember (a : github.app) (key : String) (val : JSON) : Option github.app :=
  if equalFold key "id" then (decInt val a.ID).map fun x => { a with ID := x }
  else if equalFold key "slug" then (decString val a.Slug).map fun x => { a with Slug := x }
  else if equalFold key "node_id" then (decString val a.NodeID).map fun x => { a with NodeID := x }
  else if equalFold key "name" then (decString val a.Name).map fun x => { a with Name := x }
  else if equalFold key "description" then
    (decString val a.Description).map fun x => { a with Description := x }
  else if equalFold key "external_url" then
    (decString val a.ExternalURL).map fun x => { a with ExternalURL := x }
  else if equalFold key "html_url" then
    (decString val a.HTMLURL).map fun x => { a with HTMLURL := x }
  else some a

/-- A decoder for response bodies that hold one JSON object made of the members
`setAppMember` stores. -/
def decodeApp (body : Body) (a : github.app) : github.app × Option scm.Error :=
  match Ref.decodeFirst body with
  | none => (a, some .parsingJSON)
  | some doc =>
    match decStruct setAppMember doc a with
    | none => (a, some .unmarshal)
    | some b => (b, none)

/-- The response `200` with the body `{"id":1,"slug":"octoapp","name":"octocat-app"}`. -/
def appFound : HTTPResponse :=
  { StatusCode := 200
    Header := [("Content-Type", ["application/json"])]
    Body := { data := bytesOf "\x7b\"id\":1,\"slug\":\"octoapp\",\"name\":\"octocat-app\"\x7d" } }

/-- The transport `http.DefaultTransport`, as a value of `http.RoundTripper`. -/
def defaultBase : proxy.RoundTripper := .http {}

end Examples

/-! ## Notions used in the statements about the pull-request converters -/

namespace azure

/-- The resource fields of a pull-request payload that the converters read:
`pullRequestId`, `title`, `description`, `mergeId`, `sourceRefName`, `targetRefName`, `url`,
`createdBy`, `creationDate` and `repository`. -/
structure pullRequestFields where
  PullRequestID : Int
  Title : String
  Description : String
  MergeID : String
  SourceRefName : String
  TargetRefName : String
  URL : String
  CreatedBy : createdBy
  CreationDate : Time
  Repository : repository

/-- The fields of a `git.pullrequest.created` payload. -/
def createPullRequestHook.fields (src : createPullRequestHook) : pullRequestFields :=
  { PullRequestID := src.Resource.PullRequestID
    Title := src.Resource.Title
    Description := src.Resource.Description
    MergeID := src.Resource.MergeID
    SourceRefName := src.Resource.SourceRefName
    TargetRefName := src.Resource.TargetRefName
    URL := src.Resource.URL
    CreatedBy := src.Resource.CreatedBy
    CreationDate := src.Resource.CreationDate
    Repository := src.Resource.Repository }

/-- The fields of a `git.pullrequest.updated` payload. -/
def updatePullRequestHook.fields (src : updatePullRequestHook) : pullRequestFields :=
  { PullRequestID := src.Resource.PullRequestID
    Title := src.Resource.Title
    Description := src.Resource.Description
    MergeID := src.Resource.MergeID
    SourceRefName := src.Resource.SourceRefName
    TargetRefName := src.Resource.TargetRefName
    URL := src.Resource.URL
    CreatedBy := src.Resource.CreatedBy
    CreationDate := src.Resource.CreationDate
    Repository := src.Resource.Repository }

/-- The fields of a `git.pullrequest.merged` payload. -/
def mergePullRequestHook.fields (src : mergePullRequestHook) : pullRequestFields :=
  { PullRequestID := src.Resource.PullRequestID
    Title := src.Resource.Title
    Description := src.Resource.Description
    MergeID := src.Resource.MergeID
    SourceRefName := src.Resource.SourceRefName
    TargetRefName := src.Resource.TargetRefName
    URL := src.Resource.URL
    CreatedBy := src.Resource.CreatedBy
    CreationDate := src.Resource.CreationDate
    Repository := src.Resource.Repository }

/-- The mapping the claim describes, written once over the fields: the event a pull-request
payload with the fields `f` stands for, with its action unset. -/
def pullRequestOf (f : pullRequestFields) : scm.PullRequestHook :=
  { PullRequest :=
      { Number := f.PullRequestID
        Title := f.Title
        Body := f.Description
        Sha := f.MergeID
        Ref := f.SourceRefName
        Source := f.SourceRefName
        Target := f.TargetRefName
        Link := f.URL
        Author :=
          { Login := f.CreatedBy.ID
            Name := f.CreatedBy.DisplayName
            Email := f.CreatedBy.UniqueName
            Avatar := f.CreatedBy.ImageURL }
        Created := f.CreationDate }
    Repo :=
      { ID := f.Repository.ID
        Name := f.Repository.ID
        Namespace := f.Repository.Name
        Link := f.Repository.URL }
    Sender :=
      { Login := f.CreatedBy.ID
        Name := f.CreatedBy.DisplayName
        Email := f.CreatedBy.UniqueName
        Avatar := f.CreatedBy.ImageURL } }

end azure

namespace Examples

/-- The payload the typed pass builds from an ASCII body sent as `git.pullrequest.created`
(zero when it fails). -/
def createHookOf (body : String) : azure.createPullRequestHook :=
  (azure.unmarshalCreatePullRequestHook Ref.lib (bytesOf body)).getD {}

/-- The payload the typed pass builds from an ASCII body sent as `git.pullrequest.updated`
(zero when it fails). -/
def updateHookOf (body : String) : azure.updatePullRequestHook :=
  (azure.unmarshalUpdatePullRequestHook Ref.lib (bytesOf body)).getD {}

/-- The payload the typed pass builds from an ASCII body sent as `git.pullrequest.merged`
(zero when it fails). -/
def mergeHookOf (body : String) : azure.mergePullRequestHook :=
  (azure.unmarshalMergePullRequestHook Ref.lib (bytesOf body)).getD {}

end Examples

/-! ## Notions used in the statements about the GitHub apps service -/

namespace github

end github

namespace azure

/-- The statements of `Parse` that follow the read (lines 29 to 79 of `webhook.go`): what
`Parse` does with the bytes `data` the read has returned. -/
def decodeEvent (lib : Lib) (data : List Byte) : Run Result :=
  match unmarshalMap lib data with
  | none => .done (none, some .parsingJSON)
  | some unstructuredJSON =>
    match assertString (mapIndex unstructuredJSON "eventType") with
    | none => .crash .typeAssertion
    | some eventType =>
      if eventType = "git.push" then
        match unmarshalPushHook lib data with
        | none => .done (none, some .unmarshal)
        | some src =>
          match convertPushHook src with
          | .crash p => .crash p
          | .done dst => .done (some (.push dst), none)
      else if eventType = "git.pullrequest.created" then
        match unmarshalCreatePullRequestHook lib data with
        | none => .done (none, some .unmarshal)
        | some src =>
          let dst := convertCreatePullRequestHook src
          .done (some (.pullRequest { dst with Action := .ActionOpen }), none)
      else if eventType = "git.pullrequest.updated" then
        match unmarshalUpdatePullRequestHook lib data with
        | none => .done (none, some .unmarshal)
        | some src =>
          let dst := convertUpdatePullRequestHook src
          .done (some (.pullRequest { dst with Action := .ActionUpdate }), none)
      else if eventType = "git.pullrequest.merged" then
        match unmarshalMergePullRequestHook lib data with
        | none => .done (none, some .unmarshal)
        | some src =>
          let dst := convertMergePullRequestHook src
          .done (some (.pullRequest { dst with Action := .ActionMerge }), none)
      else .done (none, some .ErrUnknownEvent)

end azure

namespace Examples

/-- A body of 10,000,001 bytes: the push payload `pushBody`, spaces up to the 10,000,000th
byte, and the letter `x` as the last byte.  As a whole it is not a JSON document. -/
def paddedPushBody : List Byte :=
  bytesOf pushBody ++ List.replicate 9999437 32 ++ [120]

end Examples

namespace Examples

end Examples

/-! # Theorems -/

namespace azure

theorem assertString_eq_some {v : Option JSON} {s : String} (h : assertString v = some s) :
    v = some (.str s) := by
  unfold assertString at h
  split at h
  · cases h; rfl
  · cases h

theorem unmarshalMap_obj {lib : Lib} {data : List Byte} {kvs : List (String × JSON)}
    (hscan : lib.scan data = some (.obj kvs)) :
    unmarshalMap lib data = if storableMembers kvs then some kvs else none := by
  simp [unmarshalMap, hscan]

theorem unmarshalMap_scan {lib : Lib} {data : List Byte} {m : List (String × JSON)}
    (h : unmarshalMap lib data = some m) : ∃ doc, lib.scan data = some doc := by
  cases hs : lib.scan data with
  | none => simp [unmarshalMap, hs] at h
  | some doc => exact ⟨doc, rfl⟩

/-- The dispatch of `Parse` once the body is read and the first pass has produced the map
`m` with a string discriminator `t`. -/
theorem Parse_unknown (lib : Lib) (req : Request) (fn : Option scm.SecretFunc)
    (data : List Byte) (m : List (String × JSON)) (t : String)
    (hread : readAllLimit req.Body 10000000 = .ok data)
    (hmap : unmarshalMap lib data = some m)
    (hty : assertString (mapIndex m "eventType") = some t)
    (hunk : t ∉ knownEvents) :
    Parse lib req fn = .done (none, some .ErrUnknownEvent) := by
  simp only [knownEvents, List.mem_cons, List.mem_singleton, List.not_mem_nil, or_false,
    not_or] at hunk
  obtain ⟨h1, h2, h3, h4⟩ := hunk
  simp [Parse, hread, hmap, hty, h1, h2, h3, h4]

/-- C1 (amended): for every JSON-object body whose `eventType` is a string outside the four
known event types, `Parse` returns a nil event and a non-nil error: `ErrUnknownEvent` when
the first, loosely-typed pass stores the body (no number in it overflows `float64`), and the
JSON-parsing error otherwise. -/
theorem Parse_unknown_eventType (lib : Lib) (req : Request) (fn : Option scm.SecretFunc)
    (data : List Byte) (kvs : List (String × JSON)) (t : String)
    (hread : readAllLimit req.Body 10000000 = .ok data)
    (hscan : lib.scan data = some (.obj kvs))
    (hty : mapIndex kvs "eventType" = some (.str t))
    (hunk : t ∉ knownEvents) :
    (storableMembers kvs = true → Parse lib req fn = .done (none, some .ErrUnknownEvent)) ∧
    (storableMembers kvs = false → Parse lib req fn = .done (none, some .parsingJSON)) := by
  constructor
  · intro hst
    have hmap : unmarshalMap lib data = some kvs := by simp [unmarshalMap_obj hscan, hst]
    exact Parse_unknown lib req fn data kvs t hread hmap (by rw [hty]; rfl) hunk
  · intro hst
    have hmap : unmarshalMap lib data = none := by simp [unmarshalMap_obj hscan, hst]
    simp [Parse, hread, hmap]

/-- C1, at the body `{"eventType":"some.unsupported.event"}`: no event, `ErrUnknownEvent`. -/
theorem Parse_unknown_eventType_witness :
    Parse Ref.lib (Examples.post Examples.unsupportedBody) none
      = .done (none, some .ErrUnknownEvent) :=
  (Parse_unknown_eventType Ref.lib (Examples.post Examples.unsupportedBody) none
    (bytesOf Examples.unsupportedBody) [("eventType", .str "some.unsupported.event")]
    "some.unsupported.event" (by rfl) (by rfl) (by rfl) (by decide)).1 (by decide)

/-- C1 (as stated) fails: the body `{"eventType":"some.unsupported.event","n":1e999}` is a JSON
object whose `eventType` is a string outside the known set, and `Parse` returns the
JSON-parsing error, not `ErrUnknownEvent`. -/
theorem Parse_unknown_eventType_counterexample :
    Ref.scan (bytesOf Examples.overflowBody)
        = some (.obj [("eventType", .str "some.unsupported.event"), ("n", .dec 1 999)]) ∧
      Parse Ref.lib (Examples.post Examples.overflowBody) none
        = .done (none, some .parsingJSON) ∧
      Parse Ref.lib (Examples.post Examples.overflowBody) none
        ≠ .done (none, some .ErrUnknownEvent) :=
  ⟨by rfl, by decide, by decide⟩

/-- C2: a missing or non-string discriminator is not treated as unknown.  For every body the
first pass stores (a JSON object, or `null`) in which `eventType` is absent or not a string,
the unchecked assertion `unstructuredJSON["eventType"].(string)` panics; only the empty
string reaches the `default` branch and gives `ErrUnknownEvent`. -/
theorem Parse_eventType_assertion (lib : Lib) (req : Request) (fn : Option scm.SecretFunc)
    (data : List Byte) (m : List (String × JSON))
    (hread : readAllLimit req.Body 10000000 = .ok data)
    (hmap : unmarshalMap lib data = some m) :
    ((∀ s, mapIndex m "eventType" ≠ some (.str s)) → Parse lib req fn = .crash .typeAssertion) ∧
    (mapIndex m "eventType" = some (.str "") →
      Parse lib req fn = .done (none, some .ErrUnknownEvent)) := by
  constructor
  · intro hno
    have hty : assertString (mapIndex m "eventType") = none := by
      cases h : assertString (mapIndex m "eventType") with
      | none => rfl
      | some s => exact absurd (assertString_eq_some h) (hno s)
    simp [Parse, hread, hmap, hty]
  · intro he
    exact Parse_unknown lib req fn data m "" hread hmap (by rw [he]; rfl) (by decide)

/-- C2, at the bodies `{}` and `null`: `Parse` panics. -/
theorem Parse_eventType_assertion_witness :
    Parse Ref.lib (Examples.post "\x7b\x7d") none = .crash .typeAssertion ∧
    Parse Ref.lib (Examples.post "null") none = .crash .typeAssertion :=
  ⟨(Parse_eventType_assertion Ref.lib (Examples.post "\x7b\x7d") none (bytesOf "\x7b\x7d") []
      (by rfl) (by rfl)).1 (by intro s h; cases h),
   (Parse_eventType_assertion Ref.lib (Examples.post "null") none (bytesOf "null") []
      (by rfl) (by rfl)).1 (by intro s h; cases h)⟩

/-- C4: the action of a pull-request event is fixed by the branch of the switch.  For every
body `Parse` decodes successfully, the result under `git.pullrequest.created` is a
PullRequest event with `ActionOpen`, under `git.pullrequest.merged` one with `ActionMerge`
and under `git.pullrequest.updated` one with `ActionUpdate`; no other part of the document
is consulted, and the result is not a Push event. -/
theorem Parse_action_of_branch (lib : Lib) (req : Request) (fn : Option scm.SecretFunc)
    (data : List Byte) (m : List (String × JSON)) (t : String) (hook : scm.Webhook)
    (hread : readAllLimit req.Body 10000000 = .ok data)
    (hmap : unmarshalMap lib data = some m)
    (hty : mapIndex m "eventType" = some (.str t))
    (hok : Parse lib req fn = .done (some hook, none)) :
    (t = "git.pullrequest.created" → ∃ h, hook = .pullRequest h ∧ h.Action = .ActionOpen) ∧
    (t = "git.pullrequest.merged" → ∃ h, hook = .pullRequest h ∧ h.Action = .ActionMerge) ∧
    (t = "git.pullrequest.updated" → ∃ h, hook = .pullRequest h ∧ h.Action = .ActionUpdate) := by
  have hty2 : assertString (mapIndex m "eventType") = some t := by rw [hty]; rfl
  refine ⟨?_, ?_, ?_⟩
  · intro ht
    subst ht
    simp only [Parse, hread, hmap, hty2] at hok
    cases hd : unmarshalCreatePullRequestHook lib data with
    | none => simp [hd] at hok
    | some src =>
      simp [hd] at hok
      exact ⟨_, hok.symm, rfl⟩
  · intro ht
    subst ht
    simp only [Parse, hread, hmap, hty2] at hok
    cases hd : unmarshalMergePullRequestHook lib data with
    | none => simp [hd] at hok
    | some src =>
      simp [hd] at hok
      exact ⟨_, hok.symm, rfl⟩
  · intro ht
    subst ht
    simp only [Parse, hread, hmap, hty2] at hok
    cases hd : unmarshalUpdatePullRequestHook lib data with
    | none => simp [hd] at hok
    | some src =>
      simp [hd] at hok
      exact ⟨_, hok.symm, rfl⟩

/-- C4, at a payload whose resource says `completed` and `succeeded`: sent as `created` it is
a PullRequest event with `ActionOpen`, sent as `merged` one with `ActionMerge`. -/
theorem Parse_action_of_branch_witness :
    (Parse Ref.lib (Examples.post (Examples.pullRequestBody "git.pullrequest.created")) none
        = .done (some (.pullRequest (Examples.pullRequestEvent .ActionOpen)), none) ∧
      ∃ h, scm.Webhook.pullRequest (Examples.pullRequestEvent .ActionOpen) = .pullRequest h ∧
        h.Action = .ActionOpen) ∧
    (Parse Ref.lib (Examples.post (Examples.pullRequestBody "git.pullrequest.merged")) none
        = .done (some (.pullRequest (Examples.pullRequestEvent .ActionMerge)), none) ∧
      ∃ h, scm.Webhook.pullRequest (Examples.pullRequestEvent .ActionMerge) = .pullRequest h ∧
        h.Action = .ActionMerge) :=
  ⟨⟨by decide,
    (Parse_action_of_branch Ref.lib
      (Examples.post (Examples.pullRequestBody "git.pullrequest.created")) none
      (bytesOf (Examples.pullRequestBody "git.pullrequest.created"))
      (Examples.membersOf (Examples.pullRequestBody "git.pullrequest.created"))
      "git.pullrequest.created" _ (by rfl) (by rfl) (by rfl) (by decide)).1 rfl⟩,
   ⟨by decide,
    (Parse_action_of_branch Ref.lib
      (Examples.post (Examples.pullRequestBody "git.pullrequest.merged")) none
      (bytesOf (Examples.pullRequestBody "git.pullrequest.merged"))
      (Examples.membersOf (Examples.pullRequestBody "git.pullrequest.merged"))
      "git.pullrequest.merged" _ (by rfl) (by rfl) (by rfl) (by decide)).2.1 rfl⟩⟩

theorem convertPushHook_cons (src : pushHook) (r : refUpdate) (rs : List refUpdate)
    (hrefs : src.Resource.RefUpdates = r :: rs) :
    convertPushHook src = .done
      { Ref := r.Name
        Before := r.OldObjectID
        After := r.NewObjectID
        Repo :=
          { ID := src.Resource.Repository.ID
            Name := src.Resource.Repository.Name
            Clone := src.Resource.Repository.URL }
        Commits := src.Resource.Commits.map commitOf } := by
  simp [convertPushHook, hrefs, commitOf]

theorem convertPushHook_nil (src : pushHook) (hrefs : src.Resource.RefUpdates = []) :
    convertPushHook src = .crash .indexOutOfRange := by
  simp [convertPushHook, hrefs]

theorem convertPushHook_sender (src : pushHook) (dst : scm.PushHook)
    (h : convertPushHook src = .done dst) : dst.Sender = {} := by
  cases hrefs : src.Resource.RefUpdates with
  | nil => rw [convertPushHook_nil src hrefs] at h; cases h
  | cons r rs => rw [convertPushHook_cons src r rs hrefs] at h; cases h; rfl

/-- The push branch of `Parse`. -/
theorem Parse_push (lib : Lib) (req : Request) (fn : Option scm.SecretFunc)
    (data : List Byte) (m : List (String × JSON))
    (hread : readAllLimit req.Body 10000000 = .ok data)
    (hmap : unmarshalMap lib data = some m)
    (hty : mapIndex m "eventType" = some (.str "git.push")) :
    Parse lib req fn =
      match unmarshalPushHook lib data with
      | none => .done (none, some .unmarshal)
      | some src =>
        match convertPushHook src with
        | .crash p => .crash p
        | .done dst => .done (some (.push dst), none) := by
  have hty2 : assertString (mapIndex m "eventType") = some "git.push" := by rw [hty]; rfl
  simp [Parse, hread, hmap, hty2]

/-- C5: for every successfully decoded `git.push` payload with at least one `refUpdates`
entry, `Parse` returns a Push event whose `Ref`, `Before` and `After` are the `name`,
`oldObjectId` and `newObjectId` of the first entry, and whose `Commits` has the length and
order of `resource.commits`: commit `i` carries `Sha = commitId`, `Message = comment`,
`Link = url`, and author and committer signatures whose `Name` and `Login` are the payload's
name and whose `Email` and `Date` are the payload's. -/
theorem Parse_push_fields (lib : Lib) (req : Request) (fn : Option scm.SecretFunc)
    (data : List Byte) (m : List (String × JSON)) (src : pushHook)
    (r : refUpdate) (rs : List refUpdate)
    (hread : readAllLimit req.Body 10000000 = .ok data)
    (hmap : unmarshalMap lib data = some m)
    (hty : mapIndex m "eventType" = some (.str "git.push"))
    (hdec : unmarshalPushHook lib data = some src)
    (hrefs : src.Resource.RefUpdates = r :: rs) :
    ∃ h : scm.PushHook, Parse lib req fn = .done (some (.push h), none) ∧
      h.Ref = r.Name ∧ h.Before = r.OldObjectID ∧ h.After = r.NewObjectID ∧
      h.Commits.length = src.Resource.Commits.length ∧
      ∀ (i : Nat) (c : pushCommit), src.Resource.Commits[i]? = some c →
        h.Commits[i]? = some
          { Sha := c.CommitID
            Message := c.Comment
            Link := c.URL
            Author :=
              { Name := c.Author.Name, Login := c.Author.Name, Email := c.Author.Email,
                Date := c.Author.Date }
            Committer :=
              { Name := c.Committer.Name, Login := c.Committer.Name,
                Email := c.Committer.Email, Date := c.Committer.Date } } := by
  refine ⟨{ Ref := r.Name
            Before := r.OldObjectID
            After := r.NewObjectID
            Repo :=
              { ID := src.Resource.Repository.ID
                Name := src.Resource.Repository.Name
                Clone := src.Resource.Repository.URL }
            Commits := src.Resource.Commits.map commitOf }, ?_, rfl, rfl, rfl, ?_, ?_⟩
  · rw [Parse_push lib req fn data m hread hmap hty, hdec]
    simp only [convertPushHook_cons src r rs hrefs]
  · simp
  · intro i c hc
    simp [List.getElem?_map, hc, commitOf]

/-- C5, at the spec's scenario (ref `refs/heads/main`, before `aaa111`, after `bbb222`, one
commit). -/
theorem Parse_push_fields_witness :
    ∃ h : scm.PushHook,
      Parse Ref.lib (Examples.post Examples.pushBody) none = .done (some (.push h), none) ∧
      h.Ref = "refs/heads/main" ∧ h.Before = "aaa111" ∧ h.After = "bbb222" ∧
      h.Commits.length = 1 ∧ h.Commits[0]? = some Examples.pushCommit := by
  obtain ⟨h, hp, h1, h2, h3, h4, h5⟩ :=
    Parse_push_fields Ref.lib (Examples.post Examples.pushBody) none
      (bytesOf Examples.pushBody) (Examples.membersOf Examples.pushBody)
      (Examples.pushHookOf Examples.pushBody)
      { Name := "refs/heads/main", NewObjectID := "bbb222", OldObjectID := "aaa111" } []
      (by rfl) (by rfl) (by rfl) (by rfl) (by rfl)
  exact ⟨h, hp, h1, h2, h3, h4,
    h5 0
      { Author := { Date := Examples.stamp, Email := "jamal@example.com", Name := "Jamal" }
        Comment := "fix"
        CommitID := "bbb222"
        Committer := { Date := Examples.stamp, Email := "jamal@example.com", Name := "Jamal" }
        URL := "https://dev.example.com/c/bbb222" }
      (by rfl)⟩

/-- C6: a `git.push` payload without `refUpdates` entries does not degrade to zero-valued
fields.  For every such payload that decodes (no `resource`, no `refUpdates`, `null`, or an
empty array), the expression `src.Resource.RefUpdates[0]` of `convertPushHook` panics. -/
theorem Parse_push_no_refUpdates (lib : Lib) (req : Request) (fn : Option scm.SecretFunc)
    (data : List Byte) (m : List (String × JSON)) (src : pushHook)
    (hread : readAllLimit req.Body 10000000 = .ok data)
    (hmap : unmarshalMap lib data = some m)
    (hty : mapIndex m "eventType" = some (.str "git.push"))
    (hdec : unmarshalPushHook lib data = some src)
    (hrefs : src.Resource.RefUpdates = []) :
    Parse lib req fn = .crash .indexOutOfRange := by
  rw [Parse_push lib req fn data m hread hmap hty, hdec]
  simp only [convertPushHook_nil src hrefs]

/-- C6, at the body `{"eventType":"git.push"}`: `Parse` panics. -/
theorem Parse_push_no_refUpdates_witness :
    Parse Ref.lib (Examples.post Examples.barePushBody) none = .crash .indexOutOfRange :=
  Parse_push_no_refUpdates Ref.lib (Examples.post Examples.barePushBody) none
    (bytesOf Examples.barePushBody) (Examples.membersOf Examples.barePushBody)
    (Examples.pushHookOf Examples.barePushBody) (by rfl) (by rfl) (by rfl) (by rfl) (by rfl)

/-- The pull-request branches do degrade: a `git.pullrequest.created` payload without
`resource` gives a PullRequest event whose fields are zero, apart from the action. -/
theorem Parse_pullRequest_without_resource :
    Parse Ref.lib (Examples.post "\x7b\"eventType\":\"git.pullrequest.created\"\x7d") none
      = .done (some (.pullRequest { Action := .ActionOpen }), none) := by
  decide

/-- C7: "unknown event" is distinguishable from a decode failure.  `Parse` returns
`ErrUnknownEvent` only for a body that is valid JSON and whose discriminator is a string
outside the known set; for a body that is not valid JSON, and for a body with a known
`eventType` whose typed decode fails, it returns a nil event and a non-nil error different
from `ErrUnknownEvent`. -/
theorem Parse_unknown_vs_decode (lib : Lib) (req : Request) (fn : Option scm.SecretFunc)
    (data : List Byte) (hread : readAllLimit req.Body 10000000 = .ok data) :
    (∀ hook, Parse lib req fn = .done (hook, some .ErrUnknownEvent) →
      hook = none ∧ (∃ doc, lib.scan data = some doc) ∧
        ∃ m t, unmarshalMap lib data = some m ∧ mapIndex m "eventType" = some (.str t) ∧
          t ∉ knownEvents) ∧
    (lib.scan data = none →
      ∃ e, Parse lib req fn = .done (none, some e) ∧ e ≠ .ErrUnknownEvent) ∧
    (∀ m t, unmarshalMap lib data = some m → mapIndex m "eventType" = some (.str t) →
      typedDecodeFails lib data t = true →
      ∃ e, Parse lib req fn = .done (none, some e) ∧ e ≠ .ErrUnknownEvent) := by
  refine ⟨?_, ?_, ?_⟩
  · intro hook hp
    cases hmap : unmarshalMap lib data with
    | none => simp [Parse, hread, hmap] at hp
    | some m =>
      cases hty : assertString (mapIndex m "eventType") with
      | none => simp [Parse, hread, hmap, hty] at hp
      | some t =>
        simp only [Parse, hread, hmap, hty] at hp
        split at hp
        · split at hp
          · simp at hp
          · split at hp <;> simp at hp
        · split at hp
          · split at hp <;> simp at hp
          · split at hp
            · split at hp <;> simp at hp
            · split at hp
              · split at hp <;> simp at hp
              · rename_i h1 h2 h3 h4
                simp only [Run.done.injEq, Prod.mk.injEq] at hp
                refine ⟨hp.1.symm, unmarshalMap_scan hmap, m, t, rfl, assertString_eq_some hty, ?_⟩
                simp [knownEvents, h1, h2, h3, h4]
  · intro hscan
    refine ⟨.parsingJSON, ?_, by decide⟩
    have hmap : unmarshalMap lib data = none := by simp [unmarshalMap, hscan]
    simp [Parse, hread, hmap]
  · intro m t hmap hty hfail
    have hty2 : assertString (mapIndex m "eventType") = some t := by rw [hty]; rfl
    refine ⟨.unmarshal, ?_, by decide⟩
    unfold typedDecodeFails at hfail
    simp only [Parse, hread, hmap, hty2]
    split at hfail
    · rename_i h1
      rw [Option.isNone_iff_eq_none] at hfail
      simp [h1, hfail]
    · split at hfail
      · rename_i h1 h2
        rw [Option.isNone_iff_eq_none] at hfail
        simp [h1, h2, hfail]
      · split at hfail
        · rename_i h1 h2 h3
          rw [Option.isNone_iff_eq_none] at hfail
          simp [h1, h2, h3, hfail]
        · split at hfail
          · rename_i h1 h2 h3 h4
            rw [Option.isNone_iff_eq_none] at hfail
            simp [h1, h2, h3, h4, hfail]
          · cases hfail

/-- C7, at a `git.pullrequest.created` body whose `pullRequestId` is a JSON string, and at
the body `{` that is not valid JSON: in both cases no event and an error that is not
`ErrUnknownEvent`. -/
theorem Parse_unknown_vs_decode_witness :
    (∃ e, Parse Ref.lib (Examples.post Examples.badPullRequestBody) none = .done (none, some e) ∧
      e ≠ .ErrUnknownEvent) ∧
    (∃ e, Parse Ref.lib (Examples.post "\x7b") none = .done (none, some e) ∧
      e ≠ .ErrUnknownEvent) :=
  ⟨(Parse_unknown_vs_decode Ref.lib (Examples.post Examples.badPullRequestBody) none
      (bytesOf Examples.badPullRequestBody) (by rfl)).2.2
      (Examples.membersOf Examples.badPullRequestBody) "git.pullrequest.created"
      (by rfl) (by rfl) (by decide),
   (Parse_unknown_vs_decode Ref.lib (Examples.post "\x7b") none (bytesOf "\x7b") (by rfl)).2.1
      (by rfl)⟩

/-- C8: the Push event carries no actor.  Whatever the payload contains, the `Sender` of a
Push event returned by `Parse` is the zero `scm.User`: `convertPushHook` does not map
`resource.pushedBy`, unlike the pull-request converters, which map `resource.createdBy`. -/
theorem Parse_push_sender (lib : Lib) (req : Request) (fn : Option scm.SecretFunc)
    (h : scm.PushHook) (hok : Parse lib req fn = .done (some (.push h), none)) :
    h.Sender = {} := by
  unfold Parse at hok
  split at hok
  · cases hok
  · split at hok
    · cases hok
    · split at hok
      · cases hok
      · split at hok
        · split at hok
          · cases hok
          · split at hok
            · cases hok
            · rename_i dst hconv
              simp only [Run.done.injEq, Prod.mk.injEq, Option.some.injEq,
                scm.Webhook.push.injEq, and_true] at hok
              subst hok
              exact convertPushHook_sender _ _ hconv
        · split at hok
          · split at hok <;> simp at hok
          · split at hok
            · split at hok <;> simp at hok
            · split at hok
              · split at hok <;> simp at hok
              · simp at hok

/-- C8, at a push payload with `repository`, `pushedBy`, `refUpdates` and `commits` all
populated: the decoded `pushedBy` is populated, the returned event has a repository id, a
ref, before and after SHAs and a commit, and its `Sender` is empty. -/
theorem Parse_push_sender_witness :
    Parse Ref.lib (Examples.post Examples.pushBody) none
        = .done (some (.push Examples.pushEvent), none) ∧
      (Examples.pushHookOf Examples.pushBody).Resource.PushedBy
        = { DisplayName := "Jamal", ID := "user-1", UniqueName := "jamal@example.com" } ∧
      Examples.pushEvent.Repo.ID = "repo-1" ∧
      Examples.pushEvent.Sender = {} :=
  ⟨by decide, by rfl, by rfl,
    Parse_push_sender Ref.lib (Examples.post Examples.pushBody) none Examples.pushEvent
      (by decide)⟩

/-- The PullRequest variant does have a fully populated fixture: repository id, sender,
number, title, source and target are all non-empty. -/
theorem Parse_pullRequest_populated :
    ∃ h : scm.PullRequestHook,
      Parse Ref.lib (Examples.post (Examples.pullRequestBody "git.pullrequest.created")) none
        = .done (some (.pullRequest h), none) ∧
      h.Repo.ID ≠ "" ∧ h.Sender.Login ≠ "" ∧ h.Sender.Name ≠ "" ∧ h.PullRequest.Number ≠ 0 ∧
      h.PullRequest.Title ≠ "" ∧ h.PullRequest.Source ≠ "" ∧ h.PullRequest.Target ≠ "" :=
  ⟨Examples.pullRequestEvent .ActionOpen, by decide, by decide, by decide, by decide, by decide,
    by decide, by decide, by decide⟩

end azure

/-! ## Facts about splitting and trimming -/

theorem splitOn_of_not_mem (sep : Char) (l : List Char) (h : sep ∉ l) : splitOn sep l = [l] := by
  induction l with
  | nil => rfl
  | cons c cs ih =>
    simp only [List.mem_cons, not_or] at h
    have hc : c ≠ sep := fun e => h.1 e.symm
    simp [splitOn, hc, ih h.2]

theorem splitOn_append_sep (sep : Char) (a b : List Char) (h : sep ∉ a) :
    splitOn sep (a ++ sep :: b) = a :: splitOn sep b := by
  induction a with
  | nil => simp [splitOn]
  | cons c cs ih =>
    simp only [List.mem_cons, not_or] at h
    have hc : c ≠ sep := fun e => h.1 e.symm
    simp [splitOn, hc, ih h.2]

theorem digitsValue_ne_nil {ds : List Char} {n : Nat} (h : digitsValue ds = some n) : ds ≠ [] := by
  unfold digitsValue at h
  split at h
  · rename_i hc; exact hc.1
  · cases h

theorem digitsValue_head {ds : List Char} {n : Nat} (h : digitsValue ds = some n) :
    ds.head? ≠ some '-' ∧ ds.head? ≠ some '+' := by
  unfold digitsValue at h
  split at h
  · rename_i hc
    cases ds with
    | nil => simp
    | cons c cs =>
      have hd : c.isDigit = true := by
        have := hc.2
        simp only [List.all_cons, Bool.and_eq_true] at this
        exact this.1
      simp only [List.head?_cons, ne_eq, Option.some.injEq]
      constructor
      · intro e; subst e; exact absurd hd (by decide)
      · intro e; subst e; exact absurd hd (by decide)
  · cases h

theorem foldl_digits_ge (ds : List Char) (n : Nat) :
    n ≤ ds.foldl (fun n c => 10 * n + (c.toNat - 48)) n := by
  induction ds generalizing n with
  | nil => exact Nat.le_refl _
  | cons c cs ih =>
    rw [List.foldl_cons]
    exact Nat.le_trans (by omega) (ih _)

theorem parseUintLoop_run (ds : List Char) (n : Nat) (hn : n ≤ maxUint64) :
    parseUintLoop n ds =
      if maxUint64 < (ds.takeWhile Char.isDigit).foldl (fun n c => 10 * n + (c.toNat - 48)) n
      then .rangeError
      else if ds.takeWhile Char.isDigit = ds then
        .value (ds.foldl (fun n c => 10 * n + (c.toNat - 48)) n)
      else .syntaxError := by
  induction ds generalizing n with
  | nil =>
    rw [parseUintLoop, List.takeWhile_nil, List.foldl_nil, if_neg (Nat.not_lt.mpr hn),
      if_pos rfl]
  | cons c cs ih =>
    rw [parseUintLoop]
    by_cases hc : c.isDigit = true
    · have htw : (c :: cs).takeWhile Char.isDigit = c :: cs.takeWhile Char.isDigit := by
        rw [List.takeWhile_cons, if_pos hc]
      rw [htw, List.foldl_cons, List.foldl_cons]
      have hnot : (!c.isDigit) = false := by rw [hc]; rfl
      rw [hnot]
      simp only [Bool.false_eq_true, if_false]
      have hge := foldl_digits_ge (cs.takeWhile Char.isDigit) (10 * n + (c.toNat - 48))
      by_cases h1 : maxUint64 / 10 + 1 ≤ n
      · rw [if_pos h1]
        have : maxUint64 < 10 * n + (c.toNat - 48) := by
          have e : maxUint64 / 10 + 1 = 1844674407370955162 := by decide
          have e2 : maxUint64 = 18446744073709551615 := rfl
          rw [e] at h1
          rw [e2]
          omega
        rw [if_pos (Nat.lt_of_lt_of_le this hge)]
      · rw [if_neg h1]
        by_cases h2 : maxUint64 < 10 * n + (c.toNat - 48)
        · rw [if_pos h2, if_pos (Nat.lt_of_lt_of_le h2 hge)]
        · rw [if_neg h2, ih _ (Nat.not_lt.mp h2)]
          by_cases h3 : cs.takeWhile Char.isDigit = cs
          · simp [h3]
          · have h4 : ¬ (c :: cs.takeWhile Char.isDigit = c :: cs) := by
              intro e
              exact h3 (List.cons.inj e).2
            simp [h3]
    · have htw : (c :: cs).takeWhile Char.isDigit = [] := by
        rw [List.takeWhile_cons, if_neg hc]
      have hnot : (!c.isDigit) = true := by
        cases h : c.isDigit with
        | true => exact absurd h hc
        | false => rfl
      rw [htw, hnot, if_pos rfl, List.foldl_nil, if_neg (Nat.not_lt.mpr hn)]
      rw [if_neg (by intro e; cases e)]

theorem takeWhile_eq_self_iff_all (ds : List Char) :
    ds.takeWhile Char.isDigit = ds ↔ ds.all Char.isDigit = true := by
  induction ds with
  | nil => simp
  | cons c cs ih =>
    by_cases hc : c.isDigit = true
    · simp [List.takeWhile_cons, hc, ih]
    · simp [List.takeWhile_cons, hc]

/-- `ParseUint` in terms of the digits the text starts with. -/
theorem ParseUint_run (ds : List Char) :
    ParseUint ds =
      if maxUint64 < digitsNat (ds.takeWhile Char.isDigit) then .rangeError
      else
        match digitsValue ds with
        | some n => .value n
        | none => .syntaxError := by
  unfold ParseUint
  by_cases hnil : ds = []
  · subst hnil
    rfl
  · rw [if_neg hnil, parseUintLoop_run ds 0 (Nat.zero_le _)]
    unfold digitsNat digitsValue
    by_cases h1 : maxUint64 < (ds.takeWhile Char.isDigit).foldl
        (fun n c => 10 * n + (c.toNat - 48)) 0
    · rw [if_pos h1, if_pos h1]
    · rw [if_neg h1, if_neg h1]
      by_cases h2 : ds.takeWhile Char.isDigit = ds
      · rw [if_pos h2, if_pos ⟨hnil, (takeWhile_eq_self_iff_all ds).mp h2⟩]
      · rw [if_neg h2, if_neg (fun h => h2 ((takeWhile_eq_self_iff_all ds).mpr h.2))]

theorem digitsValue_run {ds : List Char} {n : Nat} (h : digitsValue ds = some n) :
    ds.takeWhile Char.isDigit = ds ∧ digitsNat ds = n := by
  unfold digitsValue at h
  split at h
  · rename_i hc
    exact ⟨(takeWhile_eq_self_iff_all ds).mpr hc.2, Option.some.inj h⟩
  · cases h


/-- The value `Atoi` computes from the text after the sign. -/
theorem atoi_core (neg : Prop) [Decidable neg] (ds : List Char) :
    (match ParseUint ds with
      | .syntaxError => ((0 : Int), false)
      | .rangeError => if neg then (minInt, false) else (maxInt, false)
      | .value un =>
        if ¬ neg ∧ (2 : Nat) ^ 63 ≤ un then (maxInt, false)
        else if neg ∧ (2 : Nat) ^ 63 < un then (minInt, false)
        else (if neg then -(un : Int) else (un : Int), true)).1 =
      match (digitsValue ds).map fun (n : Nat) => if neg then -Int.ofNat n else Int.ofNat n with
      | some n => clampInt n
      | none =>
        if maxUint64 < digitsNat (ds.takeWhile Char.isDigit) then
          if neg then minInt else maxInt
        else 0 := by
  rw [ParseUint_run]
  have hmax : maxUint64 = 18446744073709551615 := rfl
  have hmaxI : maxInt = 9223372036854775807 := rfl
  have hminI : minInt = -9223372036854775808 := rfl
  have hpow : (2 : Nat) ^ 63 = 9223372036854775808 := by norm_num
  cases hd : digitsValue ds with
  | none =>
    simp only [Option.map_none']
    by_cases h1 : maxUint64 < digitsNat (ds.takeWhile Char.isDigit)
    · simp only [if_pos h1]
      by_cases hn : neg <;> simp [hn]
    · simp only [if_neg h1]
  | some n =>
    obtain ⟨htw, hval⟩ := digitsValue_run hd
    rw [htw, hval]
    simp only [Option.map_some', Int.ofNat_eq_coe]
    unfold clampInt
    rw [hmax, hmaxI, hminI, hpow]
    by_cases h1 : 18446744073709551615 < n
    · simp only [if_pos h1]
      by_cases hn : neg
      · simp only [if_pos hn]
        have e1 : ¬ ((9223372036854775807 : Int) < -(n : Int)) := by omega
        have e2 : -(n : Int) < -9223372036854775808 := by omega
        rw [if_neg e1, if_pos e2]
      · simp only [if_neg hn]
        have e1 : (9223372036854775807 : Int) < (n : Int) := by omega
        rw [if_pos e1]
    · simp only [if_neg h1]
      by_cases hn : neg
      · simp only [hn, not_true_eq_false, false_and, if_false, true_and, if_true]
        by_cases h2 : 9223372036854775808 < n
        · have e1 : ¬ ((9223372036854775807 : Int) < -(n : Int)) := by omega
          have e2 : -(n : Int) < -9223372036854775808 := by omega
          rw [if_pos h2, if_neg e1, if_pos e2]
        · have e1 : ¬ ((9223372036854775807 : Int) < -(n : Int)) := by omega
          have e2 : ¬ (-(n : Int) < -9223372036854775808) := by omega
          rw [if_neg h2, if_neg e1, if_neg e2]
      · simp only [hn, not_false_eq_true, true_and, false_and, if_false]
        by_cases h2 : 9223372036854775808 ≤ n
        · have e1 : (9223372036854775807 : Int) < (n : Int) := by omega
          rw [if_pos h2, if_pos e1]
        · have e1 : ¬ ((9223372036854775807 : Int) < (n : Int)) := by omega
          have e2 : ¬ ((n : Int) < -9223372036854775808) := by omega
          rw [if_neg h2, if_neg e1, if_neg e2]

theorem decimalValue_unsigned (c : Char) (ds : List Char) (h1 : c ≠ '-') (h2 : c ≠ '+') :
    decimalValue (String.mk (c :: ds))
      = (digitsValue (c :: ds)).map fun (n : Nat) => Int.ofNat n := by
  unfold decimalValue
  show (match c :: ds with
    | '-' :: ds => (digitsValue ds).map fun (n : Nat) => -Int.ofNat n
    | '+' :: ds => (digitsValue ds).map fun (n : Nat) => Int.ofNat n
    | ds => (digitsValue ds).map fun (n : Nat) => Int.ofNat n) = _
  split
  · rename_i ds2 heq
    exact absurd (List.cons.inj heq).1 h1
  · rename_i ds2 heq
    exact absurd (List.cons.inj heq).1 h2
  · rfl

theorem Atoi_intOfText (s : String) : (Atoi s).1 = intOfText s := by
  obtain ⟨cs⟩ := s
  cases cs with
  | nil => rfl
  | cons c ds =>
    by_cases h1 : c = '-'
    · subst h1
      have e := atoi_core True ds
      simpa [Atoi, intOfText, decimalValue, leadingDigits, unsignedText] using e
    · by_cases h2 : c = '+'
      · subst h2
        have e := atoi_core False ds
        simpa [Atoi, intOfText, decimalValue, leadingDigits, unsignedText] using e
      · have e := atoi_core False (c :: ds)
        unfold intOfText
        rw [decimalValue_unsigned c ds h1 h2]
        simpa [Atoi, leadingDigits, unsignedText, h1, h2] using e


theorem atoi_core_ok (neg : Prop) [Decidable neg] (ds : List Char) (n : Nat)
    (hd : digitsValue ds = some n)
    (hlo : minInt ≤ if neg then -(n : Int) else (n : Int))
    (hhi : (if neg then -(n : Int) else (n : Int)) ≤ maxInt) :
    (match ParseUint ds with
      | .syntaxError => ((0 : Int), false)
      | .rangeError => if neg then (minInt, false) else (maxInt, false)
      | .value un =>
        if ¬ neg ∧ (2 : Nat) ^ 63 ≤ un then (maxInt, false)
        else if neg ∧ (2 : Nat) ^ 63 < un then (minInt, false)
        else (if neg then -(un : Int) else (un : Int), true))
      = (if neg then -(n : Int) else (n : Int), true) := by
  have hmax : maxUint64 = 18446744073709551615 := rfl
  have hmaxI : maxInt = 9223372036854775807 := rfl
  have hminI : minInt = -9223372036854775808 := rfl
  have hpow : (2 : Nat) ^ 63 = 9223372036854775808 := by norm_num
  obtain ⟨htw, hval⟩ := digitsValue_run hd
  rw [ParseUint_run, htw, hval, hd, hmax, hpow]
  rw [hmaxI] at hhi
  rw [hminI] at hlo
  by_cases hn : neg
  · simp only [hn, if_true] at hlo hhi
    have h1 : ¬ (18446744073709551615 < n) := by omega
    have h2 : ¬ (9223372036854775808 < n) := by omega
    simp only [if_neg h1, hn, not_true_eq_false, false_and, if_false, true_and, if_neg h2,
      if_true]
  · simp only [hn, if_false] at hlo hhi
    have h1 : ¬ (18446744073709551615 < n) := by omega
    have h2 : ¬ (9223372036854775808 ≤ n) := by omega
    simp only [if_neg h1, hn, not_false_eq_true, true_and, if_neg h2, false_and, if_false]

theorem Atoi_of_decimalValue (s : String) (N : Int) (h : decimalValue s = some N)
    (hlo : minInt ≤ N) (hhi : N ≤ maxInt) : Atoi s = (N, true) := by
  obtain ⟨cs⟩ := s
  cases cs with
  | nil => simp [decimalValue, digitsValue] at h
  | cons c ds =>
    by_cases h1 : c = '-'
    · subst h1
      have hd : (digitsValue ds).map (fun (n : Nat) => -Int.ofNat n) = some N := h
      cases hv : digitsValue ds with
      | none => rw [hv] at hd; cases hd
      | some n =>
        rw [hv] at hd
        simp only [Option.map_some', Option.some.injEq, Int.ofNat_eq_coe] at hd
        subst hd
        have e := atoi_core_ok True ds n hv (by simpa using hlo) (by simpa using hhi)
        simpa [Atoi] using e
    · by_cases h2 : c = '+'
      · subst h2
        have hd : (digitsValue ds).map (fun (n : Nat) => Int.ofNat n) = some N := h
        cases hv : digitsValue ds with
        | none => rw [hv] at hd; cases hd
        | some n =>
          rw [hv] at hd
          simp only [Option.map_some', Option.some.injEq, Int.ofNat_eq_coe] at hd
          subst hd
          have e := atoi_core_ok False ds n hv (by simpa using hlo) (by simpa using hhi)
          simpa [Atoi] using e
      · rw [decimalValue_unsigned c ds h1 h2] at h
        cases hv : digitsValue (c :: ds) with
        | none => rw [hv] at h; cases h
        | some n =>
          rw [hv] at h
          simp only [Option.map_some', Option.some.injEq, Int.ofNat_eq_coe] at h
          subst h
          have e := atoi_core_ok False (c :: ds) n hv (by simpa using hlo) (by simpa using hhi)
          simpa [Atoi, h1, h2] using e

theorem clampInt_range (n : Int) : minInt ≤ clampInt n ∧ clampInt n ≤ maxInt := by
  have hmaxI : maxInt = 9223372036854775807 := rfl
  have hminI : minInt = -9223372036854775808 := rfl
  unfold clampInt
  rw [hmaxI, hminI]
  split_ifs <;> omega

theorem Atoi_range (s : String) : minInt ≤ (Atoi s).1 ∧ (Atoi s).1 ≤ maxInt := by
  rw [Atoi_intOfText]
  unfold intOfText
  cases decimalValue s with
  | some n => exact clampInt_range n
  | none =>
    simp only
    split_ifs <;> exact ⟨by decide, by decide⟩

theorem Atoi_clamp (s : String) (N : Int) (h : decimalValue s = some N) :
    (Atoi s).1 = clampInt N := by
  rw [Atoi_intOfText]
  unfold intOfText
  rw [h]

theorem Atoi_syntax (s : String) (h : decimalValue s = none)
    (hrun : digitsNat (leadingDigits s) ≤ maxUint64) : (Atoi s).1 = 0 := by
  rw [Atoi_intOfText]
  unfold intOfText
  rw [h]
  exact if_neg (Nat.not_lt.mpr hrun)

theorem Atoi_overflow (s : String) (h : decimalValue s = none)
    (hrun : maxUint64 < digitsNat (leadingDigits s)) :
    (Atoi s).1 = if s.toList.head? = some '-' then minInt else maxInt := by
  rw [Atoi_intOfText]
  unfold intOfText
  rw [h]
  exact if_pos hrun

/-- Values of `strconv.Atoi`: a number, a clamped number, a syntax error before and at the
limit of `uint64`, and a range error raised before the byte that is no digit. -/
theorem Atoi_values :
    Atoi "42" = (42, true) ∧ Atoi "+5" = (5, true) ∧ Atoi "-7" = (-7, true) ∧
    Atoi "" = (0, false) ∧ Atoi "-" = (0, false) ∧ Atoi "abc" = (0, false) ∧
    Atoi "12x" = (0, false) ∧
    Atoi "9223372036854775807" = (9223372036854775807, true) ∧
    Atoi "9223372036854775808" = (9223372036854775807, false) ∧
    Atoi "-9223372036854775808" = (-9223372036854775808, true) ∧
    Atoi "-9223372036854775809" = (-9223372036854775808, false) ∧
    Atoi "18446744073709551615x" = (0, false) ∧
    Atoi "18446744073709551616x" = (9223372036854775807, false) ∧
    Atoi "99999999999999999999x" = (9223372036854775807, false) ∧
    Atoi "-99999999999999999999x" = (-9223372036854775808, false) := by
  decide

theorem decimalValue_ne_empty (s : String) (N : Int) (h : decimalValue s = some N) : s ≠ "" := by
  intro e
  subst e
  simp [decimalValue, digitsValue] at h

theorem splitOn_ne_nil (sep : Char) (l : List Char) : splitOn sep l ≠ [] := by
  cases l with
  | nil => simp [splitOn]
  | cons c cs =>
    rw [splitOn]
    split
    · simp
    · split <;> simp

theorem splitOn_cons_of_ne (sep c : Char) (cs : List Char) (hc : c ≠ sep) :
    splitOn sep (c :: cs) = (c :: (splitOn sep cs).headD []) :: (splitOn sep cs).tail := by
  rw [splitOn]
  simp only [hc, if_false]
  cases h : splitOn sep cs with
  | nil => exact absurd h (splitOn_ne_nil sep cs)
  | cons p ps => rfl

theorem splitOn_append_left (sep : Char) (a b : List Char) (h : sep ∉ a) :
    splitOn sep (a ++ b) = (a ++ (splitOn sep b).headD []) :: (splitOn sep b).tail := by
  induction a with
  | nil =>
    cases hb : splitOn sep b with
    | nil => exact absurd hb (splitOn_ne_nil sep b)
    | cons p ps => rw [List.nil_append, hb]; rfl
  | cons c cs ih =>
    simp only [List.mem_cons, not_or] at h
    have hc : c ≠ sep := fun e => h.1 e.symm
    rw [List.cons_append, splitOn_cons_of_ne sep c _ hc, ih h.2]
    rfl

theorem mk_toList (s : String) : String.mk s.toList = s := rfl

theorem toList_append (s t : String) : (s ++ t).toList = s.toList ++ t.toList :=
  String.data_append s t

theorem dropWhile_of_head {p : Char → Bool} {l : List Char} {c : Char}
    (hh : l.head? = some c) (hc : p c = false) : l.dropWhile p = l := by
  cases l with
  | nil => rfl
  | cons x xs =>
    simp only [List.head?_cons, Option.some.injEq] at hh
    subst hh
    simp [List.dropWhile_cons, hc]

theorem trimSpace_eq_self {l : List Char} {c d : Char} (hh : l.head? = some c)
    (hc : isSpace c = false) (hl : l.reverse.head? = some d) (hd : isSpace d = false) :
    trimSpace l = l := by
  unfold trimSpace
  rw [dropWhile_of_head hh hc, dropWhile_of_head hl hd, List.reverse_reverse]

theorem trimSpace_space (l : List Char) : trimSpace (' ' :: l) = trimSpace l := by
  have : isSpace ' ' = true := by decide
  simp [trimSpace, List.dropWhile_cons, this]

theorem reverse_head_append (x : Char) (xs ys : List Char) (d : Char)
    (h : ys.reverse.head? = some d) : (x :: (xs ++ ys)).reverse.head? = some d := by
  rw [List.reverse_cons, List.reverse_append]
  cases hr : ys.reverse with
  | nil => rw [hr] at h; cases h
  | cons y r =>
    rw [hr] at h
    simpa using h

theorem isSpace_lt : isSpace '<' = false := by decide

theorem isSpace_quote : isSpace '"' = false := by decide

namespace scm

theorem Rel.attr_reverse_head (R : Rel) :
    ('>' :: ';' :: ' ' :: R.attr.toList).reverse.head? = some '"' := by
  cases R <;> rfl

theorem Rel.attr_no_semicolon (R : Rel) : ';' ∉ ' ' :: R.attr.toList := by
  cases R <;> decide

theorem Rel.attr_no_comma (R : Rel) : ',' ∉ '>' :: ';' :: ' ' :: R.attr.toList := by
  cases R <;> decide

theorem renderLink_toList (l : Link) :
    (renderLink l).toList = '<' :: (l.url.toList ++ '>' :: ';' :: ' ' :: l.rel.attr.toList) := by
  unfold renderLink
  rw [toList_append, toList_append, toList_append]
  show ['<'] ++ l.url.toList ++ ['>', ';', ' '] ++ l.rel.attr.toList = _
  simp

theorem renderLink_no_comma (l : Link) (h : ',' ∉ l.url.toList) : ',' ∉ (renderLink l).toList := by
  rw [renderLink_toList]
  have h2 := Rel.attr_no_comma l.rel
  intro hm
  rcases List.mem_cons.mp hm with e | hm
  · exact absurd e (by decide)
  · rcases List.mem_append.mp hm with hm | hm
    · exact h hm
    · exact h2 hm

theorem trimSpace_renderLink (l : Link) :
    trimSpace (renderLink l).toList = (renderLink l).toList := by
  rw [renderLink_toList]
  exact trimSpace_eq_self (c := '<') (d := '"') rfl isSpace_lt
    (reverse_head_append _ _ _ _ (Rel.attr_reverse_head l.rel)) isSpace_quote

theorem setRel_attr (page : String) (p : Page) (R : Rel) :
    setRel page p (String.mk (' ' :: R.attr.toList)) = p.set R (Atoi page).1 := by
  cases R <;> rfl

theorem linkStep_renderLink (lib : Lib) (p : Page) (l : Link) (ws : String)
    (hws : ws = "" ∨ ws = " ") (hsemi : ';' ∉ l.url.toList) (u : URL)
    (hu : lib.urlParse l.url = some u)
    (hq : decimalValue (lib.queryGet u "page") = some l.page)
    (hlo : minInt ≤ l.page) (hhi : l.page ≤ maxInt) :
    linkStep lib p (ws ++ renderLink l) = p.set l.rel l.page := by
  have htrim : TrimSpace (ws ++ renderLink l) = renderLink l := by
    unfold TrimSpace
    rw [toList_append]
    rcases hws with h | h <;> subst h
    · show String.mk (trimSpace ([] ++ (renderLink l).toList)) = _
      rw [List.nil_append, trimSpace_renderLink, mk_toList]
    · show String.mk (trimSpace ([' '] ++ (renderLink l).toList)) = _
      rw [List.singleton_append, trimSpace_space, trimSpace_renderLink, mk_toList]
  have hsemi2 : ';' ∉ '<' :: (l.url.toList ++ ['>']) := by
    intro hm
    rcases List.mem_cons.mp hm with e | hm
    · exact absurd e (by decide)
    · rcases List.mem_append.mp hm with hm | hm
      · exact hsemi hm
      · exact absurd (List.mem_singleton.mp hm) (by decide)
  have hsplit : Split (renderLink l) ';'
      = [String.mk ('<' :: (l.url.toList ++ ['>'])), String.mk (' ' :: l.rel.attr.toList)] := by
    unfold Split
    rw [renderLink_toList]
    have e : '<' :: (l.url.toList ++ '>' :: ';' :: ' ' :: l.rel.attr.toList)
        = ('<' :: (l.url.toList ++ ['>'])) ++ ';' :: (' ' :: l.rel.attr.toList) := by simp
    rw [e, splitOn_append_sep _ _ _ hsemi2,
      splitOn_of_not_mem _ _ (Rel.attr_no_semicolon l.rel)]
    rfl
  have hAtoi := Atoi_of_decimalValue _ _ hq hlo hhi
  have hne := decimalValue_ne_empty _ _ hq
  have hpre : HasPrefix (String.mk ('<' :: (l.url.toList ++ ['>']))) "<" = true := by
    show List.isPrefixOf ['<'] ('<' :: (l.url.toList ++ ['>'])) = true
    simp [List.isPrefixOf]
  have hsuf : HasSuffix (String.mk ('<' :: (l.url.toList ++ ['>']))) ">" = true := by
    show List.isPrefixOf ['>'] ('<' :: (l.url.toList ++ ['>'])).reverse = true
    simp [List.isPrefixOf]
  have hinner : String.mk ((String.mk ('<' :: (l.url.toList ++ ['>']))).toList.drop 1).dropLast
      = l.url := by
    show String.mk (l.url.toList ++ ['>']).dropLast = l.url
    rw [List.dropLast_concat, mk_toList]
  unfold linkStep
  rw [htrim, hsplit]
  simp only [hpre, hsuf, hinner, hu, hne, List.foldl_cons, List.foldl_nil, setRel_attr, hAtoi,
    Bool.not_true, Bool.or_self, Bool.false_eq_true, if_false]

end scm

theorem empty_append (s : String) : "" ++ s = s := by
  cases s; rfl

namespace scm

theorem splitOn_joinWith (ws : String) (hws : ',' ∉ ws.toList) (x : String) (xs : List String)
    (h : ∀ y ∈ x :: xs, ',' ∉ y.toList) :
    splitOn ',' (joinWith ("," ++ ws) (x :: xs)).toList
      = x.toList :: xs.map fun y => ws.toList ++ y.toList := by
  induction xs generalizing x with
  | nil =>
    show splitOn ',' x.toList = [x.toList]
    exact splitOn_of_not_mem _ _ (h x (List.mem_cons_self _ _))
  | cons y ys ih =>
    have hx : ',' ∉ x.toList := h x (List.mem_cons_self _ _)
    have ih2 := ih y (fun z hz => h z (List.mem_cons_of_mem _ hz))
    show splitOn ',' (x ++ ("," ++ ws) ++ joinWith ("," ++ ws) (y :: ys)).toList = _
    rw [toList_append, toList_append, toList_append]
    show splitOn ',' (x.toList ++ ([','] ++ ws.toList) ++ (joinWith ("," ++ ws) (y :: ys)).toList) = _
    have e : x.toList ++ ([','] ++ ws.toList) ++ (joinWith ("," ++ ws) (y :: ys)).toList
        = x.toList ++ ',' :: (ws.toList ++ (joinWith ("," ++ ws) (y :: ys)).toList) := by simp
    rw [e, splitOn_append_sep _ _ _ hx, splitOn_append_left _ _ _ hws, ih2]
    rfl

theorem Split_joinWith (ws : String) (hws : ',' ∉ ws.toList) (x : String) (xs : List String)
    (h : ∀ y ∈ x :: xs, ',' ∉ y.toList) :
    Split (joinWith ("," ++ ws) (x :: xs)) ',' = x :: xs.map fun y => ws ++ y := by
  unfold Split
  rw [splitOn_joinWith ws hws x xs h]
  rw [List.map_cons, List.map_map, mk_toList]
  congr 1

theorem linkStep_wellFormed (lib : Lib) (p : Page) (l : Link) (ws : String)
    (hws : ws = "" ∨ ws = " ") (h : l.wellFormed lib) :
    linkStep lib p (ws ++ renderLink l) = p.set l.rel l.page := by
  obtain ⟨_, hsemi, u, hu, hq, hlo, hhi⟩ := h
  exact linkStep_renderLink lib p l ws hws hsemi u hu hq hlo hhi

theorem foldl_linkStep (lib : Lib) (ws : String) (hws : ws = "" ∨ ws = " ") (ls : List Link)
    (p : Page) (h : ∀ l ∈ ls, l.wellFormed lib) :
    (ls.map fun l => ws ++ renderLink l).foldl (linkStep lib) p
      = ls.foldl (fun q l => q.set l.rel l.page) p := by
  induction ls generalizing p with
  | nil => rfl
  | cons l ls ih =>
    simp only [List.map_cons, List.foldl_cons]
    rw [linkStep_wellFormed lib p l ws hws (h l (List.mem_cons_self _ _))]
    exact ih _ (fun z hz => h z (List.mem_cons_of_mem _ hz))

theorem Page.get_set (p : Page) (R S : Rel) (n : Int) :
    (p.set S n).get R = if S = R then n else p.get R := by
  cases R <;> cases S <;> rfl

theorem Page.nextURL_set (p : Page) (S : Rel) (n : Int) : (p.set S n).NextURL = p.NextURL := by
  cases S <;> rfl

theorem foldl_set_nextURL (ls : List Link) (p : Page) :
    (ls.foldl (fun q l => q.set l.rel l.page) p).NextURL = p.NextURL := by
  induction ls generalizing p with
  | nil => rfl
  | cons l ls ih => simp only [List.foldl_cons]; rw [ih, Page.nextURL_set]

theorem foldl_set_get (ls : List Link) (p : Page) (R : Rel) (hnd : (ls.map Link.rel).Nodup) :
    (ls.foldl (fun q l => q.set l.rel l.page) p).get R
      = ((ls.find? fun l => l.rel = R).map Link.page).getD (p.get R) := by
  induction ls generalizing p with
  | nil => rfl
  | cons l ls ih =>
    simp only [List.map_cons, List.nodup_cons] at hnd
    simp only [List.foldl_cons]
    rw [ih _ hnd.2, Page.get_set]
    by_cases hR : l.rel = R
    · have hnone : (ls.find? fun l => l.rel = R) = none := by
        rw [List.find?_eq_none]
        intro x hx hx2
        apply hnd.1
        rw [hR]
        exact List.mem_map.mpr ⟨x, hx, by simpa using hx2⟩
      simp [hR, hnone, List.find?_cons]
    · simp [hR, List.find?_cons]

/-- C10 (amended): for every `Link` header value made of segments `<U>; rel="R"` separated
by `,` or `, `, where the relations are distinct members of next, prev, first, last and
each `U` is a URL without `,` and `;` whose `page` query parameter is a decimal integer
`N_R` in the range of `int`, `populatePageValues` on a fresh `Response` yields a `Page`
whose field for each listed relation is `N_R` and whose field for every other relation is
`0`; `NextURL` stays empty.  The empty list of links is the empty header value. -/
theorem populatePageValues_links (lib : Lib) (r : Response) (links : List Link) (sep : String)
    (hsep : sep = "," ∨ sep = ", ")
    (hfresh : r.Page = {})
    (hhdr : r.Header.Get "Link" = linkHeader sep links)
    (hrel : (links.map Link.rel).Nodup)
    (hwf : ∀ l ∈ links, l.wellFormed lib) :
    (∀ R, (r.populatePageValues lib).Page.get R = pageOf links R) ∧
      (r.populatePageValues lib).Page.NextURL = "" := by
  obtain ⟨ws, hws, hsepws, hwsc⟩ : ∃ ws : String, (ws = "" ∨ ws = " ") ∧ sep = "," ++ ws ∧
      ',' ∉ ws.toList := by
    rcases hsep with h | h
    · exact ⟨"", Or.inl rfl, by rw [h]; rfl, by decide⟩
    · exact ⟨" ", Or.inr rfl, by rw [h]; rfl, by decide⟩
  have hfold : (r.populatePageValues lib).Page
      = links.foldl (fun q l => q.set l.rel l.page) {} := by
    show (Split (r.Header.Get "Link") ',').foldl (linkStep lib) r.Page = _
    rw [hhdr, hfresh]
    cases links with
    | nil => rfl
    | cons l ls =>
      have hcomma : ∀ y ∈ renderLink l :: ls.map renderLink, ',' ∉ y.toList := by
        intro y hy
        rw [← List.map_cons] at hy
        obtain ⟨z, hz, rfl⟩ := List.mem_map.mp hy
        exact renderLink_no_comma z (hwf z hz).1
      show (Split (joinWith sep (renderLink l :: ls.map renderLink)) ',').foldl _ _ = _
      rw [hsepws, Split_joinWith ws hwsc _ _ hcomma, List.foldl_cons, List.map_map]
      have h1 := linkStep_wellFormed lib {} l "" (Or.inl rfl) (hwf l (List.mem_cons_self _ _))
      rw [empty_append] at h1
      rw [h1]
      exact foldl_linkStep lib ws hws ls _ (fun z hz => hwf z (List.mem_cons_of_mem _ hz))
  constructor
  · intro R
    rw [hfold, foldl_set_get _ _ _ hrel]
    cases R <;> rfl
  · rw [hfold, foldl_set_nextURL]

/-- C10, at the spec's scenario: `next=2, last=5` gives `Page{Next:2, Last:5, First:0,
Prev:0}`. -/
theorem populatePageValues_links_witness :
    (∀ R, (Response.populatePageValues Ref.lib
        { Header := [("Link", [Examples.linkValue])] }).Page.get R
      = pageOf Examples.links R) ∧
    (Response.populatePageValues Ref.lib
        { Header := [("Link", [Examples.linkValue])] }).Page.NextURL = "" :=
  populatePageValues_links Ref.lib { Header := [("Link", [Examples.linkValue])] }
    Examples.links ", " (Or.inr rfl) rfl (by decide) (by decide)
    (by
      intro l hl
      simp only [Examples.links, List.mem_cons, List.mem_singleton, List.not_mem_nil,
        or_false] at hl
      rcases hl with h | h <;> subst h
      · exact ⟨by decide, by decide,
          { Scheme := "https", Host := "api.example.com", Path := "/x", RawQuery := "page=2" },
          by decide, by decide, by decide, by decide⟩
      · exact ⟨by decide, by decide,
          { Scheme := "https", Host := "api.example.com", Path := "/x", RawQuery := "page=5" },
          by decide, by decide, by decide, by decide⟩)

/-- The spec's scenario evaluated, and the absent and the empty header. -/
theorem populatePageValues_scenario :
    (Response.populatePageValues Ref.lib { Header := [("Link", [Examples.linkValue])] }).Page
        = { Next := 2, Last := 5, First := 0, Prev := 0 } ∧
    (Response.populatePageValues Ref.lib {}).Page = {} ∧
    (Response.populatePageValues Ref.lib { Header := [("Link", [""])] }).Page = {} := by
  decide

/-- C10 (as stated) fails: the `page` parameter `9223372036854775808` is a decimal integer,
and the field `Next` is `9223372036854775807`, since `strconv.Atoi` returns the largest `int`
together with a range error that the code discards. -/
theorem populatePageValues_links_counterexample :
    decimalValue "9223372036854775808" = some 9223372036854775808 ∧
    (Response.populatePageValues Ref.lib
        { Header := [("Link", [Examples.hugeLinkValue])] }).Page.Next = 9223372036854775807 := by
  decide

end scm

theorem splitOn_append_cons (sep : Char) (a b : List Char) :
    splitOn sep (a ++ sep :: b) = splitOn sep a ++ splitOn sep b := by
  induction a with
  | nil => simp [splitOn]
  | cons c cs ih =>
    by_cases hc : c = sep
    · subst hc
      simp [splitOn, ih]
    · rw [List.cons_append, splitOn_cons_of_ne sep c _ hc, splitOn_cons_of_ne sep c _ hc, ih]
      cases h : splitOn sep cs with
      | nil => exact absurd h (splitOn_ne_nil sep cs)
      | cons p ps => rfl

theorem Split_append_comma (H m : String) (hm : ',' ∉ m.toList) :
    Split (H ++ "," ++ m) ',' = Split H ',' ++ [m] := by
  unfold Split
  rw [toList_append, toList_append]
  show List.map String.mk (splitOn ',' (H.toList ++ [','] ++ m.toList)) = _
  rw [List.append_assoc, List.singleton_append, splitOn_append_cons,
    splitOn_of_not_mem _ _ hm, List.map_append]
  rfl

namespace scm

theorem Header_Get_Link (v : String) (vs : List String) :
    Header.Get [("Link", v :: vs)] "Link" = v := rfl

theorem pageFrom_eq (lib : Lib) (p : Page) (H : String) :
    pageFrom lib p H = (Split H ',').foldl (linkStep lib) p := rfl

theorem pageFrom_append (lib : Lib) (p : Page) (H m : String) (hm : ',' ∉ m.toList) :
    pageFrom lib p (H ++ "," ++ m) = linkStep lib (pageFrom lib p H) m := by
  rw [pageFrom_eq, pageFrom_eq, Split_append_comma H m hm, List.foldl_append]
  rfl

theorem setRel_of_not_attr (page : String) (p : Page) (a : String)
    (h : TrimSpace a ∉ relAttrs) : setRel page p a = p := by
  simp only [relAttrs, List.mem_cons, List.mem_singleton, List.not_mem_nil, or_false,
    not_or] at h
  obtain ⟨h1, h2, h3, h4⟩ := h
  simp [setRel, h1, h2, h3, h4]

theorem foldl_setRel_of_not_attr (page : String) (p : Page) (as : List String)
    (h : ∀ a ∈ as, TrimSpace a ∉ relAttrs) : as.foldl (setRel page) p = p := by
  induction as generalizing p with
  | nil => rfl
  | cons a as ih =>
    rw [List.foldl_cons, setRel_of_not_attr page p a (h a (List.mem_cons_self _ _))]
    exact ih p (fun b hb => h b (List.mem_cons_of_mem _ hb))

theorem linkStep_parts (lib : Lib) (p : Page) (m seg0 a : String) (as : List String)
    (hs : Split (TrimSpace m) ';' = seg0 :: a :: as) :
    linkStep lib p m =
      if !HasPrefix seg0 "<" || !HasSuffix seg0 ">" then p
      else
        match lib.urlParse (String.mk (seg0.toList.drop 1).dropLast) with
        | none => p
        | some url =>
          if lib.queryGet url "page" = "" then p
          else (a :: as).foldl (setRel (lib.queryGet url "page")) p := by
  unfold linkStep
  rw [hs]

theorem linkStep_short (lib : Lib) (p : Page) (m : String)
    (hs : (Split (TrimSpace m) ';').length < 2) : linkStep lib p m = p := by
  unfold linkStep
  cases h : Split (TrimSpace m) ';' with
  | nil => rfl
  | cons seg0 rest =>
    cases rest with
    | nil => rfl
    | cons a as =>
      rw [h] at hs
      simp only [List.length_cons] at hs
      omega

theorem linkStep_malformed (lib : Lib) (p : Page) (m : String) (h : malformed lib m) :
    linkStep lib p m = p := by
  unfold malformed segmentTarget segmentParts at h
  cases hs : Split (TrimSpace m) ';' with
  | nil => exact linkStep_short lib p m (by rw [hs]; exact Nat.zero_lt_two)
  | cons seg0 rest =>
    cases rest with
    | nil => exact linkStep_short lib p m (by rw [hs]; exact Nat.one_lt_two)
    | cons a as =>
      rw [linkStep_parts lib p m seg0 a as hs]
      rw [hs] at h
      simp only [List.length_cons, List.headD_cons, List.tail_cons] at h
      rcases h with h | h | h | h | h | h
      · omega
      · simp [h]
      · simp [h]
      · simp only [h]
        split <;> rfl
      · obtain ⟨u, hu, hq⟩ := h
        simp only [hu, hq]
        split <;> simp
      · split
        · rfl
        · split
          · rfl
          · rw [foldl_setRel_of_not_attr _ p (a :: as) h]
            simp

end scm

namespace scm

/-- C11: structurally malformed segments are skipped without affecting the rest.  For every
header value `H`, every starting page and every comma-free segment `m` that, once trimmed
as the code trims it, has fewer than two `;`-separated parts, or a first part not wrapped in
`<` and `>`, or a URL that fails to parse, or no non-empty `page` parameter, or no attribute
that trims to one of the four relation attributes, parsing `H + "," + m` yields the same
`Page` as parsing `H`. -/
theorem populatePageValues_skips_malformed (lib : Lib) (p : Page) (H m : String)
    (hcomma : ',' ∉ m.toList) (hmal : malformed lib m) :
    pageFrom lib p (H ++ "," ++ m) = pageFrom lib p H := by
  rw [pageFrom_append lib p H m hcomma, linkStep_malformed lib _ m hmal]

/-- C11, at the header of the spec's scenario followed by four malformed segments: one
without `;`, one whose first part is not wrapped, one whose URL has no `page` parameter and
one whose relation is unknown. -/
theorem populatePageValues_skips_malformed_witness :
    pageFrom Ref.lib {} (Examples.linkValue ++ "," ++ " garbage")
        = pageFrom Ref.lib {} Examples.linkValue ∧
    pageFrom Ref.lib {} (Examples.linkValue ++ "," ++ " https://api.example.com/x?page=9; rel=\"next\"")
        = pageFrom Ref.lib {} Examples.linkValue ∧
    pageFrom Ref.lib {} (Examples.linkValue ++ "," ++ " <https://api.example.com/x>; rel=\"next\"")
        = pageFrom Ref.lib {} Examples.linkValue ∧
    pageFrom Ref.lib {} (Examples.linkValue ++ "," ++ " <https://api.example.com/x?page=9>; rel=\"up\"")
        = pageFrom Ref.lib {} Examples.linkValue :=
  ⟨populatePageValues_skips_malformed Ref.lib {} Examples.linkValue " garbage"
      (by decide) (Or.inl (by decide)),
   populatePageValues_skips_malformed Ref.lib {} Examples.linkValue
      " https://api.example.com/x?page=9; rel=\"next\""
      (by decide) (Or.inr (Or.inl (by decide))),
   populatePageValues_skips_malformed Ref.lib {} Examples.linkValue
      " <https://api.example.com/x>; rel=\"next\""
      (by decide) (Or.inr (Or.inr (Or.inr (Or.inr (Or.inl
        ⟨{ Scheme := "https", Host := "api.example.com", Path := "/x" }, by decide,
          by decide⟩))))),
   populatePageValues_skips_malformed Ref.lib {} Examples.linkValue
      " <https://api.example.com/x?page=9>; rel=\"up\""
      (by decide) (Or.inr (Or.inr (Or.inr (Or.inr (Or.inr (by decide))))))⟩

theorem segmentText_eq (l : Link) : segmentText l.url l.rel = renderLink l := rfl

theorem linkStep_segment (lib : Lib) (p : Page) (U : String) (R : Rel) (ws : String)
    (hws : ws = "" ∨ ws = " ") (hsemi : ';' ∉ U.toList) (u : URL)
    (hu : lib.urlParse U = some u) (hne : lib.queryGet u "page" ≠ "") :
    linkStep lib p (ws ++ segmentText U R) = p.set R (Atoi (lib.queryGet u "page")).1 := by
  have hr : segmentText U R = renderLink { url := U, rel := R, page := 0 } := rfl
  rw [hr]
  have htrim : TrimSpace (ws ++ renderLink { url := U, rel := R, page := 0 })
      = renderLink { url := U, rel := R, page := 0 } := by
    unfold TrimSpace
    rw [toList_append]
    rcases hws with h | h <;> subst h
    · show String.mk (trimSpace ([] ++ (renderLink _).toList)) = _
      rw [List.nil_append, trimSpace_renderLink, mk_toList]
    · show String.mk (trimSpace ([' '] ++ (renderLink _).toList)) = _
      rw [List.singleton_append, trimSpace_space, trimSpace_renderLink, mk_toList]
  have hsemi2 : ';' ∉ '<' :: (U.toList ++ ['>']) := by
    intro hm
    rcases List.mem_cons.mp hm with e | hm
    · exact absurd e (by decide)
    · rcases List.mem_append.mp hm with hm | hm
      · exact hsemi hm
      · exact absurd (List.mem_singleton.mp hm) (by decide)
  have hsplit : Split (renderLink { url := U, rel := R, page := 0 }) ';'
      = [String.mk ('<' :: (U.toList ++ ['>'])), String.mk (' ' :: R.attr.toList)] := by
    unfold Split
    rw [renderLink_toList]
    have e : '<' :: (U.toList ++ '>' :: ';' :: ' ' :: R.attr.toList)
        = ('<' :: (U.toList ++ ['>'])) ++ ';' :: (' ' :: R.attr.toList) := by simp
    show List.map String.mk (splitOn ';' ('<' :: (U.toList ++ '>' :: ';' :: ' ' :: R.attr.toList))) = _
    rw [e, splitOn_append_sep _ _ _ hsemi2, splitOn_of_not_mem _ _ (Rel.attr_no_semicolon R)]
    rfl
  have hpre : HasPrefix (String.mk ('<' :: (U.toList ++ ['>']))) "<" = true := by
    show List.isPrefixOf ['<'] ('<' :: (U.toList ++ ['>'])) = true
    simp [List.isPrefixOf]
  have hsuf : HasSuffix (String.mk ('<' :: (U.toList ++ ['>']))) ">" = true := by
    show List.isPrefixOf ['>'] ('<' :: (U.toList ++ ['>'])).reverse = true
    simp [List.isPrefixOf]
  have hinner : String.mk ((String.mk ('<' :: (U.toList ++ ['>']))).toList.drop 1).dropLast
      = U := by
    show String.mk (U.toList ++ ['>']).dropLast = U
    rw [List.dropLast_concat, mk_toList]
  unfold linkStep
  rw [htrim, hsplit]
  simp only [hpre, hsuf, hinner, hu, hne, List.foldl_cons, List.foldl_nil, setRel_attr,
    Bool.not_true, Bool.or_self, Bool.false_eq_true, if_false]

end scm

namespace scm

/-- C12 (amended): a segment `<U>; rel="R"` whose `page` parameter is non-empty is never
dropped: after `H` followed by the segment, the field of `R` is the value `strconv.Atoi`
returns for the page text, whether or not it comes with an error, and every other field is
as after `H`.  For a page text that is not an optionally signed decimal number that value is
`0` when the digits after the sign, up to the first byte that is not a digit, stay within
`uint64` (as in `page=abc`), and the largest or, after a `-`, the smallest `int` when they
exceed it; for a decimal number outside the range of `int` it is the nearest bound.  So a
value for `R` from an earlier segment is overwritten. -/
theorem populatePageValues_bad_page (lib : Lib) (p : Page) (H ws U : String) (R : Rel) (u : URL)
    (hws : ws = "" ∨ ws = " ")
    (hcomma : ',' ∉ U.toList) (hsemi : ';' ∉ U.toList)
    (hu : lib.urlParse U = some u) (hne : lib.queryGet u "page" ≠ "") :
    pageFrom lib p (H ++ "," ++ (ws ++ segmentText U R))
        = (pageFrom lib p H).set R (Atoi (lib.queryGet u "page")).1 ∧
      (decimalValue (lib.queryGet u "page") = none →
        digitsNat (leadingDigits (lib.queryGet u "page")) ≤ maxUint64 →
        pageFrom lib p (H ++ "," ++ (ws ++ segmentText U R)) = (pageFrom lib p H).set R 0) ∧
      (decimalValue (lib.queryGet u "page") = none →
        maxUint64 < digitsNat (leadingDigits (lib.queryGet u "page")) →
        pageFrom lib p (H ++ "," ++ (ws ++ segmentText U R))
          = (pageFrom lib p H).set R
              (if (lib.queryGet u "page").toList.head? = some '-' then minInt else maxInt)) ∧
      (∀ n : Int, decimalValue (lib.queryGet u "page") = some n →
        pageFrom lib p (H ++ "," ++ (ws ++ segmentText U R))
          = (pageFrom lib p H).set R (if maxInt < n then maxInt else if n < minInt then minInt else n)) := by
  have hm : ',' ∉ (ws ++ segmentText U R).toList := by
    rw [toList_append]
    have h1 : ',' ∉ ws.toList := by rcases hws with h | h <;> subst h <;> decide
    have h2 := renderLink_no_comma { url := U, rel := R, page := 0 } hcomma
    intro hmem
    rcases List.mem_append.mp hmem with h | h
    · exact h1 h
    · exact h2 h
  have hstep := linkStep_segment lib (pageFrom lib p H) U R ws hws hsemi u hu hne
  refine ⟨?_, ?_, ?_, ?_⟩
  · rw [pageFrom_append lib p H _ hm, hstep]
  · intro hd hrun
    rw [pageFrom_append lib p H _ hm, hstep, Atoi_syntax _ hd hrun]
  · intro hd hrun
    rw [pageFrom_append lib p H _ hm, hstep, Atoi_overflow _ hd hrun]
  · intro n hd
    rw [pageFrom_append lib p H _ hm, hstep, Atoi_clamp _ n hd]
    rfl

/-- C12, at the header `next=2` followed by a `next` segment with `page=abc`: `Next` is
reset to `0`; followed by one with `page=99999999999999999999x`, `Next` is the largest
`int`. -/
theorem populatePageValues_bad_page_witness :
    pageFrom Ref.lib {} (Examples.nextValue ++ "," ++ (" " ++ segmentText "https://api.example.com/x?page=abc" .next))
      = (pageFrom Ref.lib {} Examples.nextValue).set .next 0 ∧
    pageFrom Ref.lib {} (Examples.nextValue ++ "," ++
        (" " ++ segmentText "https://api.example.com/x?page=99999999999999999999x" .next))
      = (pageFrom Ref.lib {} Examples.nextValue).set .next 9223372036854775807 :=
  ⟨(populatePageValues_bad_page Ref.lib {} Examples.nextValue " "
      "https://api.example.com/x?page=abc" .next
      { Scheme := "https", Host := "api.example.com", Path := "/x", RawQuery := "page=abc" }
      (Or.inr rfl)
      (by decide) (by decide) (by decide) (by decide)).2.1 (by decide) (by decide),
    (populatePageValues_bad_page Ref.lib {} Examples.nextValue " "
      "https://api.example.com/x?page=99999999999999999999x" .next
      { Scheme := "https", Host := "api.example.com", Path := "/x",
        RawQuery := "page=99999999999999999999x" }
      (Or.inr rfl)
      (by decide) (by decide) (by decide) (by decide)).2.2.1 (by decide) (by decide)⟩

/-- C12 (as stated) fails: after `next=2`, a `next` segment with `page=abc` does not leave
the `Page` of the header alone; `Next` is `2` before and `0` after. -/
theorem populatePageValues_bad_page_counterexample :
    (pageFrom Ref.lib {} Examples.nextValue).Next = 2 ∧
    (pageFrom Ref.lib {} (Examples.nextValue ++ "," ++ Examples.badPageSegment)).Next = 0 ∧
    pageFrom Ref.lib {} (Examples.nextValue ++ "," ++ Examples.badPageSegment)
      ≠ pageFrom Ref.lib {} Examples.nextValue := by
  decide

end scm

/-! ## Decimal texts -/

/-- The value of a sequence of digit characters, starting from `a`. -/
theorem foldl_digits (ds : List Char) (a : Nat) :
    ds.foldl (fun n c => 10 * n + (c.toNat - 48)) a
      = a * 10 ^ ds.length + ds.foldl (fun n c => 10 * n + (c.toNat - 48)) 0 := by
  induction ds generalizing a with
  | nil => simp
  | cons d ds ih =>
    simp only [List.foldl_cons, List.length_cons]
    rw [ih (10 * a + (d.toNat - 48)), ih (10 * 0 + (d.toNat - 48))]
    ring

theorem digitChar_isDigit (k : Nat) (hk : k < 10) :
    (Nat.digitChar k).isDigit = true ∧ (Nat.digitChar k).toNat - 48 = k := by
  interval_cases k <;> exact ⟨by decide, by decide⟩

theorem toDigitsCore_spec (fuel n : Nat) (ds : List Char) (hf : n < fuel)
    (hds : ds.all Char.isDigit = true) :
    (Nat.toDigitsCore 10 fuel n ds).all Char.isDigit = true ∧
    Nat.toDigitsCore 10 fuel n ds ≠ [] ∧
    (Nat.toDigitsCore 10 fuel n ds).foldl (fun n c => 10 * n + (c.toNat - 48)) 0
      = n * 10 ^ ds.length + ds.foldl (fun n c => 10 * n + (c.toNat - 48)) 0 := by
  induction fuel generalizing n ds with
  | zero => omega
  | succ fuel ih =>
    have hd := digitChar_isDigit (n % 10) (Nat.mod_lt _ (by decide))
    unfold Nat.toDigitsCore
    simp only
    split
    · rename_i h0
      refine ⟨by simp [hd.1, hds], by simp, ?_⟩
      simp only [List.foldl_cons]
      rw [foldl_digits, hd.2]
      have : n % 10 = n := by omega
      rw [this]
      ring
    · rename_i h0
      have hlt : n / 10 < fuel := by omega
      have hall : (Nat.digitChar (n % 10) :: ds).all Char.isDigit = true := by
        simp [hd.1, hds]
      obtain ⟨h1, h2, h3⟩ := ih (n / 10) (Nat.digitChar (n % 10) :: ds) hlt hall
      refine ⟨h1, h2, ?_⟩
      rw [h3]
      simp only [List.foldl_cons, List.length_cons]
      rw [foldl_digits ds (10 * 0 + _), hd.2]
      have : n = 10 * (n / 10) + n % 10 := by omega
      generalize n / 10 = q at this ⊢
      generalize n % 10 = r at this ⊢
      subst this
      ring

theorem digitsValue_toDigits (n : Nat) : digitsValue (Nat.toDigits 10 n) = some n := by
  obtain ⟨h1, h2, h3⟩ := toDigitsCore_spec (n + 1) n [] (Nat.lt_succ_self n) rfl
  unfold digitsValue Nat.toDigits
  rw [if_pos ⟨h2, h1⟩, h3]
  simp

theorem decimalValue_of_digits (cs : List Char) (k : Nat) (h : digitsValue cs = some k) :
    decimalValue (String.mk cs) = some (k : Int) := by
  have hh := digitsValue_head h
  unfold decimalValue
  show (match cs with
    | '-' :: ds => (digitsValue ds).map fun (n : Nat) => -Int.ofNat n
    | '+' :: ds => (digitsValue ds).map fun (n : Nat) => Int.ofNat n
    | ds => (digitsValue ds).map fun (n : Nat) => Int.ofNat n) = _
  split
  · exact absurd rfl hh.1
  · exact absurd rfl hh.2
  · rw [h]; rfl

theorem decimalText_toList (n : Int) :
    (decimalText n).toList
      = if n < 0 then '-' :: Nat.toDigits 10 n.natAbs else Nat.toDigits 10 n.natAbs := by
  unfold decimalText
  split
  · rw [toList_append]; rfl
  · rfl

theorem decimalValue_decimalText (n : Int) : decimalValue (decimalText n) = some n := by
  by_cases hn : n < 0
  · have e : decimalText n = String.mk ('-' :: Nat.toDigits 10 n.natAbs) := by
      unfold decimalText
      rw [if_pos hn]
      rfl
    rw [e]
    unfold decimalValue
    show (digitsValue (Nat.toDigits 10 n.natAbs)).map (fun (k : Nat) => -Int.ofNat k) = _
    rw [digitsValue_toDigits]
    simp only [Option.map_some', Option.some.injEq, Int.ofNat_eq_coe]
    omega
  · have e : decimalText n = String.mk (Nat.toDigits 10 n.natAbs) := by
      unfold decimalText
      rw [if_neg hn]
      rfl
    rw [e, decimalValue_of_digits _ _ (digitsValue_toDigits _)]
    simp only [Option.some.injEq]
    omega

theorem decimalText_chars (n : Int) (c : Char) (hc : c ∈ (decimalText n).toList) :
    c = '-' ∨ c.isDigit = true := by
  rw [decimalText_toList] at hc
  have hall := (toDigitsCore_spec (n.natAbs + 1) n.natAbs [] (Nat.lt_succ_self _) rfl).1
  have hd : ∀ x ∈ Nat.toDigits 10 n.natAbs, x.isDigit = true := by
    intro x hx
    exact List.all_eq_true.mp hall x hx
  split at hc
  · rcases List.mem_cons.mp hc with e | h
    · exact Or.inl e
    · exact Or.inr (hd c h)
  · exact Or.inr (hd c hc)

namespace scm

theorem pageFrom_linkHeader (lib : Lib) (p : Page) (links : List Link) (sep : String)
    (hsep : sep = "," ∨ sep = ", ") (hwf : ∀ l ∈ links, l.wellFormed lib) :
    pageFrom lib p (linkHeader sep links) = links.foldl (fun q l => q.set l.rel l.page) p := by
  obtain ⟨ws, hws, hsepws, hwsc⟩ : ∃ ws : String, (ws = "" ∨ ws = " ") ∧ sep = "," ++ ws ∧
      ',' ∉ ws.toList := by
    rcases hsep with h | h
    · exact ⟨"", Or.inl rfl, by rw [h]; rfl, by decide⟩
    · exact ⟨" ", Or.inr rfl, by rw [h]; rfl, by decide⟩
  rw [pageFrom_eq]
  cases links with
  | nil => rfl
  | cons l ls =>
    have hcomma : ∀ y ∈ renderLink l :: ls.map renderLink, ',' ∉ y.toList := by
      intro y hy
      rw [← List.map_cons] at hy
      obtain ⟨z, hz, rfl⟩ := List.mem_map.mp hy
      exact renderLink_no_comma z (hwf z hz).1
    show (Split (joinWith sep (renderLink l :: ls.map renderLink)) ',').foldl _ _ = _
    rw [hsepws, Split_joinWith ws hwsc _ _ hcomma, List.foldl_cons, List.map_map]
    have h1 := linkStep_wellFormed lib p l "" (Or.inl rfl) (hwf l (List.mem_cons_self _ _))
    rw [empty_append] at h1
    rw [h1]
    exact foldl_linkStep lib ws hws ls _ (fun z hz => hwf z (List.mem_cons_of_mem _ hz))

theorem Page.ext_get (p q : Page) (h : ∀ R, p.get R = q.get R) (hu : p.NextURL = q.NextURL) :
    p = q := by
  cases p
  cases q
  have h1 := h .next
  have h2 := h .prev
  have h3 := h .first
  have h4 := h .last
  simp only [Page.get] at h1 h2 h3 h4
  simp only at hu
  simp [h1, h2, h3, h4, hu]

theorem Page.plain_set (p : Page) (R : Rel) (s : String) (hp : p.plain) :
    (p.set R (Atoi s).1).plain := by
  refine ⟨fun S => ?_, ?_⟩
  · rw [Page.get_set]
    split
    · exact Atoi_range s
    · exact hp.1 S
  · rw [Page.nextURL_set]; exact hp.2

theorem setRel_plain (page : String) (p : Page) (a : String) (hp : p.plain) :
    (setRel page p a).plain := by
  unfold setRel
  simp only
  split
  · exact Page.plain_set p .next page hp
  · split
    · exact Page.plain_set p .prev page hp
    · split
      · exact Page.plain_set p .first page hp
      · split
        · exact Page.plain_set p .last page hp
        · exact hp

theorem foldl_setRel_plain (page : String) (as : List String) (p : Page) (hp : p.plain) :
    (as.foldl (setRel page) p).plain := by
  induction as generalizing p with
  | nil => exact hp
  | cons a as ih => exact ih _ (setRel_plain page p a hp)

theorem linkStep_plain (lib : Lib) (p : Page) (m : String) (hp : p.plain) :
    (linkStep lib p m).plain := by
  unfold linkStep
  split
  · exact hp
  · exact hp
  · split
    · exact hp
    · split
      · exact hp
      · simp only
        split
        · exact hp
        · exact foldl_setRel_plain _ _ _ hp

theorem foldl_linkStep_plain (lib : Lib) (ms : List String) (p : Page) (hp : p.plain) :
    (ms.foldl (linkStep lib) p).plain := by
  induction ms generalizing p with
  | nil => exact hp
  | cons m ms ih => exact ih _ (linkStep_plain lib p m hp)

theorem pageFrom_plain (lib : Lib) (H : String) : (pageFrom lib {} H).plain := by
  rw [pageFrom_eq]
  exact foldl_linkStep_plain lib _ _ ⟨fun R => by cases R <;> exact ⟨by decide, by decide⟩, rfl⟩

theorem pageURL_no_sep (n : Int) : ',' ∉ (pageURL n).toList ∧ ';' ∉ (pageURL n).toList := by
  unfold pageURL
  rw [toList_append]
  constructor
  · intro h
    rcases List.mem_append.mp h with h | h
    · exact absurd h (by decide)
    · rcases decimalText_chars n _ h with e | e
      · exact absurd e (by decide)
      · exact absurd e (by decide)
  · intro h
    rcases List.mem_append.mp h with h | h
    · exact absurd h (by decide)
    · rcases decimalText_chars n _ h with e | e
      · exact absurd e (by decide)
      · exact absurd e (by decide)

theorem canonicalLinks_rel (p : Page) :
    (canonicalLinks p).map Link.rel
      = [Rel.next, Rel.prev, Rel.first, Rel.last].filter fun R => p.get R ≠ 0 := by
  unfold canonicalLinks
  rw [List.map_map]
  exact List.map_id _

theorem canonicalLinks_nodup (p : Page) : ((canonicalLinks p).map Link.rel).Nodup := by
  rw [canonicalLinks_rel]
  exact List.Nodup.filter _ (by decide)

theorem canonicalLinks_wellFormed (lib : Lib) (p : Page) (hp : p.plain)
    (hs : servesPages lib p) : ∀ l ∈ canonicalLinks p, l.wellFormed lib := by
  intro l hl
  unfold canonicalLinks at hl
  obtain ⟨R, hR, rfl⟩ := List.mem_map.mp hl
  have hne : p.get R ≠ 0 := by simpa using (List.mem_filter.mp hR).2
  obtain ⟨u, hu, hq⟩ := hs R hne
  exact ⟨(pageURL_no_sep _).1, (pageURL_no_sep _).2, u, hu,
    by rw [hq]; exact decimalValue_decimalText _, (hp.1 R).1, (hp.1 R).2⟩

theorem pageOf_canonicalLinks (p : Page) (R : Rel) : pageOf (canonicalLinks p) R = p.get R := by
  unfold pageOf canonicalLinks
  rw [List.find?_map]
  by_cases hne : p.get R = 0
  · have hnone : List.find? ((fun l : Link => decide (l.rel = R)) ∘
          fun R => ({ url := pageURL (p.get R), rel := R, page := p.get R } : Link))
        (List.filter (fun R => decide (p.get R ≠ 0)) [Rel.next, Rel.prev, Rel.first, Rel.last])
        = none := by
      rw [List.find?_eq_none]
      intro S hS hSR
      have hS2 : p.get S ≠ 0 := by simpa using (List.mem_filter.mp hS).2
      have : S = R := by simpa using hSR
      rw [this] at hS2
      exact hS2 hne
    rw [hnone]
    simp [hne]
  · have hmem : R ∈ List.filter (fun R => decide (p.get R ≠ 0))
        [Rel.next, Rel.prev, Rel.first, Rel.last] := by
      rw [List.mem_filter]
      exact ⟨by cases R <;> decide, by simpa using hne⟩
    cases hf : List.find? ((fun l : Link => decide (l.rel = R)) ∘
          fun R => ({ url := pageURL (p.get R), rel := R, page := p.get R } : Link))
        (List.filter (fun R => decide (p.get R ≠ 0)) [Rel.next, Rel.prev, Rel.first, Rel.last]) with
    | none =>
      rw [List.find?_eq_none] at hf
      exact absurd (by simp) (hf R hmem)
    | some S =>
      have := List.find?_some hf
      have hSR : S = R := by simpa using this
      subst hSR
      simp

theorem pageFrom_serialise (lib : Lib) (p : Page) (hp : p.plain) (hs : servesPages lib p) :
    pageFrom lib {} (serialise p) = p := by
  unfold serialise
  rw [pageFrom_linkHeader lib {} _ ", " (Or.inr rfl) (canonicalLinks_wellFormed lib p hp hs)]
  apply Page.ext_get
  · intro R
    rw [foldl_set_get _ _ _ (canonicalLinks_nodup p)]
    have h := pageOf_canonicalLinks p R
    unfold pageOf at h
    have h0 : (({} : Page).get R) = 0 := by cases R <;> rfl
    rw [h0, h]
  · rw [foldl_set_nextURL, hp.2]

/-- C13: pagination idempotence.  For every `Page` whose fields are in the range of `int`
(in particular every non-negative one) and whose `NextURL` is empty, serialising it
canonically and parsing the header value yields the page again; hence for every header
value, parsing, re-serialising and re-parsing gives the `Page` of the first parse.  The URLs
of the serialisation are read by the library: they parse, and their `page` parameter is the
decimal text they were built from. -/
theorem populatePageValues_roundtrip (lib : Lib) :
    (∀ p : Page, p.plain → servesPages lib p → pageFrom lib {} (serialise p) = p) ∧
    (∀ H : String, servesPages lib (pageFrom lib {} H) →
      pageFrom lib {} (serialise (pageFrom lib {} H)) = pageFrom lib {} H) :=
  ⟨fun p hp hs => pageFrom_serialise lib p hp hs,
   fun H hs => pageFrom_serialise lib _ (pageFrom_plain lib H) hs⟩

end scm

namespace scm

/-- C13, at the page `{Next: 2, Last: 5}`: its serialisation is
`<https://host/path?page=2>; rel="next", <https://host/path?page=5>; rel="last"`, and
parsing it gives the page again. -/
theorem populatePageValues_roundtrip_witness :
    serialise { Next := 2, Last := 5 }
        = "<https://host/path?page=2>; rel=\"next\", <https://host/path?page=5>; rel=\"last\"" ∧
    pageFrom Ref.lib {} (serialise { Next := 2, Last := 5 }) = { Next := 2, Last := 5 } :=
  ⟨by decide,
   (populatePageValues_roundtrip Ref.lib).1 { Next := 2, Last := 5 }
    ⟨fun R => by cases R <;> exact ⟨by decide, by decide⟩, rfl⟩
    (fun R hR => by
      cases R
      · exact ⟨{ Scheme := "https", Host := "host", Path := "/path", RawQuery := "page=2" },
          by decide, by decide⟩
      · exact absurd rfl hR
      · exact absurd rfl hR
      · exact ⟨{ Scheme := "https", Host := "host", Path := "/path", RawQuery := "page=5" },
          by decide, by decide⟩)⟩

end scm

/-! ## The transport core -/

theorem URL.Parse_error (net : Net) (u : URL) (s : String) (h : net.urlParse s = none) :
    URL.Parse net u s = .error (net.urlError s) := by
  unfold URL.Parse
  rw [h]

namespace scm

theorem target_default (net : Net) (c : Client) (ctx : Context) (req : Request)
    (h : ctx.requestDetails = none) :
    Client.target net c ctx req =
      match URL.Parse net c.BaseURL req.Path with
      | .error err => .error err
      | .ok uri => .ok (uri, ctx) := by
  unfold Client.target Client.requestDetails
  rw [h]

end scm

namespace scm

theorem Do_client (net : Net) (c : Client) (ctx : Context) (req : Request) :
    (Client.Do net c ctx req).client = c := by
  unfold Client.Do
  split
  · rfl
  · split
    · rfl
    · split
      · split <;> rfl
      · rfl

theorem Do_of_outgoing_error (net : Net) (c : Client) (ctx : Context) (req : Request)
    (e : Error) (h : Client.outgoing net c ctx req = .error e) :
    (Client.Do net c ctx req).res = none ∧ (Client.Do net c ctx req).err = some e := by
  unfold Client.Do
  rw [h]
  exact ⟨rfl, rfl⟩

theorem Do_of_transport_error (net : Net) (c : Client) (ctx : Context) (req : Request)
    (hreq : HTTPRequest) (e : Error) (h : Client.outgoing net c ctx req = .ok hreq)
    (ht : Client.transport net c hreq = .error e) :
    (Client.Do net c ctx req).res = none ∧ (Client.Do net c ctx req).err = some e := by
  unfold Client.Do
  rw [h]
  simp [ht]

theorem Do_of_response (net : Net) (c : Client) (ctx : Context) (req : Request)
    (hreq : HTTPRequest) (hres : HTTPResponse) (h : Client.outgoing net c ctx req = .ok hreq)
    (ht : Client.transport net c hreq = .ok hres) :
    (Client.Do net c ctx req).res = some (newResponse net.toLib (Client.dumped c hres)) ∧
      (Client.Do net c ctx req).err = none := by
  unfold Client.Do Client.dumped
  rw [h]
  simp only [ht]
  cases hd : c.DumpResponse with
  | none => exact ⟨rfl, rfl⟩
  | some dump =>
    simp only
    rcases hx : dump hres true with ⟨r1, x | raw⟩
    · exact ⟨rfl, rfl⟩
    · exact ⟨rfl, rfl⟩

/-- C15: a call of `Client.Do`, with or without an override in the context and whatever its
outcome, leaves the client as it was: its `BaseURL` and its rate snapshot are unchanged, and
a following call whose context carries no override resolves its path against the `BaseURL`
the client had before the first call. -/
theorem Do_keeps_client (net : Net) (c : Client) (ctx : Context) (req : Request) :
    (Client.Do net c ctx req).client.BaseURL = c.BaseURL ∧
    (Client.Do net c ctx req).client.rate = c.rate ∧
    (Client.Do net c ctx req).client.Rate = c.Rate ∧
    (∀ (ctx2 : Context) (req2 : Request), ctx2.requestDetails = none →
      Client.target net (Client.Do net c ctx req).client ctx2 req2 =
        match URL.Parse net c.BaseURL req2.Path with
        | .error err => .error err
        | .ok uri => .ok (uri, ctx2)) := by
  rw [Do_client]
  exact ⟨rfl, rfl, rfl, fun ctx2 req2 h => target_default net c ctx2 req2 h⟩

/-- C15, worked example: after a call through the override `https://proxy.internal/upstream`
the client for `https://api.github.com/` still has that base URL, and it sends a request
without an override to `https://api.github.com/repos`. -/
theorem Do_keeps_client_witness :
    (Client.Do Ref.net (Examples.answering Examples.notFound)
        (Examples.override "https://proxy.internal/upstream")
        { Method := "GET", Path := "repos" }).client.BaseURL = Examples.apiBase ∧
    Client.target Ref.net
        (Client.Do Ref.net (Examples.answering Examples.notFound)
          (Examples.override "https://proxy.internal/upstream")
          { Method := "GET", Path := "repos" }).client {} { Method := "GET", Path := "repos" }
      = .ok ({ Scheme := "https", Host := "api.github.com", Path := "/repos" }, {}) :=
  ⟨(Do_keeps_client Ref.net (Examples.answering Examples.notFound)
      (Examples.override "https://proxy.internal/upstream")
      { Method := "GET", Path := "repos" }).1,
    (Do_keeps_client Ref.net (Examples.answering Examples.notFound)
      (Examples.override "https://proxy.internal/upstream")
      { Method := "GET", Path := "repos" }).2.2.2 {} { Method := "GET", Path := "repos" } rfl⟩

/-- C16: `Client.Do` returns a nil `Response` exactly when it returns an error, and it
returns an error exactly when resolving the path against the base URL of the client or of
the override fails, the URL of the override does not parse, `http.NewRequest` fails, or the
HTTP client returns an error; in the last case the error is that of the HTTP client.  In
every other case, whatever the status code, the error is nil and the `Response` has the
status code, the headers and the body of the HTTP response (as the `DumpResponse` function,
if there is one, leaves it). -/
theorem Do_result (net : Net) (c : Client) (ctx : Context) (req : Request) :
    ((Client.Do net c ctx req).res = none ↔ (Client.Do net c ctx req).err ≠ none) ∧
    ((Client.Do net c ctx req).err ≠ none ↔
      ((∃ e, URL.Parse net c.BaseURL req.Path = .error e) ∨
        (∃ d base e, ctx.requestDetails = some d ∧ d.URL ≠ "" ∧ net.urlParse d.URL = some base ∧
          URL.Parse net (withTrailingSlash base) req.Path = .error e) ∨
        (∃ d, ctx.requestDetails = some d ∧ d.URL ≠ "" ∧ net.urlParse d.URL = none) ∨
        (∃ uri ctx1 e, Client.target net c ctx req = .ok (uri, ctx1) ∧
          net.newRequest req.Method (net.urlString uri) req.Body = .error e) ∨
        (∃ hreq e, Client.outgoing net c ctx req = .ok hreq ∧
          Client.transport net c hreq = .error e))) ∧
    (∀ hreq e, Client.outgoing net c ctx req = .ok hreq →
      Client.transport net c hreq = .error e →
      (Client.Do net c ctx req).res = none ∧ (Client.Do net c ctx req).err = some e) ∧
    (∀ hreq hres, Client.outgoing net c ctx req = .ok hreq →
      Client.transport net c hreq = .ok hres →
      (Client.Do net c ctx req).err = none ∧
      ∃ r, (Client.Do net c ctx req).res = some r ∧
        r.Status = (Client.dumped c hres).StatusCode ∧
        r.Header = (Client.dumped c hres).Header ∧
        r.Body = (Client.dumped c hres).Body ∧
        (c.DumpResponse = none →
          r.Status = hres.StatusCode ∧ r.Header = hres.Header ∧ r.Body = hres.Body)) := by
  have hlast : ∀ hreq hres, Client.outgoing net c ctx req = .ok hreq →
      Client.transport net c hreq = .ok hres →
      (Client.Do net c ctx req).err = none ∧
      ∃ r, (Client.Do net c ctx req).res = some r ∧
        r.Status = (Client.dumped c hres).StatusCode ∧
        r.Header = (Client.dumped c hres).Header ∧
        r.Body = (Client.dumped c hres).Body ∧
        (c.DumpResponse = none →
          r.Status = hres.StatusCode ∧ r.Header = hres.Header ∧ r.Body = hres.Body) := by
    intro hreq hres h ht
    obtain ⟨h1, h2⟩ := Do_of_response net c ctx req hreq hres h ht
    refine ⟨h2, _, h1, rfl, rfl, rfl, ?_⟩
    intro hd
    unfold Client.dumped
    rw [hd]
    exact ⟨rfl, rfl, rfl⟩
  refine ⟨?_, ?_, fun hreq e h ht => Do_of_transport_error net c ctx req hreq e h ht, hlast⟩
  · cases ho : Client.outgoing net c ctx req with
    | error e =>
      obtain ⟨h1, h2⟩ := Do_of_outgoing_error net c ctx req e ho
      rw [h1, h2]
      simp
    | ok hreq =>
      cases ht : Client.transport net c hreq with
      | error e =>
        obtain ⟨h1, h2⟩ := Do_of_transport_error net c ctx req hreq e ho ht
        rw [h1, h2]
        simp
      | ok hres =>
        obtain ⟨h1, h2⟩ := Do_of_response net c ctx req hreq hres ho ht
        rw [h1, h2]
        simp
  · constructor
    · intro herr
      cases ho : Client.outgoing net c ctx req with
      | ok hreq =>
        cases ht : Client.transport net c hreq with
        | error e => exact Or.inr (Or.inr (Or.inr (Or.inr ⟨hreq, e, rfl, ht⟩)))
        | ok hres => exact absurd (Do_of_response net c ctx req hreq hres ho ht).2 herr
      | error e =>
        cases htg : Client.target net c ctx req with
        | ok p =>
          obtain ⟨uri, ctx1⟩ := p
          refine Or.inr (Or.inr (Or.inr (Or.inl ⟨uri, ctx1, ?_⟩)))
          unfold Client.outgoing at ho
          rw [htg] at ho
          simp only at ho
          cases hn : net.newRequest req.Method (net.urlString uri) req.Body with
          | error e1 => exact ⟨e1, rfl, rfl⟩
          | ok h0 => rw [hn] at ho; cases ho
        | error e1 =>
          cases hp : URL.Parse net c.BaseURL req.Path with
          | error e2 => exact Or.inl ⟨e2, rfl⟩
          | ok uri =>
            cases hrd : ctx.requestDetails with
            | none =>
              rw [target_default net c ctx req hrd, hp] at htg
              cases htg
            | some d =>
              unfold Client.target Client.requestDetails at htg
              rw [hp, hrd] at htg
              simp only at htg
              by_cases hu : d.URL = ""
              · simp [hu] at htg
              · simp only [ne_eq, hu, not_false_eq_true, ite_true] at htg
                cases hb : net.urlParse d.URL with
                | none => exact Or.inr (Or.inr (Or.inl ⟨d, rfl, hu, hb⟩))
                | some base =>
                  rw [hb] at htg
                  simp only at htg
                  cases hp2 : URL.Parse net (withTrailingSlash base) req.Path with
                  | error e3 => exact Or.inr (Or.inl ⟨d, base, e3, rfl, hu, hb, hp2⟩)
                  | ok uri2 => rw [hp2] at htg; cases htg
    · intro h
      have hout : ∀ e, Client.target net c ctx req = .error e →
          (Client.Do net c ctx req).err ≠ none := by
        intro e he
        have : Client.outgoing net c ctx req = .error e := by
          unfold Client.outgoing
          rw [he]
        rw [(Do_of_outgoing_error net c ctx req e this).2]
        simp
      rcases h with ⟨e, he⟩ | ⟨d, base, e, hrd, hu, hb, hp2⟩ | ⟨d, hrd, hu, hb⟩ |
          ⟨uri, ctx1, e, htg, hn⟩ | ⟨hreq, e, ho, ht⟩
      · apply hout e
        unfold Client.target
        rw [he]
      · cases hp : URL.Parse net c.BaseURL req.Path with
        | error e2 =>
          apply hout e2
          unfold Client.target
          rw [hp]
        | ok uri =>
          apply hout e
          unfold Client.target Client.requestDetails
          rw [hp, hrd]
          simp only [ne_eq, hu, not_false_eq_true, ite_true, hb, hp2]
      · cases hp : URL.Parse net c.BaseURL req.Path with
        | error e2 =>
          apply hout e2
          unfold Client.target
          rw [hp]
        | ok uri =>
          apply hout (net.urlError d.URL)
          unfold Client.target Client.requestDetails
          rw [hp, hrd]
          simp only [ne_eq, hu, not_false_eq_true, ite_true, hb]
      · have : Client.outgoing net c ctx req = .error e := by
          unfold Client.outgoing
          rw [htg]
          simp only [hn]
        rw [(Do_of_outgoing_error net c ctx req e this).2]
        simp
      · rw [(Do_of_transport_error net c ctx req hreq e ho ht).2]
        simp

/-- C16, worked example: a response with status 404 is returned with a nil error and its
status code, and the error of an HTTP client that refuses the connection is returned as it
is, with a nil `Response`. -/
theorem Do_result_witness :
    ((Client.Do Ref.net (Examples.answering Examples.notFound) {}
        { Method := "GET", Path := "repos" }).err = none ∧
      ∃ r, (Client.Do Ref.net (Examples.answering Examples.notFound) {}
          { Method := "GET", Path := "repos" }).res = some r ∧
        r.Status = 404 ∧ r.Header = Examples.notFound.Header ∧
        r.Body = Examples.notFound.Body) ∧
    ((Client.Do Ref.net Examples.refused {} { Method := "GET", Path := "repos" }).res = none ∧
      (Client.Do Ref.net Examples.refused {} { Method := "GET", Path := "repos" }).err
        = some (.other "connection refused")) :=
  ⟨match (Do_result Ref.net (Examples.answering Examples.notFound) {}
        { Method := "GET", Path := "repos" }).2.2.2
        { Method := "GET"
          URL := { Scheme := "https", Host := "api.github.com", Path := "/repos" }
          Host := "api.github.com" }
        Examples.notFound rfl rfl with
    | ⟨h1, r, h2, h3, h4, h5, _⟩ => ⟨h1, r, h2, h3, h4, h5⟩,
    (Do_result Ref.net Examples.refused {} { Method := "GET", Path := "repos" }).2.2.1
      { Method := "GET"
        URL := { Scheme := "https", Host := "api.github.com", Path := "/repos" }
        Host := "api.github.com" }
      (.other "connection refused") rfl rfl⟩

end scm

namespace scm

/-! ## The rate snapshot -/

theorem SetRate_free (c : scm.Client) (r : Rate) (h : c.mu = false) :
    c.SetRate r = .done { c with rate := r } := by
  obtain ⟨mu, cl, b, d, r0⟩ := c
  simp only at h
  subst h
  rfl

theorem Rate_free (c : scm.Client) (h : c.mu = false) : c.Rate = .done (c, c.rate) := by
  obtain ⟨mu, cl, b, d, r0⟩ := c
  simp only at h
  subst h
  rfl

theorem setRates_append (c : scm.Client) (rs : List Rate) (r : Rate) (h : c.mu = false) :
    c.setRates (rs ++ [r]) = .done { c with rate := r } := by
  induction rs generalizing c with
  | nil =>
    show Client.setRates c (r :: []) = _
    rw [Client.setRates, SetRate_free c r h]
    rfl
  | cons r1 rs ih =>
    show Client.setRates c (r1 :: (rs ++ [r])) = _
    rw [Client.setRates, SetRate_free c r1 h]
    exact ih { c with rate := r1 } h

/-- C17: on a client whose mutex is free, any sequence of `SetRate` calls ending with
`SetRate(r)` returns and leaves a client whose `Rate()` returns exactly `r` and leaves the
client as it is, so that every further read returns `r` again; a client built from its
exported fields only, on which `SetRate` was never called, returns the zero `Rate`. -/
theorem Rate_latest (c : scm.Client) (rs : List Rate) (r : Rate) (hmu : c.mu = false) :
    (∃ c1, c.setRates (rs ++ [r]) = .done c1 ∧
      c1.Rate = .done (c1, r) ∧
      c1.snapshot = some r ∧
      (r.Limit, r.Remaining, r.Reset) = (c1.rate.Limit, c1.rate.Remaining, c1.rate.Reset)) ∧
    (∀ (cl : Option HTTPClient) (b : URL)
        (d : Option (HTTPResponse → Bool → HTTPResponse × Except Error (List Byte))),
      Client.snapshot { Client := cl, BaseURL := b, DumpResponse := d } = some {}) := by
  refine ⟨⟨{ c with rate := r }, setRates_append c rs r hmu, ?_, ?_, rfl⟩, ?_⟩
  · exact Rate_free { c with rate := r } hmu
  · unfold Client.snapshot
    rw [Rate_free { c with rate := r } hmu]
  · intro cl b d
    rfl

/-- C17, worked example: after `SetRate` with 4999 and then with 4998 remaining requests on a
fresh client, the snapshot is the second rate. -/
theorem Rate_latest_witness :
    ({} : scm.Client).mu = false ∧
    (∃ c1, Client.setRates {} ([{ Limit := 5000, Remaining := 4999, Reset := 1700000000 }] ++
          [{ Limit := 5000, Remaining := 4998, Reset := 1700000060 }]) = .done c1 ∧
      c1.Rate = .done (c1, { Limit := 5000, Remaining := 4998, Reset := 1700000060 }) ∧
      c1.snapshot = some { Limit := 5000, Remaining := 4998, Reset := 1700000060 }) :=
  ⟨rfl,
    match (Rate_latest {} [{ Limit := 5000, Remaining := 4999, Reset := 1700000000 }]
      { Limit := 5000, Remaining := 4998, Reset := 1700000060 } rfl).1 with
    | ⟨c1, h1, h2, h3, _⟩ => ⟨c1, h1, h2, h3⟩⟩

end scm

/-! ## The GitHub wrapper -/

theorem Atoi_headerInt (h : Header) (key : String) : (Atoi (h.Get key)).1 = headerInt h key :=
  Atoi_intOfText _

theorem clampInt_of_range (n : Int) (hlo : minInt ≤ n) (hhi : n ≤ maxInt) : clampInt n = n := by
  unfold clampInt
  rw [if_neg (not_lt.mpr hhi), if_neg (not_lt.mpr hlo)]

namespace github

theorem rateOf_headerInt (h : Header) :
    rateOf h =
      { Limit := headerInt h "X-RateLimit-Limit"
        Remaining := headerInt h "X-RateLimit-Remaining"
        Reset := headerInt h "X-RateLimit-Reset" } := by
  unfold rateOf ParseInt64
  rw [Atoi_headerInt, Atoi_headerInt, Atoi_headerInt]

/-- C19 (amended): when `Client.Do` returns the response `r0` without an error and the mutex of the
client is free, `wrapper.do` returns, whatever the status code, a `Response` whose `Rate` has
for `Limit`, `Remaining` and `Reset` the values `strconv.Atoi` and `strconv.ParseInt` return,
with the error discarded, for the headers `X-RateLimit-Limit`, `X-RateLimit-Remaining` and
`X-RateLimit-Reset`, and the snapshot `Rate()` returns on the client after the call is that
same triple.  That value is the decimal integer a header holds when it lies in the range of
`int64` and the nearest bound of that range when it does not; it is `0` when the header is
missing; and for a header that is not an optionally signed decimal number it is `0` when
the digits after the sign, up to the first byte that is not a digit, stay within `uint64`,
and the largest or, after a `-`, the smallest `int64` when they exceed it. -/
theorem do_rate {α : Type} (net : Net) (c : scm.Client) (ctx : scm.Context)
    (method path : String) (input : Option (List Byte)) (out : Option α)
    (decode : Body → α → α × Option scm.Error) (r0 : scm.Response)
    (hmu : c.mu = false)
    (herr : (c.Do net ctx (request method path input)).err = none)
    (hres : (c.Do net ctx (request method path input)).res = some r0) :
    (∃ result r, wrapper.do net c ctx method path input out decode = .done result ∧
      result.res = some r ∧
      r.Status = r0.Status ∧
      r.Rate =
        { Limit := (Atoi (r0.Header.Get "X-RateLimit-Limit")).1
          Remaining := (Atoi (r0.Header.Get "X-RateLimit-Remaining")).1
          Reset := (ParseInt64 (r0.Header.Get "X-RateLimit-Reset")).1 } ∧
      r.Rate =
        { Limit := headerInt r0.Header "X-RateLimit-Limit"
          Remaining := headerInt r0.Header "X-RateLimit-Remaining"
          Reset := headerInt r0.Header "X-RateLimit-Reset" } ∧
      result.client.snapshot = some r.Rate) ∧
    (∀ key : String,
      (∀ n : Int, decimalValue (r0.Header.Get key) = some n → minInt ≤ n → n ≤ maxInt →
        headerInt r0.Header key = n) ∧
      (∀ n : Int, decimalValue (r0.Header.Get key) = some n → maxInt < n →
        headerInt r0.Header key = maxInt) ∧
      (∀ n : Int, decimalValue (r0.Header.Get key) = some n → n < minInt →
        headerInt r0.Header key = minInt) ∧
      (r0.Header.Get key = "" → headerInt r0.Header key = 0) ∧
      (decimalValue (r0.Header.Get key) = none →
        digitsNat (leadingDigits (r0.Header.Get key)) ≤ maxUint64 →
        headerInt r0.Header key = 0) ∧
      (decimalValue (r0.Header.Get key) = none →
        maxUint64 < digitsNat (leadingDigits (r0.Header.Get key)) →
        headerInt r0.Header key
          = if (r0.Header.Get key).toList.head? = some '-' then minInt else maxInt)) := by
  constructor
  · have hc : (c.Do net ctx (request method path input)).client = c := scm.Do_client _ _ _ _
    have hset : ∀ rate : scm.Rate, (c.Do net ctx (request method path input)).client.SetRate rate
        = .done { c with rate := rate } := by
      intro rate
      rw [hc]
      exact scm.SetRate_free c rate hmu
    have hsnap : ∀ rate : scm.Rate,
        scm.Client.snapshot { c with rate := rate } = some rate := by
      intro rate
      unfold scm.Client.snapshot
      rw [scm.Rate_free { c with rate := rate } hmu]
    unfold wrapper.do
    simp only [herr, hres, hset]
    by_cases hs : r0.Status > 300
    · rw [if_pos hs]
      exact ⟨_, _, rfl, rfl, rfl, rfl, rateOf_headerInt _, hsnap _⟩
    · rw [if_neg hs]
      cases out with
      | none => exact ⟨_, _, rfl, rfl, rfl, rfl, rateOf_headerInt _, hsnap _⟩
      | some v => exact ⟨_, _, rfl, rfl, rfl, rfl, rateOf_headerInt _, hsnap _⟩
  · intro key
    refine ⟨?_, ?_, ?_, ?_, ?_, ?_⟩
    · intro n hn hlo hhi
      rw [← Atoi_headerInt, Atoi_clamp _ n hn]
      exact clampInt_of_range n hlo hhi
    · intro n hn hhi
      rw [← Atoi_headerInt, Atoi_clamp _ n hn]
      unfold clampInt
      rw [if_pos hhi]
    · intro n hn hlo
      have h2 : ¬ maxInt < n := by
        have : minInt ≤ maxInt := by decide
        omega
      rw [← Atoi_headerInt, Atoi_clamp _ n hn]
      unfold clampInt
      rw [if_neg h2, if_pos hlo]
    · intro he
      unfold headerInt
      rw [he]
      rfl
    · intro hn hrun
      rw [← Atoi_headerInt]
      exact Atoi_syntax _ hn hrun
    · intro hn hrun
      rw [← Atoi_headerInt]
      exact Atoi_overflow _ hn hrun

end github

namespace github

/-- C19, worked example: for a response with status 404 and the headers
`X-RateLimit-Limit: 5000`, `X-RateLimit-Remaining: 4999` and `X-RateLimit-Reset: 1700000000`
the returned `Rate` and the snapshot of the client are `(5000, 4999, 1700000000)`; for a
response with the headers `99999999999999999999x`, `abc` and `-99999999999999999999x` they
are the largest `int64`, `0` and the smallest `int64`. -/
theorem do_rate_witness :
    (Examples.answering Examples.notFound).mu = false ∧
    ((Examples.answering Examples.notFound).Do Ref.net {} (request "GET" "user" none)).err
      = none ∧
    ((Examples.answering Examples.notFound).Do Ref.net {} (request "GET" "user" none)).res
      = some (scm.newResponse Ref.lib Examples.notFound) ∧
    (∃ result r,
      wrapper.do Ref.net (Examples.answering Examples.notFound) {} "GET" "user" none
        (none : Option Unit) (fun _ v => (v, none)) = .done result ∧
      result.res = some r ∧
      r.Status = 404 ∧
      r.Rate = { Limit := 5000, Remaining := 4999, Reset := 1700000000 } ∧
      result.client.snapshot = some r.Rate) ∧
    (∃ result r,
      wrapper.do Ref.net (Examples.answering Examples.garbledLimit) {} "GET" "user" none
        (none : Option Unit) (fun _ v => (v, none)) = .done result ∧
      result.res = some r ∧
      r.Status = 200 ∧
      r.Rate = { Limit := 9223372036854775807, Remaining := 0, Reset := -9223372036854775808 } ∧
      result.client.snapshot = some r.Rate) :=
  ⟨rfl, rfl, rfl,
    match (do_rate Ref.net (Examples.answering Examples.notFound) {} "GET" "user" none
      (none : Option Unit) (fun _ v => (v, none)) (scm.newResponse Ref.lib Examples.notFound)
      rfl rfl rfl).1 with
    | ⟨result, r, h1, h2, h3, _, h5, h6⟩ => ⟨result, r, h1, h2, h3, h5, h6⟩,
    match (do_rate Ref.net (Examples.answering Examples.garbledLimit) {} "GET" "user" none
      (none : Option Unit) (fun _ v => (v, none))
      (scm.newResponse Ref.lib Examples.garbledLimit) rfl rfl rfl).1 with
    | ⟨result, r, h1, h2, h3, _, h5, h6⟩ => ⟨result, r, h1, h2, h3, h5, h6⟩⟩

/-- C19 (as stated) fails: for a response whose `X-RateLimit-Limit` header holds the integer
9223372036854775808, the returned `Limit` and the `Limit` of the snapshot of the client are
9223372036854775807, which is neither the integer of the header nor 0. -/
theorem do_rate_counterexample :
    ∃ result r,
      wrapper.do Ref.net (Examples.answering Examples.hugeLimit) {} "GET" "user" none
        (none : Option Unit) (fun _ v => (v, none)) = .done result ∧
      result.res = some r ∧
      r.Header.Get "X-RateLimit-Limit" = "9223372036854775808" ∧
      decimalValue (r.Header.Get "X-RateLimit-Limit") = some 9223372036854775808 ∧
      r.Rate.Limit = 9223372036854775807 ∧
      result.client.snapshot
        = some { Limit := 9223372036854775807, Remaining := 4999, Reset := 1700000000 } ∧
      r.Rate.Limit ≠ 9223372036854775808 ∧
      r.Rate.Limit ≠ 0 :=
  ⟨_, _, rfl, rfl, by decide, by decide, by decide, by decide, by decide, by decide⟩

end github

namespace gitea

/-! ## The Gitea apps service -/

/-- C20: each of the twelve operations of the Gitea apps service returns, for every input,
nil data, a nil `Response` and the error `ErrNotSupported`; and `ErrNotSupported` is neither
`ErrNotFound` nor `ErrNotAuthorized`. -/
theorem appsService_not_supported (s : appsService) (ctx : scm.Context)
    (appSlug org owner repo user : String) (id : Int) (opts : scm.ListOptions)
    (tokenOpts : Option scm.InstallationTokenOptions) :
    s.Get ctx appSlug = (none, none, some scm.Error.ErrNotSupported) ∧
    s.ListInstallations ctx opts = (none, none, some scm.Error.ErrNotSupported) ∧
    s.GetInstallation ctx id = (none, none, some scm.Error.ErrNotSupported) ∧
    s.ListUserInstallations ctx opts = (none, none, some scm.Error.ErrNotSupported) ∧
    s.SuspendInstallation ctx id = (none, some scm.Error.ErrNotSupported) ∧
    s.UnsuspendInstallation ctx id = (none, some scm.Error.ErrNotSupported) ∧
    s.DeleteInstallation ctx id = (none, some scm.Error.ErrNotSupported) ∧
    s.CreateInstallationToken ctx id tokenOpts = (none, none, some scm.Error.ErrNotSupported) ∧
    s.FindOrganizationInstallation ctx org = (none, none, some scm.Error.ErrNotSupported) ∧
    s.FindRepositoryInstallation ctx owner repo = (none, none, some scm.Error.ErrNotSupported) ∧
    s.FindRepositoryInstallationByID ctx id = (none, none, some scm.Error.ErrNotSupported) ∧
    s.FindUserInstallation ctx user = (none, none, some scm.Error.ErrNotSupported) ∧
    scm.Error.ErrNotSupported ≠ scm.Error.ErrNotFound ∧
    scm.Error.ErrNotSupported ≠ scm.Error.ErrNotAuthorized :=
  ⟨rfl, rfl, rfl, rfl, rfl, rfl, rfl, rfl, rfl, rfl, rfl, rfl, by decide, by decide⟩

end gitea

namespace azure

/-! ## The parser as a function of the body -/

theorem Parse_created (lib : Lib) (req : Request) (fn : Option scm.SecretFunc)
    (data : List Byte) (m : List (String × JSON))
    (hread : readAllLimit req.Body 10000000 = .ok data)
    (hmap : unmarshalMap lib data = some m)
    (hty : mapIndex m "eventType" = some (.str "git.pullrequest.created")) :
    Parse lib req fn =
      match unmarshalCreatePullRequestHook lib data with
      | none => .done (none, some .unmarshal)
      | some src =>
        .done (some (.pullRequest
          { convertCreatePullRequestHook src with Action := .ActionOpen }), none) := by
  have hty2 : assertString (mapIndex m "eventType") = some "git.pullrequest.created" := by
    rw [hty]; rfl
  cases hd : unmarshalCreatePullRequestHook lib data <;> simp [Parse, hread, hmap, hty2, hd]

theorem Parse_updated (lib : Lib) (req : Request) (fn : Option scm.SecretFunc)
    (data : List Byte) (m : List (String × JSON))
    (hread : readAllLimit req.Body 10000000 = .ok data)
    (hmap : unmarshalMap lib data = some m)
    (hty : mapIndex m "eventType" = some (.str "git.pullrequest.updated")) :
    Parse lib req fn =
      match unmarshalUpdatePullRequestHook lib data with
      | none => .done (none, some .unmarshal)
      | some src =>
        .done (some (.pullRequest
          { convertUpdatePullRequestHook src with Action := .ActionUpdate }), none) := by
  have hty2 : assertString (mapIndex m "eventType") = some "git.pullrequest.updated" := by
    rw [hty]; rfl
  cases hd : unmarshalUpdatePullRequestHook lib data <;> simp [Parse, hread, hmap, hty2, hd]

theorem Parse_merged (lib : Lib) (req : Request) (fn : Option scm.SecretFunc)
    (data : List Byte) (m : List (String × JSON))
    (hread : readAllLimit req.Body 10000000 = .ok data)
    (hmap : unmarshalMap lib data = some m)
    (hty : mapIndex m "eventType" = some (.str "git.pullrequest.merged")) :
    Parse lib req fn =
      match unmarshalMergePullRequestHook lib data with
      | none => .done (none, some .unmarshal)
      | some src =>
        .done (some (.pullRequest
          { convertMergePullRequestHook src with Action := .ActionMerge }), none) := by
  have hty2 : assertString (mapIndex m "eventType") = some "git.pullrequest.merged" := by
    rw [hty]; rfl
  cases hd : unmarshalMergePullRequestHook lib data <;> simp [Parse, hread, hmap, hty2, hd]

/-- C26: `Parse` is a function of the request body alone.  For every two requests with the
same body, whatever their headers and whatever secret functions are passed (none, or one
that fails, included), `Parse` returns the same result; it is the result for the request
that has the body and nothing else, parsed without a secret function, so no result of a
secret function enters it. -/
theorem Parse_body_only (lib : Lib) (req1 req2 : Request) (fn1 fn2 : Option scm.SecretFunc)
    (hbody : req1.Body = req2.Body) :
    Parse lib req1 fn1 = Parse lib req2 fn2 ∧
    Parse lib req1 fn1 = Parse lib { Body := req1.Body } none := by
  constructor
  · unfold Parse
    rw [hbody]
  · rfl

/-- C26, at the push payload of the spec's scenario: sent with a signature header and a
secret function, and sent bare without one, it gives the same Push event. -/
theorem Parse_body_only_witness :
    Examples.signedPush.Body = (Examples.post Examples.pushBody).Body ∧
    Parse Ref.lib Examples.signedPush (some Examples.resolver)
      = Parse Ref.lib (Examples.post Examples.pushBody) none ∧
    Parse Ref.lib Examples.signedPush (some fun _ => .error .ErrNotAuthorized)
      = Parse Ref.lib (Examples.post Examples.pushBody) none :=
  ⟨rfl,
    (Parse_body_only Ref.lib Examples.signedPush (Examples.post Examples.pushBody)
      (some Examples.resolver) none rfl).1,
    (Parse_body_only Ref.lib Examples.signedPush (Examples.post Examples.pushBody)
      (some fun _ => .error .ErrNotAuthorized) none rfl).1⟩

/-! ## The three pull-request converters -/

theorem convertCreatePullRequestHook_fields (src : createPullRequestHook) :
    convertCreatePullRequestHook src = pullRequestOf src.fields := rfl

theorem convertUpdatePullRequestHook_fields (src : updatePullRequestHook) :
    convertUpdatePullRequestHook src = pullRequestOf src.fields := rfl

theorem convertMergePullRequestHook_fields (src : mergePullRequestHook) :
    convertMergePullRequestHook src = pullRequestOf src.fields := rfl

/-- C27: the three pull-request converters are the same mapping.  For a created, an updated
and a merged payload with equal resource fields, the three converters return the same
`PullRequestHook`, whose `Action` is unset, whose `Sender` is the author of the pull request
and whose `Ref` is its source; and when `Parse` decodes three bodies to these payloads
under the three event types, the events it returns are that value with the actions open,
update and merge. -/
theorem convert_pullRequest_same (a : createPullRequestHook) (b : updatePullRequestHook)
    (c : mergePullRequestHook) (hab : a.fields = b.fields) (hbc : b.fields = c.fields) :
    convertCreatePullRequestHook a = convertUpdatePullRequestHook b ∧
    convertUpdatePullRequestHook b = convertMergePullRequestHook c ∧
    (convertCreatePullRequestHook a).Action = .ActionUnknown ∧
    (convertCreatePullRequestHook a).Sender = (convertCreatePullRequestHook a).PullRequest.Author ∧
    (convertCreatePullRequestHook a).PullRequest.Ref
      = (convertCreatePullRequestHook a).PullRequest.Source ∧
    (∀ (lib : Lib) (r1 r2 r3 : Request) (fn : Option scm.SecretFunc)
        (d1 d2 d3 : List Byte) (m1 m2 m3 : List (String × JSON)),
      readAllLimit r1.Body 10000000 = .ok d1 → unmarshalMap lib d1 = some m1 →
      mapIndex m1 "eventType" = some (.str "git.pullrequest.created") →
      unmarshalCreatePullRequestHook lib d1 = some a →
      readAllLimit r2.Body 10000000 = .ok d2 → unmarshalMap lib d2 = some m2 →
      mapIndex m2 "eventType" = some (.str "git.pullrequest.updated") →
      unmarshalUpdatePullRequestHook lib d2 = some b →
      readAllLimit r3.Body 10000000 = .ok d3 → unmarshalMap lib d3 = some m3 →
      mapIndex m3 "eventType" = some (.str "git.pullrequest.merged") →
      unmarshalMergePullRequestHook lib d3 = some c →
      Parse lib r1 fn = .done (some (.pullRequest
        { convertCreatePullRequestHook a with Action := .ActionOpen }), none) ∧
      Parse lib r2 fn = .done (some (.pullRequest
        { convertCreatePullRequestHook a with Action := .ActionUpdate }), none) ∧
      Parse lib r3 fn = .done (some (.pullRequest
        { convertCreatePullRequestHook a with Action := .ActionMerge }), none)) := by
  have e1 : convertCreatePullRequestHook a = convertUpdatePullRequestHook b := by
    rw [convertCreatePullRequestHook_fields, convertUpdatePullRequestHook_fields, hab]
  have e2 : convertUpdatePullRequestHook b = convertMergePullRequestHook c := by
    rw [convertUpdatePullRequestHook_fields, convertMergePullRequestHook_fields, hbc]
  refine ⟨e1, e2, rfl, rfl, rfl, ?_⟩
  intro lib r1 r2 r3 fn d1 d2 d3 m1 m2 m3 hr1 hm1 ht1 hu1 hr2 hm2 ht2 hu2 hr3 hm3 ht3 hu3
  refine ⟨?_, ?_, ?_⟩
  · rw [Parse_created lib r1 fn d1 m1 hr1 hm1 ht1, hu1]
  · rw [Parse_updated lib r2 fn d2 m2 hr2 hm2 ht2, hu2, e1]
  · rw [Parse_merged lib r3 fn d3 m3 hr3 hm3 ht3, hu3, e1, e2]

/-- C27, at one resource sent under the three event types: the three payloads have equal
fields, and the three events `Parse` returns are one event with the actions open, update and
merge. -/
theorem convert_pullRequest_same_witness :
    (Examples.createHookOf (Examples.pullRequestBody "git.pullrequest.created")).fields
      = (Examples.updateHookOf (Examples.pullRequestBody "git.pullrequest.updated")).fields ∧
    (Examples.updateHookOf (Examples.pullRequestBody "git.pullrequest.updated")).fields
      = (Examples.mergeHookOf (Examples.pullRequestBody "git.pullrequest.merged")).fields ∧
    convertCreatePullRequestHook
        (Examples.createHookOf (Examples.pullRequestBody "git.pullrequest.created"))
      = convertUpdatePullRequestHook
        (Examples.updateHookOf (Examples.pullRequestBody "git.pullrequest.updated")) ∧
    convertUpdatePullRequestHook
        (Examples.updateHookOf (Examples.pullRequestBody "git.pullrequest.updated"))
      = convertMergePullRequestHook
        (Examples.mergeHookOf (Examples.pullRequestBody "git.pullrequest.merged")) ∧
    convertCreatePullRequestHook
        (Examples.createHookOf (Examples.pullRequestBody "git.pullrequest.created"))
      = Examples.pullRequestEvent .ActionUnknown ∧
    Parse Ref.lib (Examples.post (Examples.pullRequestBody "git.pullrequest.created")) none
      = .done (some (.pullRequest (Examples.pullRequestEvent .ActionOpen)), none) ∧
    Parse Ref.lib (Examples.post (Examples.pullRequestBody "git.pullrequest.updated")) none
      = .done (some (.pullRequest (Examples.pullRequestEvent .ActionUpdate)), none) ∧
    Parse Ref.lib (Examples.post (Examples.pullRequestBody "git.pullrequest.merged")) none
      = .done (some (.pullRequest (Examples.pullRequestEvent .ActionMerge)), none) :=
  ⟨rfl, rfl,
    (convert_pullRequest_same
      (Examples.createHookOf (Examples.pullRequestBody "git.pullrequest.created"))
      (Examples.updateHookOf (Examples.pullRequestBody "git.pullrequest.updated"))
      (Examples.mergeHookOf (Examples.pullRequestBody "git.pullrequest.merged")) rfl rfl).1,
    (convert_pullRequest_same
      (Examples.createHookOf (Examples.pullRequestBody "git.pullrequest.created"))
      (Examples.updateHookOf (Examples.pullRequestBody "git.pullrequest.updated"))
      (Examples.mergeHookOf (Examples.pullRequestBody "git.pullrequest.merged")) rfl rfl).2.1,
    by decide,
    (convert_pullRequest_same
      (Examples.createHookOf (Examples.pullRequestBody "git.pullrequest.created"))
      (Examples.updateHookOf (Examples.pullRequestBody "git.pullrequest.updated"))
      (Examples.mergeHookOf (Examples.pullRequestBody "git.pullrequest.merged")) rfl
      rfl).2.2.2.2.2 Ref.lib
      (Examples.post (Examples.pullRequestBody "git.pullrequest.created"))
      (Examples.post (Examples.pullRequestBody "git.pullrequest.updated"))
      (Examples.post (Examples.pullRequestBody "git.pullrequest.merged")) none
      (bytesOf (Examples.pullRequestBody "git.pullrequest.created"))
      (bytesOf (Examples.pullRequestBody "git.pullrequest.updated"))
      (bytesOf (Examples.pullRequestBody "git.pullrequest.merged"))
      (Examples.membersOf (Examples.pullRequestBody "git.pullrequest.created"))
      (Examples.membersOf (Examples.pullRequestBody "git.pullrequest.updated"))
      (Examples.membersOf (Examples.pullRequestBody "git.pullrequest.merged"))
      (by rfl) (by rfl) (by rfl) (by rfl) (by rfl) (by rfl) (by rfl) (by rfl) (by rfl) (by rfl)
      (by rfl) (by rfl)⟩

end azure

namespace azure

/-! ## The repository of an event -/

/-- C28: the repository of Azure events.  Each of the three pull-request converters gives
the canonical `Repo` the `ID` and the `Name` of the payload repository's `id`, the
`Namespace` of its `name` and the `Link` of its `url`, and the pull-request events of
`Parse` carry that `Repo`; whenever `convertPushHook` returns, the `Repo` has the `ID` of
the repository's `id`, the `Name` of its `name`, the `Clone` of its `url` and an empty
`Namespace`, and the push events of `Parse` carry that `Repo`.  So one repository object
whose `id` differs from its `name` gives different `Repo.Name` values in a push and in a
pull-request event. -/
theorem Parse_repo_mapping (lib : Lib) :
    (∀ f : pullRequestFields,
      (pullRequestOf f).Repo =
        { ID := f.Repository.ID, Name := f.Repository.ID, Namespace := f.Repository.Name,
          Link := f.Repository.URL }) ∧
    (∀ a : createPullRequestHook,
      (convertCreatePullRequestHook a).Repo = (pullRequestOf a.fields).Repo) ∧
    (∀ b : updatePullRequestHook,
      (convertUpdatePullRequestHook b).Repo = (pullRequestOf b.fields).Repo) ∧
    (∀ c : mergePullRequestHook,
      (convertMergePullRequestHook c).Repo = (pullRequestOf c.fields).Repo) ∧
    (∀ (src : pushHook) (dst : scm.PushHook), convertPushHook src = .done dst →
      dst.Repo =
        { ID := src.Resource.Repository.ID, Name := src.Resource.Repository.Name,
          Clone := src.Resource.Repository.URL } ∧
      dst.Repo.Namespace = "") ∧
    (∀ (req : Request) (fn : Option scm.SecretFunc) (data : List Byte)
        (m : List (String × JSON)) (t : String) (hook : scm.Webhook),
      readAllLimit req.Body 10000000 = .ok data → unmarshalMap lib data = some m →
      mapIndex m "eventType" = some (.str t) → Parse lib req fn = .done (some hook, none) →
      (t = "git.pullrequest.created" → ∃ a h, unmarshalCreatePullRequestHook lib data = some a ∧
        hook = .pullRequest h ∧ h.Repo = (pullRequestOf a.fields).Repo) ∧
      (t = "git.pullrequest.updated" → ∃ b h, unmarshalUpdatePullRequestHook lib data = some b ∧
        hook = .pullRequest h ∧ h.Repo = (pullRequestOf b.fields).Repo) ∧
      (t = "git.pullrequest.merged" → ∃ c h, unmarshalMergePullRequestHook lib data = some c ∧
        hook = .pullRequest h ∧ h.Repo = (pullRequestOf c.fields).Repo) ∧
      (t = "git.push" → ∃ src h, unmarshalPushHook lib data = some src ∧ hook = .push h ∧
        h.Repo =
          { ID := src.Resource.Repository.ID, Name := src.Resource.Repository.Name,
            Clone := src.Resource.Repository.URL })) ∧
    (∀ (a : createPullRequestHook) (src : pushHook) (dst : scm.PushHook),
      a.Resource.Repository.ID = src.Resource.Repository.ID →
      a.Resource.Repository.Name = src.Resource.Repository.Name →
      convertPushHook src = .done dst →
      src.Resource.Repository.ID ≠ src.Resource.Repository.Name →
      (convertCreatePullRequestHook a).Repo.Name ≠ dst.Repo.Name) := by
  have hpush : ∀ (src : pushHook) (dst : scm.PushHook), convertPushHook src = .done dst →
      dst.Repo =
        { ID := src.Resource.Repository.ID, Name := src.Resource.Repository.Name,
          Clone := src.Resource.Repository.URL } := by
    intro src dst h
    cases hrefs : src.Resource.RefUpdates with
    | nil => rw [convertPushHook_nil src hrefs] at h; cases h
    | cons r rs => rw [convertPushHook_cons src r rs hrefs] at h; cases h; rfl
  refine ⟨fun _ => rfl, fun _ => rfl, fun _ => rfl, fun _ => rfl, ?_, ?_, ?_⟩
  · intro src dst h
    have := hpush src dst h
    exact ⟨this, by rw [this]⟩
  · intro req fn data m t hook hread hmap hty hok
    refine ⟨?_, ?_, ?_, ?_⟩
    · intro ht
      subst ht
      rw [Parse_created lib req fn data m hread hmap hty] at hok
      cases hd : unmarshalCreatePullRequestHook lib data with
      | none => rw [hd] at hok; cases hok
      | some a =>
        rw [hd] at hok
        cases hok
        exact ⟨a, _, rfl, rfl, rfl⟩
    · intro ht
      subst ht
      rw [Parse_updated lib req fn data m hread hmap hty] at hok
      cases hd : unmarshalUpdatePullRequestHook lib data with
      | none => rw [hd] at hok; cases hok
      | some a =>
        rw [hd] at hok
        cases hok
        exact ⟨a, _, rfl, rfl, rfl⟩
    · intro ht
      subst ht
      rw [Parse_merged lib req fn data m hread hmap hty] at hok
      cases hd : unmarshalMergePullRequestHook lib data with
      | none => rw [hd] at hok; cases hok
      | some a =>
        rw [hd] at hok
        cases hok
        exact ⟨a, _, rfl, rfl, rfl⟩
    · intro ht
      subst ht
      rw [Parse_push lib req fn data m hread hmap hty] at hok
      cases hd : unmarshalPushHook lib data with
      | none => rw [hd] at hok; cases hok
      | some src =>
        rw [hd] at hok
        have hok2 : (match convertPushHook src with
            | .crash p => .crash p
            | .done dst => .done (some (scm.Webhook.push dst), none) : Run Result)
            = .done (some hook, none) := hok
        cases hc : convertPushHook src with
        | crash p => rw [hc] at hok2; cases hok2
        | done dst =>
          rw [hc] at hok2
          cases hok2
          exact ⟨src, dst, rfl, rfl, hpush src dst hc⟩
  · intro a src dst hid hname h hne
    rw [hpush src dst h]
    show a.Resource.Repository.ID ≠ src.Resource.Repository.Name
    rw [hid]
    exact hne

/-- C28, at the spec's payloads: the repository `{id: repo-1, name: demo}` is
`Repo{ID: repo-1, Name: demo, Clone: url}` in the push event and
`Repo{ID: repo-1, Name: repo-1, Namespace: demo, Link: url}` in the pull-request event. -/
theorem Parse_repo_mapping_witness :
    Parse Ref.lib (Examples.post Examples.pushBody) none
      = .done (some (.push Examples.pushEvent), none) ∧
    Examples.pushEvent.Repo
      = { ID := "repo-1", Name := "demo", Clone := "https://dev.example.com/r/demo" } ∧
    (∃ a h, unmarshalCreatePullRequestHook Ref.lib
          (bytesOf (Examples.pullRequestBody "git.pullrequest.created")) = some a ∧
      scm.Webhook.pullRequest (Examples.pullRequestEvent .ActionOpen) = .pullRequest h ∧
      h.Repo = (pullRequestOf a.fields).Repo) ∧
    (Examples.pullRequestEvent .ActionOpen).Repo
      = { ID := "repo-1", Name := "repo-1", Namespace := "demo",
          Link := "https://dev.example.com/r/demo" } :=
  ⟨by decide, by decide,
    ((Parse_repo_mapping Ref.lib).2.2.2.2.2.1
      (Examples.post (Examples.pullRequestBody "git.pullrequest.created")) none
      (bytesOf (Examples.pullRequestBody "git.pullrequest.created"))
      (Examples.membersOf (Examples.pullRequestBody "git.pullrequest.created"))
      "git.pullrequest.created" (.pullRequest (Examples.pullRequestEvent .ActionOpen))
      (by rfl) (by rfl) (by rfl) (by decide)).1 rfl,
    by decide⟩

end azure

namespace github

theorem do_of_error {α : Type} (net : Net) (c : scm.Client) (ctx : scm.Context)
    (method path : String) (input : Option (List Byte)) (out : Option α)
    (decode : Body → α → α × Option scm.Error) (e : scm.Error)
    (herr : (c.Do net ctx (request method path input)).err = some e) :
    ∃ result, wrapper.do net c ctx method path input out decode = .done result ∧
      result.res = none ∧ result.err = some e ∧ result.out = out := by
  unfold wrapper.do
  simp only [herr]
  exact ⟨_, rfl, rfl, rfl, rfl⟩

theorem do_of_response {α : Type} (net : Net) (c : scm.Client) (ctx : scm.Context)
    (method path : String) (input : Option (List Byte)) (out : Option α)
    (decode : Body → α → α × Option scm.Error) (r0 : scm.Response)
    (hmu : c.mu = false)
    (herr : (c.Do net ctx (request method path input)).err = none)
    (hres : (c.Do net ctx (request method path input)).res = some r0) :
    wrapper.do net c ctx method path input out decode =
      .done
        { client := { c with rate := rateOf r0.Header }
          res := some { r0 with ID := r0.Header.Get "X-GitHub-Request-Id", Rate := rateOf r0.Header }
          err :=
            if r0.Status > 300 then some (.github (errorMessage (net.decodeFirst r0.Body)))
            else
              match out with
              | none => none
              | some v => (decode r0.Body v).2
          out :=
            if r0.Status > 300 then out
            else
              match out with
              | none => none
              | some v => some (decode r0.Body v).1
          stdout := (c.Do net ctx (request method path input)).stdout } := by
  have hc : (c.Do net ctx (request method path input)).client = c := scm.Do_client _ _ _ _
  have hset : ∀ rate : scm.Rate, (c.Do net ctx (request method path input)).client.SetRate rate
      = .done { c with rate := rate } := by
    intro rate
    rw [hc]
    exact scm.SetRate_free c rate hmu
  unfold wrapper.do
  simp only [herr, hres, hset]
  by_cases hs : r0.Status > 300
  · rw [if_pos hs, if_pos hs, if_pos hs]
  · rw [if_neg hs, if_neg hs, if_neg hs]
    cases out <;> rfl

end github

/-! ## The proxy transport -/

namespace proxy

/-- C24: for every base `RoundTripper`, the nil interface included, `NewTransport(base, "")`
returns `base` itself with a nil error; and for every non-empty `proxyURL` that `url.Parse`
rejects it returns the nil interface and the error of `url.Parse`. -/
theorem NewTransport_empty_or_invalid (net : Net) (base : RoundTripper) :
    NewTransport net base "" = (base, none) ∧
    NewTransport net .nil "" = (.nil, none) ∧
    (∀ proxyURL : String, proxyURL ≠ "" → net.urlParse proxyURL = none →
      NewTransport net base proxyURL = (.nil, some (net.urlError proxyURL)) ∧
      (NewTransport net base proxyURL).2 ≠ none) := by
  refine ⟨rfl, rfl, ?_⟩
  intro proxyURL hne hp
  have e : NewTransport net base proxyURL = (.nil, some (net.urlError proxyURL)) := by
    unfold NewTransport
    rw [if_neg hne, hp]
  refine ⟨e, ?_⟩
  rw [e]
  exact Option.some_ne_none _

/-- C24, at the base `http.DefaultTransport`: the empty proxy URL gives the base back, and
`://invalid` gives an error and no transport. -/
theorem NewTransport_empty_or_invalid_witness :
    NewTransport Ref.net Examples.defaultBase "" = (Examples.defaultBase, none) ∧
    "://invalid" ≠ "" ∧
    Ref.net.urlParse "://invalid" = none ∧
    NewTransport Ref.net Examples.defaultBase "://invalid"
      = (.nil, some (Ref.net.urlError "://invalid")) ∧
    (NewTransport Ref.net Examples.defaultBase "://invalid").2 ≠ none :=
  ⟨(NewTransport_empty_or_invalid Ref.net Examples.defaultBase).1, by decide, by decide,
    ((NewTransport_empty_or_invalid Ref.net Examples.defaultBase).2.2 "://invalid" (by decide)
      (by decide)).1,
    ((NewTransport_empty_or_invalid Ref.net Examples.defaultBase).2.2 "://invalid" (by decide)
      (by decide)).2⟩

/-- C25: for every non-empty `proxyURL` that parses, `NewTransport(base, proxyURL)` returns,
with a nil error, a `*Transport` of this package whose `Base` is `base` and whose `ProxyURL`
is the parsed URL.  It is not an `*http.Transport`: the type assertion fails for it.  An
`http.Transport` with a `Proxy` function exists only inside `RoundTrip`, which builds one for
each request; the `Proxy` function of that one returns the parsed URL, with a nil error,
for every request. -/
theorem NewTransport_valid (net : Net) (h : HTTP) (base : RoundTripper) (proxyURL : String)
    (u : URL) (hne : proxyURL ≠ "") (hu : net.urlParse proxyURL = some u) :
    NewTransport net base proxyURL = (.proxy base (some u), none) ∧
    (NewTransport net base proxyURL).1.asHTTPTransport = none ∧
    (∀ r : HTTPRequest,
      RoundTripper.RoundTrip h (NewTransport net base proxyURL).1 r
        = .done (h.roundTrip
            (Transport.proxyTransport { Base := base, ProxyURL := some u } u) r)) ∧
    (∃ f, (Transport.proxyTransport { Base := base, ProxyURL := some u } u).Proxy = some f ∧
      ∀ r : HTTPRequest, f r = (some u, none) ∧
        (f r).1.map net.urlString = some (net.urlString u)) := by
  have e : NewTransport net base proxyURL = (.proxy base (some u), none) := by
    unfold NewTransport
    rw [if_neg hne, hu]
  refine ⟨e, ?_, ?_, ?_⟩
  · rw [e]
    rfl
  · intro r
    rw [e]
    cases base <;> rfl
  · refine ⟨fun _ => (some u, none), ?_, fun _ => ⟨rfl, rfl⟩⟩
    unfold Transport.proxyTransport
    cases base <;> rfl

/-- C25, at the input of the repository's test: `NewTransport(http.DefaultTransport,
"http://proxy.example.com:8080")` returns the `*Transport` that wraps the base, and the
assertion `transport.(*http.Transport)` fails. -/
theorem NewTransport_valid_witness :
    "http://proxy.example.com:8080" ≠ "" ∧
    Ref.net.urlParse "http://proxy.example.com:8080"
      = some { Scheme := "http", Host := "proxy.example.com:8080" } ∧
    (NewTransport Ref.net Examples.defaultBase "http://proxy.example.com:8080").2 = none ∧
    (NewTransport Ref.net Examples.defaultBase
      "http://proxy.example.com:8080").1.asHTTPTransport = none ∧
    Ref.net.urlString { Scheme := "http", Host := "proxy.example.com:8080" }
      = "http://proxy.example.com:8080" :=
  ⟨by decide, by decide, rfl,
    (NewTransport_valid Ref.net
      { roundTrip := fun _ _ => .error (.other "no network"), defaultTransport := {} }
      Examples.defaultBase "http://proxy.example.com:8080"
      { Scheme := "http", Host := "proxy.example.com:8080" } (by decide) (by decide)).2.1,
    by decide⟩

end proxy

/-! ## Repeated relations in a `Link` header -/

theorem reverse_head_append_right (a b : List Char) (d : Char)
    (h : b.reverse.head? = some d) : (a ++ b).reverse.head? = some d := by
  rw [List.reverse_append]
  cases hr : b.reverse with
  | nil => rw [hr] at h; cases h
  | cons y r => rw [hr] at h; simpa using h

namespace scm

theorem setRel_nextURL (page : String) (p : Page) (a : String) :
    (setRel page p a).NextURL = p.NextURL := by
  unfold setRel
  simp only
  split_ifs <;> rfl

theorem foldl_setRel_nextURL (page : String) (p : Page) (as : List String) :
    (as.foldl (setRel page) p).NextURL = p.NextURL := by
  induction as generalizing p with
  | nil => rfl
  | cons a as ih => rw [List.foldl_cons, ih, setRel_nextURL]

theorem linkStep_nextURL (lib : Lib) (p : Page) (m : String) :
    (linkStep lib p m).NextURL = p.NextURL := by
  cases hs : Split (TrimSpace m) ';' with
  | nil => rw [linkStep_short lib p m (by rw [hs]; exact Nat.zero_lt_two)]
  | cons seg0 rest =>
    cases rest with
    | nil => rw [linkStep_short lib p m (by rw [hs]; exact Nat.one_lt_two)]
    | cons a as =>
      rw [linkStep_parts lib p m seg0 a as hs]
      split_ifs
      · rfl
      · split
        · rfl
        · split_ifs
          · rfl
          · exact foldl_setRel_nextURL _ _ _

theorem foldl_linkStep_nextURL (lib : Lib) (p : Page) (ms : List String) :
    (ms.foldl (linkStep lib) p).NextURL = p.NextURL := by
  induction ms generalizing p with
  | nil => rfl
  | cons m ms ih => rw [List.foldl_cons, ih, linkStep_nextURL]

theorem pageFrom_single (lib : Lib) (p : Page) (m : String) (hm : ',' ∉ m.toList) :
    pageFrom lib p m = linkStep lib p m := by
  rw [pageFrom_eq]
  unfold Split
  rw [splitOn_of_not_mem _ _ hm]
  rfl

theorem segmentText_no_comma (U : String) (R : Rel) (h : ',' ∉ U.toList) :
    ',' ∉ (segmentText U R).toList :=
  renderLink_no_comma { url := U, rel := R, page := 0 } h

theorem spaced_renderLink_no_comma (ws : String) (l : Link) (hws : ws = "" ∨ ws = " ")
    (h : ',' ∉ l.url.toList) : ',' ∉ (ws ++ renderLink l).toList := by
  rw [toList_append]
  have h1 : ',' ∉ ws.toList := by rcases hws with e | e <;> subst e <;> decide
  have h2 := renderLink_no_comma l h
  intro hmem
  rcases List.mem_append.mp hmem with e | e
  · exact h1 e
  · exact h2 e

theorem pageFrom_appendLinks (lib : Lib) (p : Page) (X : String) (T : List (String × Link))
    (R : Rel)
    (hT : ∀ wl ∈ T, (wl.1 = "" ∨ wl.1 = " ") ∧ wl.2.wellFormed lib ∧ wl.2.rel ≠ R) :
    (pageFrom lib p (appendLinks X T)).get R = (pageFrom lib p X).get R := by
  induction T generalizing X with
  | nil => rfl
  | cons wl T ih =>
    have hl := hT wl (List.mem_cons_self _ _)
    show (pageFrom lib p (appendLinks (X ++ "," ++ (wl.1 ++ renderLink wl.2)) T)).get R = _
    rw [ih _ (fun z hz => hT z (List.mem_cons_of_mem _ hz)),
      pageFrom_append lib p X _ (spaced_renderLink_no_comma wl.1 wl.2 hl.1 hl.2.1.1),
      linkStep_wellFormed lib (pageFrom lib p X) wl.2 wl.1 hl.1 hl.2.1, Page.get_set,
      if_neg hl.2.2]

theorem attrsText_cons (R : Rel) (Rs : List Rel) :
    (attrsText (R :: Rs)).toList = ';' :: ' ' :: (R.attr.toList ++ (attrsText Rs).toList) := by
  show ("; " ++ R.attr ++ attrsText Rs).toList = _
  rw [toList_append, toList_append]
  rfl

theorem Rel.attr_no_comma2 (R : Rel) : ',' ∉ R.attr.toList := by
  cases R <;> decide

theorem Rel.attr_last (R : Rel) : R.attr.toList.reverse.head? = some '"' := by
  cases R <;> rfl

theorem attrsText_no_comma (Rs : List Rel) : ',' ∉ (attrsText Rs).toList := by
  induction Rs with
  | nil => exact List.not_mem_nil _
  | cons R Rs ih =>
    rw [attrsText_cons]
    intro hm
    rcases List.mem_cons.mp hm with e | hm
    · exact absurd e (by decide)
    · rcases List.mem_cons.mp hm with e | hm
      · exact absurd e (by decide)
      · rcases List.mem_append.mp hm with hm | hm
        · exact Rel.attr_no_comma2 R hm
        · exact ih hm

theorem attrsText_last (R : Rel) (Rs : List Rel) :
    (attrsText (R :: Rs)).toList.reverse.head? = some '"' := by
  induction Rs generalizing R with
  | nil =>
    rw [attrsText_cons]
    show (';' :: ' ' :: (R.attr.toList ++ [])).reverse.head? = some '"'
    rw [List.append_nil]
    exact reverse_head_append_right [';', ' '] R.attr.toList '"' (Rel.attr_last R)
  | cons S Rs ih =>
    rw [attrsText_cons]
    have h := reverse_head_append_right (';' :: ' ' :: R.attr.toList) _ '"' (ih S)
    simpa using h

theorem multiSegment_toList (U : String) (Rs : List Rel) :
    (multiSegment U Rs).toList = '<' :: (U.toList ++ '>' :: (attrsText Rs).toList) := by
  unfold multiSegment
  rw [toList_append, toList_append]
  show ['<'] ++ U.toList ++ ['>'] ++ (attrsText Rs).toList = _
  simp

theorem multiSegment_no_comma (U : String) (Rs : List Rel) (h : ',' ∉ U.toList) :
    ',' ∉ (multiSegment U Rs).toList := by
  rw [multiSegment_toList]
  intro hm
  rcases List.mem_cons.mp hm with e | hm
  · exact absurd e (by decide)
  · rcases List.mem_append.mp hm with hm | hm
    · exact h hm
    · rcases List.mem_cons.mp hm with e | hm
      · exact absurd e (by decide)
      · exact attrsText_no_comma Rs hm

theorem isSpace_gt : isSpace '>' = false := by decide

theorem trimSpace_multiSegment (U : String) (Rs : List Rel) :
    trimSpace (multiSegment U Rs).toList = (multiSegment U Rs).toList := by
  rw [multiSegment_toList]
  cases Rs with
  | nil =>
    have hl : ('<' :: (U.toList ++ '>' :: (attrsText []).toList)).reverse.head? = some '>' :=
      reverse_head_append_right ('<' :: U.toList) ['>'] '>' rfl
    exact trimSpace_eq_self (c := '<') (d := '>') rfl isSpace_lt hl isSpace_gt
  | cons R Rs =>
    have hl : ('<' :: (U.toList ++ '>' :: (attrsText (R :: Rs)).toList)).reverse.head?
        = some '"' := by
      have h1 := reverse_head_append_right ('<' :: U.toList ++ ['>']) _ '"' (attrsText_last R Rs)
      simpa using h1
    exact trimSpace_eq_self (c := '<') (d := '"') rfl isSpace_lt hl isSpace_quote

theorem splitOn_attrsText (a : List Char) (Rs : List Rel) (h : ';' ∉ a) :
    splitOn ';' (a ++ (attrsText Rs).toList) = a :: Rs.map fun R => ' ' :: R.attr.toList := by
  induction Rs generalizing a with
  | nil =>
    show splitOn ';' (a ++ []) = [a]
    rw [List.append_nil]
    exact splitOn_of_not_mem _ _ h
  | cons R Rs ih =>
    rw [attrsText_cons, splitOn_append_sep _ _ _ h]
    have e : ' ' :: (R.attr.toList ++ (attrsText Rs).toList)
        = (' ' :: R.attr.toList) ++ (attrsText Rs).toList := rfl
    rw [e, ih _ (Rel.attr_no_semicolon R)]
    rfl

theorem foldl_setRel_attrs (page : String) (p : Page) (Rs : List Rel) :
    (Rs.map fun R => String.mk (' ' :: R.attr.toList)).foldl (setRel page) p
      = Rs.foldl (fun q R => q.set R (Atoi page).1) p := by
  induction Rs generalizing p with
  | nil => rfl
  | cons R Rs ih =>
    simp only [List.map_cons, List.foldl_cons]
    rw [setRel_attr, ih]

theorem linkStep_multiSegment (lib : Lib) (p : Page) (U : String) (Rs : List Rel) (ws : String)
    (hws : ws = "" ∨ ws = " ") (hsemi : ';' ∉ U.toList) (u : URL)
    (hu : lib.urlParse U = some u) (hne : lib.queryGet u "page" ≠ "") :
    linkStep lib p (ws ++ multiSegment U Rs)
      = Rs.foldl (fun q R => q.set R (Atoi (lib.queryGet u "page")).1) p := by
  have htrim : TrimSpace (ws ++ multiSegment U Rs) = multiSegment U Rs := by
    unfold TrimSpace
    rw [toList_append]
    rcases hws with h | h <;> subst h
    · show String.mk (trimSpace ([] ++ (multiSegment U Rs).toList)) = _
      rw [List.nil_append, trimSpace_multiSegment, mk_toList]
    · show String.mk (trimSpace ([' '] ++ (multiSegment U Rs).toList)) = _
      rw [List.singleton_append, trimSpace_space, trimSpace_multiSegment, mk_toList]
  have hsemi2 : ';' ∉ '<' :: (U.toList ++ ['>']) := by
    intro hm
    rcases List.mem_cons.mp hm with e | hm
    · exact absurd e (by decide)
    · rcases List.mem_append.mp hm with hm | hm
      · exact hsemi hm
      · exact absurd (List.mem_singleton.mp hm) (by decide)
  have hsplit : Split (multiSegment U Rs) ';'
      = String.mk ('<' :: (U.toList ++ ['>']))
          :: Rs.map fun R => String.mk (' ' :: R.attr.toList) := by
    unfold Split
    rw [multiSegment_toList]
    have e : '<' :: (U.toList ++ '>' :: (attrsText Rs).toList)
        = ('<' :: (U.toList ++ ['>'])) ++ (attrsText Rs).toList := by simp
    rw [e, splitOn_attrsText _ _ hsemi2, List.map_cons, List.map_map]
    rfl
  cases Rs with
  | nil =>
    exact linkStep_short lib p _ (by rw [htrim, hsplit]; exact Nat.one_lt_two)
  | cons R Rs =>
    have hpre : HasPrefix (String.mk ('<' :: (U.toList ++ ['>']))) "<" = true := by
      show List.isPrefixOf ['<'] ('<' :: (U.toList ++ ['>'])) = true
      simp [List.isPrefixOf]
    have hsuf : HasSuffix (String.mk ('<' :: (U.toList ++ ['>']))) ">" = true := by
      show List.isPrefixOf ['>'] ('<' :: (U.toList ++ ['>'])).reverse = true
      simp [List.isPrefixOf]
    have hinner : String.mk ((String.mk ('<' :: (U.toList ++ ['>']))).toList.drop 1).dropLast
        = U := by
      show String.mk (U.toList ++ ['>']).dropLast = U
      rw [List.dropLast_concat, mk_toList]
    rw [linkStep_parts lib p _ _ (String.mk (' ' :: R.attr.toList))
      (Rs.map fun R => String.mk (' ' :: R.attr.toList)) (by rw [htrim, hsplit]; rfl)]
    rw [hpre, hsuf, hinner, hu]
    simp only [Bool.not_true, Bool.or_self, Bool.false_eq_true, if_false, hne]
    exact foldl_setRel_attrs _ p (R :: Rs)

theorem foldl_set_same (Rs : List Rel) (p : Page) (n : Int) (S : Rel) :
    (Rs.foldl (fun q R => q.set R n) p).get S = if S ∈ Rs then n else p.get S := by
  induction Rs generalizing p with
  | nil => rfl
  | cons R Rs ih =>
    rw [List.foldl_cons, ih, Page.get_set]
    by_cases h1 : S ∈ Rs
    · simp [h1]
    · by_cases h2 : R = S
      · subst h2; simp
      · have h3 : S ≠ R := fun e => h2 e.symm
        simp [h1, h2, h3]

/-- C29 (amended): the last occurrence of a relation wins.  For every header that holds a
segment `<U1>; rel="R"`, anything after it, and then, after a `,` and at most one space, a
segment `<U2>; rel="R"` whose `page` parameter is the decimal integer `N2` within the range
of `int`, followed only by well-formed segments for other relations (each after a `,` and
at most one space), `populatePageValues` leaves the field of `R` equal to `N2`, whatever
precedes.  A single segment with several `rel` attributes assigns the value `strconv.Atoi`
returns for its `page` parameter, which is the number written there when that is a decimal
integer within the range of `int`, to every relation it names.  The parse writes only
`Next`, `Prev`, `First` and `Last`: `NextURL` and the `Status`, `Header`, `Body`, `ID` and
`Rate` of the `Response` are unchanged. -/
theorem populatePageValues_last_wins (lib : Lib) (p : Page) (H M ws U1 U2 : String) (R : Rel)
    (T : List (String × Link)) (u2 : URL) (N2 : Int)
    (hws : ws = "" ∨ ws = " ")
    (hc2 : ',' ∉ U2.toList) (hs2 : ';' ∉ U2.toList) (hu2 : lib.urlParse U2 = some u2)
    (hq2 : decimalValue (lib.queryGet u2 "page") = some N2)
    (hlo : minInt ≤ N2) (hhi : N2 ≤ maxInt)
    (hT : ∀ wl ∈ T, (wl.1 = "" ∨ wl.1 = " ") ∧ wl.2.wellFormed lib ∧ wl.2.rel ≠ R) :
    (pageFrom lib p
      (appendLinks (H ++ segmentText U1 R ++ M ++ "," ++ (ws ++ segmentText U2 R)) T)).get R
        = N2 ∧
    (∀ (U sp : String) (Rs : List Rel) (u : URL), (sp = "" ∨ sp = " ") →
      ',' ∉ U.toList → ';' ∉ U.toList →
      lib.urlParse U = some u → lib.queryGet u "page" ≠ "" →
      pageFrom lib p (multiSegment U Rs)
        = Rs.foldl (fun q S => q.set S (Atoi (lib.queryGet u "page")).1) p ∧
      pageFrom lib p (H ++ "," ++ (sp ++ multiSegment U Rs))
        = Rs.foldl (fun q S => q.set S (Atoi (lib.queryGet u "page")).1) (pageFrom lib p H) ∧
      (∀ S ∈ Rs, (pageFrom lib p (multiSegment U Rs)).get S = (Atoi (lib.queryGet u "page")).1 ∧
        (pageFrom lib p (H ++ "," ++ (sp ++ multiSegment U Rs))).get S
          = (Atoi (lib.queryGet u "page")).1) ∧
      (∀ n : Int, decimalValue (lib.queryGet u "page") = some n → minInt ≤ n → n ≤ maxInt →
        ∀ S ∈ Rs, (pageFrom lib p (multiSegment U Rs)).get S = n ∧
          (pageFrom lib p (H ++ "," ++ (sp ++ multiSegment U Rs))).get S = n)) ∧
    (∀ r : Response,
      (Response.populatePageValues lib r).Page.NextURL = r.Page.NextURL ∧
      (Response.populatePageValues lib r).Status = r.Status ∧
      (Response.populatePageValues lib r).Header = r.Header ∧
      (Response.populatePageValues lib r).Body = r.Body ∧
      (Response.populatePageValues lib r).ID = r.ID ∧
      (Response.populatePageValues lib r).Rate = r.Rate) := by
  refine ⟨?_, ?_, ?_⟩
  · have hm : ',' ∉ (ws ++ segmentText U2 R).toList :=
      spaced_renderLink_no_comma ws { url := U2, rel := R, page := 0 } hws hc2
    rw [pageFrom_appendLinks lib p _ T R hT, pageFrom_append lib p _ _ hm,
      linkStep_segment lib _ U2 R ws hws hs2 u2 hu2 (decimalValue_ne_empty _ _ hq2),
      Page.get_set, if_pos rfl, Atoi_of_decimalValue _ _ hq2 hlo hhi]
  · intro U sp Rs u hsp hc hs hu hne
    have hstep0 := fun q => linkStep_multiSegment lib q U Rs "" (Or.inl rfl) hs u hu hne
    simp only [empty_append] at hstep0
    have hstep := fun q => linkStep_multiSegment lib q U Rs sp hsp hs u hu hne
    have hm : ',' ∉ (sp ++ multiSegment U Rs).toList := by
      rw [toList_append]
      have h1 : ',' ∉ sp.toList := by rcases hsp with e | e <;> subst e <;> decide
      have h2 := multiSegment_no_comma U Rs hc
      intro hmem
      rcases List.mem_append.mp hmem with e | e
      · exact h1 e
      · exact h2 e
    have e1 : pageFrom lib p (multiSegment U Rs)
        = Rs.foldl (fun q S => q.set S (Atoi (lib.queryGet u "page")).1) p := by
      rw [pageFrom_single lib p _ (multiSegment_no_comma U Rs hc), hstep0]
    have e2 : pageFrom lib p (H ++ "," ++ (sp ++ multiSegment U Rs))
        = Rs.foldl (fun q S => q.set S (Atoi (lib.queryGet u "page")).1)
            (pageFrom lib p H) := by
      rw [pageFrom_append lib p H _ hm, hstep]
    have e3 : ∀ S ∈ Rs,
        (pageFrom lib p (multiSegment U Rs)).get S = (Atoi (lib.queryGet u "page")).1 ∧
        (pageFrom lib p (H ++ "," ++ (sp ++ multiSegment U Rs))).get S
          = (Atoi (lib.queryGet u "page")).1 := by
      intro S hS
      rw [e1, e2, foldl_set_same, foldl_set_same]
      exact ⟨if_pos hS, if_pos hS⟩
    refine ⟨e1, e2, e3, ?_⟩
    intro n hn hlo2 hhi2 S hS
    have ha : (Atoi (lib.queryGet u "page")).1 = n := by
      rw [Atoi_of_decimalValue _ _ hn hlo2 hhi2]
    rw [← ha]
    exact e3 S hS
  · intro r
    exact ⟨foldl_linkStep_nextURL lib r.Page _, rfl, rfl, rfl, rfl, rfl⟩

/-- C29, worked example: `next` is given as page 2, then `prev` as page 1, then, after a
`,` and a space, `next` as page 7, followed by `last` as page 5: `Next` is 7; and the
segment `<U?page=3>; rel="next"; rel="last"` sets both `Next` and `Last` to 3. -/
theorem populatePageValues_last_wins_witness :
    "" ++ segmentText "https://api.example.com/x?page=2" .next ++
        ", <https://api.example.com/x?page=1>; rel=\"prev\"" ++ "," ++
        (" " ++ segmentText "https://api.example.com/x?page=7" .next)
      = "<https://api.example.com/x?page=2>; rel=\"next\", " ++
        "<https://api.example.com/x?page=1>; rel=\"prev\", " ++
        "<https://api.example.com/x?page=7>; rel=\"next\"" ∧
    (pageFrom Ref.lib {}
      (appendLinks
        ("" ++ segmentText "https://api.example.com/x?page=2" .next ++
          ", <https://api.example.com/x?page=1>; rel=\"prev\"" ++ "," ++
          (" " ++ segmentText "https://api.example.com/x?page=7" .next))
        [(" ", { url := "https://api.example.com/x?page=5", rel := .last, page := 5 })])).get
        .next
      = 7 ∧
    pageFrom Ref.lib {} (multiSegment "https://api.example.com/x?page=3" [.next, .last])
      = { Next := 3, Last := 3 } :=
  have h := populatePageValues_last_wins Ref.lib {} ""
    ", <https://api.example.com/x?page=1>; rel=\"prev\"" " "
    "https://api.example.com/x?page=2"
    "https://api.example.com/x?page=7" .next
    [(" ", { url := "https://api.example.com/x?page=5", rel := .last, page := 5 })]
    { Scheme := "https", Host := "api.example.com", Path := "/x", RawQuery := "page=7" } 7
    (Or.inr rfl)
    (by decide) (by decide) (by decide) (by decide) (by decide) (by decide)
    (fun wl hl => by
      rw [List.mem_singleton] at hl
      subst hl
      exact ⟨Or.inr rfl, ⟨by decide, by decide,
        { Scheme := "https", Host := "api.example.com", Path := "/x", RawQuery := "page=5" },
        by decide, by decide, by decide, by decide⟩, by decide⟩)
  ⟨by decide, h.1,
    (h.2.1 "https://api.example.com/x?page=3" "" [.next, .last]
      { Scheme := "https", Host := "api.example.com", Path := "/x", RawQuery := "page=3" }
      (Or.inl rfl) (by decide) (by decide) (by decide) (by decide)).1⟩

/-- C29 (as stated) fails: `next` is given as page 1 and then as the integer
9223372036854775808, and `Next` is 9223372036854775807, not the second page number. -/
theorem populatePageValues_last_wins_counterexample :
    decimalValue "9223372036854775808" = some 9223372036854775808 ∧
    (pageFrom Ref.lib {}
      (segmentText "https://api.example.com/x?page=1" .next ++ "," ++
        segmentText "https://api.example.com/x?page=9223372036854775808" .next)).get .next
      = 9223372036854775807 ∧
    (pageFrom Ref.lib {}
      (segmentText "https://api.example.com/x?page=1" .next ++ "," ++
        segmentText "https://api.example.com/x?page=9223372036854775808" .next)).get .next
      ≠ 9223372036854775808 := by
  decide

end scm

namespace github

theorem errorMessage_fold (kvs : List (String × JSON)) (msg : String)
    (h : ∀ kv ∈ kvs, equalFold kv.1 "message" = false) :
    kvs.foldl (fun msg kv =>
      if equalFold kv.1 "message" then
        match kv.2 with
        | .str s => s
        | _ => msg
      else msg) msg = msg := by
  induction kvs generalizing msg with
  | nil => rfl
  | cons kv kvs ih =>
    rw [List.foldl_cons, h kv (List.mem_cons_self _ _)]
    exact ih msg (fun x hx => h x (List.mem_cons_of_mem _ hx))

/-- C30: when `Client.Do` returns the response `r0` without an error, `wrapper.do` returns
the response in every case.  For a status code above 300 the error is a `*Error` whose
`Message` is decoded from the body, and `out` is left as it was; the message is empty when
the body holds no JSON value, a value that is not an object, or an object without a
`message` member, and it is the string of the `message` member otherwise.  For a status code
of 300 or below the error is nil when `out` is nil, and otherwise `out` receives the decoded
body and the error is that of the decoder. -/
theorem do_status {α : Type} (net : Net) (c : scm.Client) (ctx : scm.Context)
    (method path : String) (input : Option (List Byte)) (out : Option α)
    (decode : Body → α → α × Option scm.Error) (r0 : scm.Response)
    (hmu : c.mu = false)
    (herr : (c.Do net ctx (request method path input)).err = none)
    (hres : (c.Do net ctx (request method path input)).res = some r0) :
    (∃ result r, wrapper.do net c ctx method path input out decode = .done result ∧
      result.res = some r ∧ r.Status = r0.Status ∧ r.Header = r0.Header ∧ r.Body = r0.Body ∧
      (r0.Status > 300 →
        result.err = some (.github (errorMessage (net.decodeFirst r0.Body))) ∧
        result.err ≠ none ∧ result.out = out) ∧
      (r0.Status ≤ 300 → out = none → result.err = none ∧ result.out = none) ∧
      (r0.Status ≤ 300 → ∀ v, out = some v →
        result.err = (decode r0.Body v).2 ∧ result.out = some (decode r0.Body v).1)) ∧
    errorMessage none = "" ∧
    (∀ doc : JSON, (∀ kvs, doc ≠ .obj kvs) → errorMessage (some doc) = "") ∧
    (∀ kvs : List (String × JSON), (∀ kv ∈ kvs, equalFold kv.1 "message" = false) →
      errorMessage (some (.obj kvs)) = "") ∧
    (∀ (kvs1 kvs2 : List (String × JSON)) (key s : String), equalFold key "message" = true →
      (∀ kv ∈ kvs2, equalFold kv.1 "message" = false) →
      errorMessage (some (.obj (kvs1 ++ (key, .str s) :: kvs2))) = s) := by
  refine ⟨?_, rfl, ?_, ?_, ?_⟩
  · have hdo := do_of_response net c ctx method path input out decode r0 hmu herr hres
    refine ⟨_, _, hdo, rfl, rfl, rfl, rfl, ?_, ?_, ?_⟩
    · intro hs
      exact ⟨if_pos hs, fun hn => Option.some_ne_none _ ((if_pos hs).symm.trans hn), if_pos hs⟩
    · intro hs ho
      have hns : ¬ r0.Status > 300 := not_lt.mpr hs
      subst ho
      exact ⟨if_neg hns, if_neg hns⟩
    · intro hs v ho
      have hns : ¬ r0.Status > 300 := not_lt.mpr hs
      subst ho
      exact ⟨if_neg hns, if_neg hns⟩
  · intro doc hdoc
    cases doc with
    | obj kvs => exact absurd rfl (hdoc kvs)
    | null => rfl
    | bool b => rfl
    | int n => rfl
    | dec m e => rfl
    | str s => rfl
    | arr xs => rfl
  · intro kvs h
    exact errorMessage_fold kvs "" h
  · intro kvs1 kvs2 key s hk h
    show (kvs1 ++ (key, JSON.str s) :: kvs2).foldl _ "" = s
    rw [List.foldl_append, List.foldl_cons]
    simp only [hk, if_true]
    exact errorMessage_fold kvs2 s h

/-- C30, worked example: the response 404 with the body `{"message":"Not Found"}` gives the
error with the message `Not Found` together with the response, whatever `out` is; the
response 200 gives the decoded value and a nil error. -/
theorem do_status_witness :
    (Examples.answering Examples.notFound).mu = false ∧
    (∃ result r,
      wrapper.do Ref.net (Examples.answering Examples.notFound) {} "GET" "app" none
        (some ({} : app)) Examples.decodeApp = .done result ∧
      result.res = some r ∧ r.Status = 404 ∧
      result.err = some (.github "Not Found") ∧ result.out = some {}) ∧
    (∃ result r,
      wrapper.do Ref.net (Examples.answering Examples.appFound) {} "GET" "app" none
        (some ({} : app)) Examples.decodeApp = .done result ∧
      result.res = some r ∧ r.Status = 200 ∧
      result.err = none ∧
      result.out = some { ID := 1, Slug := "octoapp", Name := "octocat-app" }) :=
  ⟨rfl,
    match (do_status Ref.net (Examples.answering Examples.notFound) {} "GET" "app" none
      (some ({} : app)) Examples.decodeApp (scm.newResponse Ref.lib Examples.notFound)
      rfl rfl rfl).1 with
    | ⟨result, r, h, hr, hs, _, _, hhigh, _, _⟩ =>
      ⟨result, r, h, hr, hs, (hhigh (by decide)).1, (hhigh (by decide)).2.2⟩,
    match (do_status Ref.net (Examples.answering Examples.appFound) {} "GET" "app" none
      (some ({} : app)) Examples.decodeApp (scm.newResponse Ref.lib Examples.appFound)
      rfl rfl rfl).1 with
    | ⟨result, r, h, hr, hs, _, _, _, _, hlow⟩ =>
      ⟨result, r, h, hr, hs, (hlow (by decide) {} rfl).1, (hlow (by decide) {} rfl).2⟩⟩

end github

namespace azure

/-! ## The read cap of `Parse` -/

theorem Parse_eq_decodeEvent (lib : Lib) (req : Request) (fn : Option scm.SecretFunc) :
    Parse lib req fn =
      match readAllLimit req.Body 10000000 with
      | .error err => .done (none, some err)
      | .ok data => decodeEvent lib data := by
  unfold Parse decodeEvent
  cases readAllLimit req.Body 10000000 <;> rfl

theorem take_of_length {α : Type} (l t : List α) (n : Nat) (h : l.length = n) :
    (l ++ t).take n = l := by
  subst h
  exact List.take_left l t

theorem decodeEvent_of_scan (lib : Lib) (d1 d2 : List Byte) (h : lib.scan d1 = lib.scan d2) :
    decodeEvent lib d1 = decodeEvent lib d2 := by
  unfold decodeEvent unmarshalMap unmarshalPushHook unmarshalCreatePullRequestHook
    unmarshalUpdatePullRequestHook unmarshalMergePullRequestHook
  rw [h]

theorem decodeEvent_of_scan_none (lib : Lib) (d : List Byte) (h : lib.scan d = none) :
    decodeEvent lib d = .done (none, some .parsingJSON) := by
  unfold decodeEvent unmarshalMap
  rw [h]

theorem decodeEvent_ne_read (lib : Lib) (data : List Byte) (e : String) :
    decodeEvent lib data ≠ .done (none, some (.read e)) := by
  unfold decodeEvent
  intro h
  repeat' split at h
  all_goals cases h

end azure

namespace Ref

theorem dropWhile_isWs_replicate (k : Nat) (t : List Byte) :
    (List.replicate k 32 ++ t).dropWhile isWs = t.dropWhile isWs := by
  induction k with
  | zero => rfl
  | succ k ih =>
    rw [List.replicate_succ, List.cons_append, List.dropWhile_cons_of_pos (by decide)]
    exact ih

theorem lib_scan : lib.scan = scan := rfl

theorem scanValue_pushBody (F : Nat) (t : List Byte) :
    scanValue (F + 40) (bytesOf Examples.pushBody ++ t)
      = (scanValue 40 (bytesOf Examples.pushBody)).map fun p => (p.1, t) :=
  rfl

theorem scan_pushBody_padded (k : Nat) (t : List Byte) :
    scan (bytesOf Examples.pushBody ++ (List.replicate k 32 ++ t))
      = if t.dropWhile isWs = [] then scan (bytesOf Examples.pushBody) else none := by
  have hlen : ∃ F, 2 * (bytesOf Examples.pushBody ++ (List.replicate k 32 ++ t)).length + 2
      = F + 40 := by
    refine ⟨2 * (bytesOf Examples.pushBody ++ (List.replicate k 32 ++ t)).length + 2 - 40, ?_⟩
    have h563 : (bytesOf Examples.pushBody).length = 563 := by decide
    rw [List.length_append, h563]
    omega
  obtain ⟨F, hF⟩ := hlen
  unfold scan
  rw [hF, scanValue_pushBody F]
  have h0 : scanValue (2 * (bytesOf Examples.pushBody).length + 2) (bytesOf Examples.pushBody)
      = (scanValue 40 (bytesOf Examples.pushBody)).map fun p => (p.1, []) := by rfl
  rw [h0]
  cases scanValue 40 (bytesOf Examples.pushBody) with
  | none => simp
  | some p =>
    simp only [Option.map_some']
    rw [dropWhile_isWs_replicate]
    rfl

end Ref

namespace azure

/-- C9: the body is read up to 10,000,000 bytes and the rest is dropped silently.  For
every body longer than the cap, whatever follows its bytes (more bytes or a read error),
`Parse` returns what the statements after the read yield for exactly the first 10,000,000
bytes, which is what `Parse` returns for a body that consists of that prefix; and no read
error is returned. -/
theorem Parse_truncates (lib : Lib) (hdr : Header) (data : List Byte) (err : Option String)
    (fn : Option scm.SecretFunc) (hlong : 10000000 < data.length) :
    Parse lib { Header := hdr, Body := { data := data, err := err } } fn
      = decodeEvent lib (data.take 10000000) ∧
    (data.take 10000000).length = 10000000 ∧
    Parse lib { Header := hdr, Body := { data := data.take 10000000 } } fn
      = decodeEvent lib (data.take 10000000) ∧
    Parse lib { Header := hdr, Body := { data := data, err := err } } fn
      = Parse lib { Header := hdr, Body := { data := data.take 10000000 } } fn ∧
    ∀ e : String,
      Parse lib { Header := hdr, Body := { data := data, err := err } } fn
        ≠ .done (none, some (.read e)) := by
  have h1 : readAllLimit { data := data, err := err } 10000000 = .ok (data.take 10000000) := by
    simp [readAllLimit, Nat.le_of_lt hlong]
  have h2 : readAllLimit { data := data.take 10000000 } 10000000
      = .ok (data.take 10000000) := by
    simp [readAllLimit, List.length_take, Nat.le_of_lt hlong]
  have e1 : Parse lib { Header := hdr, Body := { data := data, err := err } } fn
      = decodeEvent lib (data.take 10000000) := by
    rw [Parse_eq_decodeEvent]
    simp only [h1]
  have e2 : Parse lib { Header := hdr, Body := { data := data.take 10000000 } } fn
      = decodeEvent lib (data.take 10000000) := by
    rw [Parse_eq_decodeEvent]
    simp only [h2]
  refine ⟨e1, ?_, e2, e1.trans e2.symm, ?_⟩
  · rw [List.length_take]
    exact Nat.min_eq_left (Nat.le_of_lt hlong)
  · intro e
    rw [e1]
    exact decodeEvent_ne_read lib _ e

end azure

namespace Examples

theorem paddedPushBody_length : 10000000 < paddedPushBody.length := by
  unfold paddedPushBody
  have h563 : (bytesOf pushBody).length = 563 := by rfl
  rw [List.length_append, List.length_append, List.length_replicate, h563]
  decide

theorem paddedPushBody_take :
    paddedPushBody.take 10000000 = bytesOf pushBody ++ List.replicate 9999437 32 := by
  have h563 : (bytesOf pushBody ++ List.replicate 9999437 32).length = 10000000 := by
    have h : (bytesOf pushBody).length = 563 := by rfl
    rw [List.length_append, List.length_replicate, h]
  exact azure.take_of_length _ _ _ h563

theorem scan_paddedPushBody_take :
    Ref.lib.scan (paddedPushBody.take 10000000) = Ref.lib.scan (bytesOf pushBody) := by
  have h := Ref.scan_pushBody_padded 9999437 []
  have h2 : List.dropWhile Ref.isWs ([] : List Byte) = [] := rfl
  rw [List.append_nil, if_pos h2] at h
  rw [paddedPushBody_take, Ref.lib_scan, h]

theorem scan_paddedPushBody : Ref.lib.scan paddedPushBody = none := by
  have h := Ref.scan_pushBody_padded 9999437 [120]
  rw [if_neg (by decide), ← List.append_assoc] at h
  rw [Ref.lib_scan]
  exact h

theorem decodeEvent_pushBody :
    azure.decodeEvent Ref.lib (bytesOf pushBody) = .done (some (.push pushEvent), none) := by
  decide

end Examples

namespace azure

/-- C9, at a body of 10,000,001 bytes followed by a read error: the push payload of the
scenario, spaces up to the cap, and a last byte `x` that would make the text invalid JSON.
The byte behind the cap and the read error are never seen, and `Parse` returns the push
hook of the payload. -/
theorem Parse_truncates_witness :
    10000000 < Examples.paddedPushBody.length ∧
    Parse Ref.lib { Body := { data := Examples.paddedPushBody, err := some "reset" } } none
      = .done (some (.push Examples.pushEvent), none) ∧
    decodeEvent Ref.lib Examples.paddedPushBody = .done (none, some .parsingJSON) := by
  refine ⟨Examples.paddedPushBody_length, ?_, ?_⟩
  · rw [(Parse_truncates Ref.lib [] Examples.paddedPushBody (some "reset") none
      Examples.paddedPushBody_length).1,
      decodeEvent_of_scan Ref.lib _ _ Examples.scan_paddedPushBody_take]
    exact Examples.decodeEvent_pushBody
  · exact decodeEvent_of_scan_none Ref.lib _ Examples.scan_paddedPushBody

end azure

namespace Ref

end Ref

namespace scm

end scm

end GoScm
